import Mathlib

/-! Key event translation of the Linux embedder (`fl_key_embedder_responder.cc`).

A shallow embedding of the responder that turns raw GTK key events into
Flutter key events, together with theorems about its pressing records,
mapping records, lock records and the events it sends to the engine.

Conventions of the embedding:

* `uint64_t`, `guint` and `int` values are natural numbers; the arithmetic
  of the source (bit masks, the `xor` of a mode bit, the case conversion of
  `to_lower`, stages below 16 and the scaling of a 32-bit time by 1000)
  cannot overflow.
* A `GHashTable` with directly hashed `uint64_t` keys and values is an
  association list with at most one entry per key, listed in the order in
  which the table is iterated.
* The `double` timestamps hold whole numbers of microseconds and are
  natural numbers.
* `g_return_if_fail` leaves the current function; the failed check is
  recorded in the `g_critical` log of the responder.
* The engine behind the weak reference is the list of key events it has
  been sent; a cleared weak reference is `none`.
-/

namespace FlKeyEmbedder

/-! ## GLib hash tables -/

/-- A `GHashTable` from `uint64_t` to `uint64_t`, both directly hashed. -/
abbrev GHashTable := List (Nat × Nat)

/-- The value stored for `key`, as `g_hash_table_lookup` finds it. -/
def g_hash_table_lookup : GHashTable → Nat → Option Nat
  | [], _ => none
  | (k, v) :: rest, key => if k = key then some v else g_hash_table_lookup rest key

/-- The table without the entry for `key`. -/
def g_hash_table_remove : GHashTable → Nat → GHashTable
  | [], _ => []
  | (k, v) :: rest, key =>
    if k = key then g_hash_table_remove rest key else (k, v) :: g_hash_table_remove rest key

/-- Replaces the value of the entry stored under `key`. -/
def g_hash_table_set_value : GHashTable → Nat → Nat → GHashTable
  | [], _, _ => []
  | (k, v) :: rest, key, value =>
    if k = key then (k, value) :: rest
    else (k, v) :: g_hash_table_set_value rest key value

/-- The table with `key` bound to `value`: an existing entry has its value
replaced, otherwise a new entry is added. -/
def g_hash_table_insert (table : GHashTable) (key value : Nat) : GHashTable :=
  match g_hash_table_lookup table key with
  | some _ => g_hash_table_set_value table key value
  | none => (key, value) :: table

/-- The value of the first entry for which the predicate holds, as
`g_hash_table_find` returns it. -/
def g_hash_table_find : GHashTable → (Nat → Nat → Bool) → Option Nat
  | [], _ => none
  | (k, v) :: rest, predicate =>
    if predicate k v then some v else g_hash_table_find rest predicate

/-- Look up a hash table that maps a uint64_t to a uint64_t; 0 if not found. -/
def lookup_hash_table (table : GHashTable) (key : Nat) : Nat :=
  match g_hash_table_lookup table key with
  | some v => v
  | none => 0

/-- The predicate handed to `g_hash_table_find`: the entry's value equals the
user data. -/
def hash_table_find_equal_value (_key value user_data : Nat) : Bool :=
  value == user_data

/-- Reverse look up: the result of `g_hash_table_find` for the entries whose
value is `value`; 0 if not found. -/
def reverse_lookup_hash_table (table : GHashTable) (value : Nat) : Nat :=
  match g_hash_table_find table (fun k v => hash_table_find_equal_value k v value) with
  | some v => v
  | none => 0

/-! ## Events and static configuration -/

/-- The kind of a key event sent to the engine. -/
inductive FlutterKeyEventType where
  | kFlutterKeyEventTypeUp
  | kFlutterKeyEventTypeDown
  | kFlutterKeyEventTypeRepeat
  deriving DecidableEq, Repr

open FlutterKeyEventType

/-- A key event as the engine receives it (`struct_size` left out). The
character is the code point that `event_to_character` encodes. -/
structure FlutterKeyEvent where
  timestamp : Nat
  type : FlutterKeyEventType
  physical : Nat
  logical : Nat
  character : Option Nat
  synthesized : Bool
  deriving DecidableEq, Repr

/-- The reserved event sent when a call sent nothing else. -/
def kEmptyEvent : FlutterKeyEvent :=
  { timestamp := 0, type := kFlutterKeyEventTypeDown, physical := 0, logical := 0,
    character := none, synthesized := false }

/-- A raw key event of the platform. -/
structure FlKeyEvent where
  time : Nat
  is_press : Bool
  keycode : Nat
  keyval : Nat
  state : Nat
  deriving DecidableEq, Repr

/-- The descriptor of a tracked modifier or lock key. -/
structure FlKeyEmbedderCheckedKey where
  primary_physical_key : Nat
  primary_logical_key : Nat
  secondary_logical_key : Nat
  is_caps_lock : Bool
  deriving DecidableEq, Repr

/-- The static data of `key_mapping.h` that the responder consumes: the plane
constants, the two key maps, the two tables of checked keys in their
iteration order, and the keyval to code point conversion of GDK. -/
structure KeyMapping where
  kValueMask : Nat
  kUnicodePlane : Nat
  kGtkPlane : Nat
  xkb_to_physical_key_map : List (Nat × Nat)
  gtk_keyval_to_logical_key_map : List (Nat × Nat)
  modifier_bit_to_checked_keys : List (Nat × FlKeyEmbedderCheckedKey)
  lock_bit_to_checked_keys : List (Nat × FlKeyEmbedderCheckedKey)
  gdk_keyval_to_unicode : Nat → Nat

/-- The inferred CapsLock state logic. -/
inductive StateLogicInferrence where
  | STATE_LOGIC_INFERRENCE_UNDECIDED
  | STATE_LOGIC_INFERRENCE_NORMAL
  | STATE_LOGIC_INFERRENCE_REVERSED
  deriving DecidableEq, Repr

open StateLogicInferrence

/-- The `g_return_if_fail` checks of the responder. -/
inductive Assertion where
  | pressing_key_not_down
  | pressing_key_down
  | modifier_logical_key_nonzero
  | modifier_recorded_physical_key
  | lock_pressed_logical_key
  | lock_inferrence_decided
  | lock_stage_in_range
  | lock_stage_order
  deriving DecidableEq, Repr

/-- The responder: the engine it sends to, its records, and the log of failed
checks. -/
structure FlKeyEmbedderResponder where
  engine : Option (List FlutterKeyEvent)
  pressing_records : GHashTable
  lock_records : Nat
  mapping_records : GHashTable
  caps_lock_state_logic_inferrence : StateLogicInferrence
  sent_any_events : Bool
  g_critical : List Assertion
  deriving DecidableEq, Repr

/-- The engine call `fl_engine_send_key_event` behind the weak reference:
a live engine receives the event, a cleared reference drops it. -/
def fl_engine_send_key_event (self : FlKeyEmbedderResponder) (event : FlutterKeyEvent) :
    FlKeyEmbedderResponder :=
  match self.engine with
  | some received => { self with engine := some (received ++ [event]) }
  | none => self

/-- A failed `g_return_if_fail`: the check is logged. -/
def g_return_if_fail_warning (self : FlKeyEmbedderResponder) (a : Assertion) :
    FlKeyEmbedderResponder :=
  { self with g_critical := self.g_critical ++ [a] }

/-- Creates a new responder for an engine reference. -/
def fl_key_embedder_responder_new (engine : Option (List FlutterKeyEvent)) :
    FlKeyEmbedderResponder :=
  { engine := engine, pressing_records := [], lock_records := 0, mapping_records := [],
    caps_lock_state_logic_inferrence := STATE_LOGIC_INFERRENCE_UNDECIDED,
    sent_any_events := false, g_critical := [] }

/-- The table from the primary logical key of each lock key to its lock bit,
filled in the iteration order of `lock_bit_to_checked_keys`. -/
def logical_key_to_lock_bit (cfg : KeyMapping) : GHashTable :=
  cfg.lock_bit_to_checked_keys.foldl
    (fun table entry => g_hash_table_insert table entry.2.primary_logical_key entry.1) []

/-! ## Key identity -/

def to_lower (n : Nat) : Nat :=
  if n ≥ 0x41 ∧ n ≤ 0x5a then n - 0x41 + 0x61
  else if n ≥ 0xc0 ∧ n ≤ 0xde ∧ n ≠ 0xf7 then n - 0xc0 + 0xe0
  else n

def apply_id_plane (cfg : KeyMapping) (logical_id plane : Nat) : Nat :=
  (logical_id &&& cfg.kValueMask) ||| plane

def event_to_physical_key (cfg : KeyMapping) (event : FlKeyEvent) : Nat :=
  match g_hash_table_lookup cfg.xkb_to_physical_key_map event.keycode with
  | some found => found
  | none => apply_id_plane cfg event.keycode cfg.kGtkPlane

def event_to_logical_key (cfg : KeyMapping) (event : FlKeyEvent) : Nat :=
  match g_hash_table_lookup cfg.gtk_keyval_to_logical_key_map event.keyval with
  | some found => found
  | none =>
    if event.keyval < 256 then apply_id_plane cfg (to_lower event.keyval) cfg.kUnicodePlane
    else apply_id_plane cfg event.keyval cfg.kGtkPlane

def kMicrosecondsPerMillisecond : Nat := 1000

def event_to_timestamp (event : FlKeyEvent) : Nat :=
  kMicrosecondsPerMillisecond * event.time

/-- The character of an event: the code point of the keyval, absent when the
conversion writes no item (code point 0). -/
def event_to_character (cfg : KeyMapping) (event : FlKeyEvent) : Option Nat :=
  let unicodeChar := cfg.gdk_keyval_to_unicode event.keyval
  if unicodeChar = 0 then none else some unicodeChar

/-! ## Record updates -/

/-- Sends a synthesized event to the framework with no demand for callback. -/
def synthesize_simple_event (self : FlKeyEmbedderResponder) (type : FlutterKeyEventType)
    (physical logical timestamp : Nat) : FlKeyEmbedderResponder :=
  let out_event : FlutterKeyEvent :=
    { timestamp := timestamp, type := type, physical := physical, logical := logical,
      character := none, synthesized := true }
  fl_engine_send_key_event { self with sent_any_events := true } out_event

/-- Update the pressing record: logical key 0 releases, any other logical key
presses; the key must be released before a press and pressed before a
release. -/
def update_pressing_state (self : FlKeyEmbedderResponder) (physical_key logical_key : Nat) :
    FlKeyEmbedderResponder :=
  if logical_key ≠ 0 then
    if lookup_hash_table self.pressing_records physical_key = 0 then
      { self with
        pressing_records := g_hash_table_insert self.pressing_records physical_key logical_key }
    else g_return_if_fail_warning self Assertion.pressing_key_not_down
  else
    if lookup_hash_table self.pressing_records physical_key ≠ 0 then
      { self with pressing_records := g_hash_table_remove self.pressing_records physical_key }
    else g_return_if_fail_warning self Assertion.pressing_key_down

/-- Update the lock record: flips the lock bit of `logical_key` on a down
event. -/
def possibly_update_lock_bit (cfg : KeyMapping) (self : FlKeyEmbedderResponder)
    (logical_key : Nat) (is_down : Bool) : FlKeyEmbedderResponder :=
  if !is_down then self
  else
    let mode_bit := lookup_hash_table (logical_key_to_lock_bit cfg) logical_key
    if mode_bit ≠ 0 then { self with lock_records := self.lock_records ^^^ mode_bit }
    else self

def update_mapping_record (self : FlKeyEmbedderResponder) (physical_key logical_key : Nat) :
    FlKeyEmbedderResponder :=
  { self with mapping_records := g_hash_table_insert self.mapping_records logical_key physical_key }

/-! ## Modifier synchronization -/

/-- How a loop body ends: it falls through to the next iteration, or a failed
check has left the function with the given responder. -/
inductive LoopStep (α : Type) where
  | next : α → LoopStep α
  | returned : FlKeyEmbedderResponder → LoopStep α

/-- The release that `synchronize_pressed_states` synthesizes for a logical
key pressed by record while its modifier bit is clear: an up event for the
physical key the mapping record holds for it, with the logical key the
pressing record holds for that physical key, and the release of that physical
key. -/
def synchronize_pressed_states_release (self : FlKeyEmbedderResponder)
    (logical_key timestamp : Nat) : FlKeyEmbedderResponder :=
  let recorded_physical_key := lookup_hash_table self.mapping_records logical_key
  let recorded_logical_key := lookup_hash_table self.pressing_records recorded_physical_key
  let self := synthesize_simple_event self kFlutterKeyEventTypeUp recorded_physical_key
    recorded_logical_key timestamp
  update_pressing_state self recorded_physical_key 0

/-- The physical key chosen for a synthesized press of the primary logical key
of a checked key: the one of the mapping record if there is one, else the
hard-coded primary physical key. -/
def chosen_physical_key (self : FlKeyEmbedderResponder)
    (checked_key : FlKeyEmbedderCheckedKey) : Nat :=
  let recorded_physical_key :=
    lookup_hash_table self.mapping_records checked_key.primary_logical_key
  if recorded_physical_key ≠ 0 then recorded_physical_key
  else checked_key.primary_physical_key

/-- The press that `synchronize_pressed_states` synthesizes for the primary
key of a checked key whose modifier bit is set while none of its keys is
pressed by record. -/
def synchronize_pressed_states_press (self : FlKeyEmbedderResponder)
    (checked_key : FlKeyEmbedderCheckedKey) (timestamp : Nat) : FlKeyEmbedderResponder :=
  let logical_key := checked_key.primary_logical_key
  let recorded_physical_key := lookup_hash_table self.mapping_records logical_key
  let physical_key := chosen_physical_key self checked_key
  let self :=
    if recorded_physical_key = 0 then update_mapping_record self physical_key logical_key
    else self
  let self := synthesize_simple_event self kFlutterKeyEventTypeDown physical_key
    logical_key timestamp
  update_pressing_state self physical_key logical_key

/-- The `for` loop of `synchronize_pressed_states` over the logical keys of
one checked key: releases are synthesized here, and the result tells whether
any of the keys was pressed by record. -/
def synchronize_pressed_states_logical_keys (any_pressed_by_state : Bool) (timestamp : Nat) :
    List Nat → Bool → FlKeyEmbedderResponder → LoopStep (FlKeyEmbedderResponder × Bool)
  | [], any_pressed_by_record, self => LoopStep.next (self, any_pressed_by_record)
  | logical_key :: rest, any_pressed_by_record, self =>
    if logical_key = 0 then
      LoopStep.returned (g_return_if_fail_warning self Assertion.modifier_logical_key_nonzero)
    else
      let pressing_physical_key := reverse_lookup_hash_table self.pressing_records logical_key
      let this_key_pressed_before_event := pressing_physical_key != 0
      let any_pressed_by_record := any_pressed_by_record || this_key_pressed_before_event
      if this_key_pressed_before_event && !any_pressed_by_state then
        let recorded_physical_key := lookup_hash_table self.mapping_records logical_key
        if recorded_physical_key = 0 then
          LoopStep.returned
            (g_return_if_fail_warning self Assertion.modifier_recorded_physical_key)
        else
          synchronize_pressed_states_logical_keys any_pressed_by_state timestamp rest
            any_pressed_by_record (synchronize_pressed_states_release self logical_key timestamp)
      else
        synchronize_pressed_states_logical_keys any_pressed_by_state timestamp rest
          any_pressed_by_record self

/-- The logical keys of a checked key that `synchronize_pressed_states`
traverses: the primary one, and the secondary one when it is not 0. -/
def checked_logical_keys (checked_key : FlKeyEmbedderCheckedKey) : List Nat :=
  [checked_key.primary_logical_key, checked_key.secondary_logical_key].take
    (if checked_key.secondary_logical_key = 0 then 1 else 2)

/-- The body of the `while` loop of `synchronize_pressed_states` for one entry
of `modifier_bit_to_checked_keys`. -/
def synchronize_pressed_states_checked_key (state timestamp modifier_bit : Nat)
    (checked_key : FlKeyEmbedderCheckedKey) (self : FlKeyEmbedderResponder) :
    LoopStep FlKeyEmbedderResponder :=
  let any_pressed_by_state := (state &&& modifier_bit) != 0
  match synchronize_pressed_states_logical_keys any_pressed_by_state timestamp
      (checked_logical_keys checked_key) false self with
  | LoopStep.returned self => LoopStep.returned self
  | LoopStep.next (self, any_pressed_by_record) =>
    if any_pressed_by_state && !any_pressed_by_record then
      LoopStep.next (synchronize_pressed_states_press self checked_key timestamp)
    else LoopStep.next self

/-- The `while` loop of `synchronize_pressed_states` over the remaining
entries of `modifier_bit_to_checked_keys`. -/
def synchronize_pressed_states_entries (state timestamp : Nat) :
    List (Nat × FlKeyEmbedderCheckedKey) → FlKeyEmbedderResponder → FlKeyEmbedderResponder
  | [], self => self
  | (modifier_bit, checked_key) :: rest, self =>
    match synchronize_pressed_states_checked_key state timestamp modifier_bit checked_key self with
    | LoopStep.returned self => self
    | LoopStep.next self => synchronize_pressed_states_entries state timestamp rest self

/-- Synchronizes the pressing state of a key to its state from the event by
synthesizing events. -/
def synchronize_pressed_states (cfg : KeyMapping) (self : FlKeyEmbedderResponder)
    (state timestamp : Nat) : FlKeyEmbedderResponder :=
  synchronize_pressed_states_entries state timestamp cfg.modifier_bit_to_checked_keys self

/-! ## Lock synchronization -/

def find_stage_by_record (is_down is_enabled : Bool) : Nat :=
  [0, 2, 3, 1].getD ((is_down.toNat <<< 1) + is_enabled.toNat) 0

def find_stage_by_self_event (stage_by_record : Nat) (is_down_event is_state_on
    reverse_state_logic : Bool) : Nat :=
  if !is_state_on then (if reverse_state_logic then 2 else 0)
  else if is_down_event then (if reverse_state_logic then 0 else 2)
  else stage_by_record

/-- The stage by an event of another key; a stage outside 0..3 is returned as
it is (the caller logs the failed check). -/
def find_stage_by_others_event (stage_by_record : Nat) (is_state_on : Bool) : Nat :=
  if ¬ stage_by_record < 4 then stage_by_record
  else if !is_state_on then 0
  else if stage_by_record = 0 then 1
  else stage_by_record

/-- Infer the logic type of CapsLock on the first down event of CapsLock. -/
def update_caps_lock_state_logic_inferrence (self : FlKeyEmbedderResponder)
    (is_down_event enabled_by_state : Bool) (stage_by_record : Nat) : FlKeyEmbedderResponder :=
  if self.caps_lock_state_logic_inferrence ≠ STATE_LOGIC_INFERRENCE_UNDECIDED then self
  else if !is_down_event then self
  else
    let stage_by_event :=
      find_stage_by_self_event stage_by_record is_down_event enabled_by_state false
    if (stage_by_event = 0 ∧ stage_by_record = 2) ∨ (stage_by_event = 2 ∧ stage_by_record = 0) then
      { self with caps_lock_state_logic_inferrence := STATE_LOGIC_INFERRENCE_REVERSED }
    else
      { self with caps_lock_state_logic_inferrence := STATE_LOGIC_INFERRENCE_NORMAL }

def kNumStages : Nat := 4

/-- The body of the `for` loop of `synchronize_lock_states` at one stage: one
synthesized event with its record updates. -/
def synchronize_lock_states_stage (cfg : KeyMapping)
    (physical_key logical_key recorded_physical_key timestamp current_stage : Nat)
    (self : FlKeyEmbedderResponder) : FlKeyEmbedderResponder :=
  let standard_current_stage := current_stage % kNumStages
  let is_down_event := standard_current_stage == 0 || standard_current_stage == 2
  let self :=
    if is_down_event && recorded_physical_key == 0 then
      update_mapping_record self physical_key logical_key
    else self
  let type := if is_down_event then kFlutterKeyEventTypeDown else kFlutterKeyEventTypeUp
  let self := update_pressing_state self physical_key (if is_down_event then logical_key else 0)
  let self := possibly_update_lock_bit cfg self logical_key is_down_event
  synthesize_simple_event self type physical_key logical_key timestamp

/-- The `for` loop of `synchronize_lock_states` over the stages it steps
through. -/
def synchronize_lock_states_stages (cfg : KeyMapping)
    (physical_key logical_key recorded_physical_key timestamp : Nat) :
    List Nat → FlKeyEmbedderResponder → FlKeyEmbedderResponder
  | [], self => self
  | current_stage :: rest, self =>
    synchronize_lock_states_stages cfg physical_key logical_key recorded_physical_key timestamp
      rest
      (synchronize_lock_states_stage cfg physical_key logical_key recorded_physical_key
        timestamp current_stage self)

/-- The values `current_stage` takes in the `for` loop of
`synchronize_lock_states`: from `stage_by_record` while below the destination
stage and below 9. -/
def lock_stage_steps (stage_by_record destination_stage : Nat) : List Nat :=
  List.range' stage_by_record (min destination_stage 9 - stage_by_record)

/-- The destination stage of the `for` loop of `synchronize_lock_states`:
equal to `stage_by_event` but shifted cyclically to be no less than
`stage_by_record`. -/
def destination_stage (stage_by_record stage_by_event : Nat) : Nat :=
  if stage_by_event ≥ stage_by_record then stage_by_event
  else stage_by_event + kNumStages

/-- The body of the `while` loop of `synchronize_lock_states` for one entry of
`lock_bit_to_checked_keys`. -/
def synchronize_lock_states_checked_key (cfg : KeyMapping) (state timestamp : Nat)
    (is_down : Bool) (event_logical_key modifier_bit : Nat)
    (checked_key : FlKeyEmbedderCheckedKey) (self : FlKeyEmbedderResponder) :
    LoopStep FlKeyEmbedderResponder :=
  let logical_key := checked_key.primary_logical_key
  let recorded_physical_key := lookup_hash_table self.mapping_records logical_key
  let physical_key := chosen_physical_key self checked_key
  let pressed_logical_key :=
    if recorded_physical_key = 0 then 0
    else lookup_hash_table self.pressing_records recorded_physical_key
  if ¬ (pressed_logical_key = 0 ∨ pressed_logical_key = logical_key) then
    LoopStep.returned (g_return_if_fail_warning self Assertion.lock_pressed_logical_key)
  else
    let stage_by_record :=
      find_stage_by_record (pressed_logical_key != 0) ((self.lock_records &&& modifier_bit) != 0)
    let enabled_by_state := (state &&& modifier_bit) != 0
    let this_key_is_event_key := logical_key == event_logical_key
    let self :=
      if this_key_is_event_key && checked_key.is_caps_lock then
        update_caps_lock_state_logic_inferrence self is_down enabled_by_state stage_by_record
      else self
    if this_key_is_event_key && checked_key.is_caps_lock &&
        self.caps_lock_state_logic_inferrence == STATE_LOGIC_INFERRENCE_UNDECIDED then
      LoopStep.returned (g_return_if_fail_warning self Assertion.lock_inferrence_decided)
    else
      let reverse_state_logic :=
        checked_key.is_caps_lock &&
          self.caps_lock_state_logic_inferrence == STATE_LOGIC_INFERRENCE_REVERSED
      let self :=
        if !this_key_is_event_key && !decide (stage_by_record < 4) then
          g_return_if_fail_warning self Assertion.lock_stage_in_range
        else self
      let stage_by_event :=
        if this_key_is_event_key then
          find_stage_by_self_event stage_by_record is_down enabled_by_state reverse_state_logic
        else find_stage_by_others_event stage_by_record enabled_by_state
      let destination_stage := destination_stage stage_by_record stage_by_event
      if ¬ stage_by_record ≤ destination_stage then
        LoopStep.returned (g_return_if_fail_warning self Assertion.lock_stage_order)
      else
        LoopStep.next
          (synchronize_lock_states_stages cfg physical_key logical_key recorded_physical_key
            timestamp (lock_stage_steps stage_by_record destination_stage) self)

/-- The `while` loop of `synchronize_lock_states` over the remaining entries
of `lock_bit_to_checked_keys`. -/
def synchronize_lock_states_entries (cfg : KeyMapping) (state timestamp : Nat) (is_down : Bool)
    (event_logical_key : Nat) :
    List (Nat × FlKeyEmbedderCheckedKey) → FlKeyEmbedderResponder → FlKeyEmbedderResponder
  | [], self => self
  | (modifier_bit, checked_key) :: rest, self =>
    match synchronize_lock_states_checked_key cfg state timestamp is_down event_logical_key
        modifier_bit checked_key self with
    | LoopStep.returned self => self
    | LoopStep.next self =>
      synchronize_lock_states_entries cfg state timestamp is_down event_logical_key rest self

/-- Synchronizes the lock state of a key to its state from the event by
synthesizing events. -/
def synchronize_lock_states (cfg : KeyMapping) (self : FlKeyEmbedderResponder)
    (state timestamp : Nat) (is_down : Bool) (event_logical_key : Nat) :
    FlKeyEmbedderResponder :=
  synchronize_lock_states_entries cfg state timestamp is_down event_logical_key
    cfg.lock_bit_to_checked_keys self

/-! ## Event translation -/

def corrected_modifier_physical_key
    (modifier_bit_to_checked_keys : List (Nat × FlKeyEmbedderCheckedKey))
    (physical_key_from_event logical_key : Nat) : Nat :=
  let known_modifier_physical_key :=
    modifier_bit_to_checked_keys.foldl
      (fun known entry =>
        if entry.2.primary_physical_key = physical_key_from_event then true else known)
      false
  if known_modifier_physical_key then
    modifier_bit_to_checked_keys.foldl
      (fun corrected_physical_key entry =>
        if entry.2.primary_logical_key = logical_key ∨
            entry.2.secondary_logical_key = logical_key then
          entry.2.primary_physical_key
        else corrected_physical_key)
      physical_key_from_event
  else physical_key_from_event

/-- The logical key of a raw event: the specified one unless it is 0. -/
def resolved_logical_key (cfg : KeyMapping) (event : FlKeyEvent) (specified_logical_key : Nat) :
    Nat :=
  if specified_logical_key ≠ 0 then specified_logical_key else event_to_logical_key cfg event

/-- The physical key of a raw event after the modifier correction. -/
def resolved_physical_key (cfg : KeyMapping) (event : FlKeyEvent) (specified_logical_key : Nat) :
    Nat :=
  corrected_modifier_physical_key cfg.modifier_bit_to_checked_keys
    (event_to_physical_key cfg event) (resolved_logical_key cfg event specified_logical_key)

/-- The responder after the two synchronizers of `handle_event_impl` have run
for a raw event. -/
def synchronize_states (cfg : KeyMapping) (self : FlKeyEmbedderResponder) (event : FlKeyEvent)
    (specified_logical_key : Nat) : FlKeyEmbedderResponder :=
  synchronize_pressed_states cfg
    (synchronize_lock_states cfg self event.state (event_to_timestamp event) event.is_press
      (resolved_logical_key cfg event specified_logical_key))
    event.state (event_to_timestamp event)

/-- Handles one raw event. The second component is the value the task is
completed with before the function returns: `some true` for an ignored
release, `none` when the task is left to the reply of the engine. -/
def fl_key_embedder_responder_handle_event_impl (cfg : KeyMapping)
    (self : FlKeyEmbedderResponder) (event : FlKeyEvent) (specified_logical_key : Nat) :
    FlKeyEmbedderResponder × Option Bool :=
  let logical_key := resolved_logical_key cfg event specified_logical_key
  let physical_key := resolved_physical_key cfg event specified_logical_key
  let timestamp := event_to_timestamp event
  let is_down_event := event.is_press
  let self := synchronize_states cfg self event specified_logical_key
  let last_logical_record := lookup_hash_table self.pressing_records physical_key
  if !is_down_event && last_logical_record == 0 then (self, some true)
  else
    let out_event : FlutterKeyEvent :=
      { timestamp := timestamp,
        type :=
          if is_down_event then
            (if last_logical_record ≠ 0 then kFlutterKeyEventTypeRepeat
             else kFlutterKeyEventTypeDown)
          else kFlutterKeyEventTypeUp,
        physical := physical_key,
        logical := if last_logical_record ≠ 0 then last_logical_record else logical_key,
        character := if is_down_event then event_to_character cfg event else none,
        synthesized := false }
    let self :=
      if out_event.type ≠ kFlutterKeyEventTypeRepeat then
        update_pressing_state self physical_key (if is_down_event then logical_key else 0)
      else self
    let self := possibly_update_lock_bit cfg self logical_key is_down_event
    let self := if is_down_event then update_mapping_record self physical_key logical_key else self
    let self := { self with sent_any_events := true }
    (fl_engine_send_key_event self out_event, none)

/-- The entry point for a raw event: the empty event is sent when the call
sent nothing else. -/
def fl_key_embedder_responder_handle_event (cfg : KeyMapping) (self : FlKeyEmbedderResponder)
    (event : FlKeyEvent) (specified_logical_key : Nat) : FlKeyEmbedderResponder × Option Bool :=
  let result := fl_key_embedder_responder_handle_event_impl cfg
    { self with sent_any_events := false } event specified_logical_key
  if !result.1.sent_any_events then (fl_engine_send_key_event result.1 kEmptyEvent, result.2)
  else result

def fl_key_embedder_responder_sync_modifiers_if_needed (cfg : KeyMapping)
    (self : FlKeyEmbedderResponder) (state event_time : Nat) : FlKeyEmbedderResponder :=
  synchronize_pressed_states cfg self state (event_time * kMicrosecondsPerMillisecond)

def fl_key_embedder_responder_get_pressed_state (self : FlKeyEmbedderResponder) : GHashTable :=
  self.pressing_records

/-! ## Sequences of calls -/

/-- A call of one of the two entry points of the responder. -/
inductive Call where
  | handle_event (event : FlKeyEvent) (specified_logical_key : Nat)
  | sync_modifiers_if_needed (state event_time : Nat)
  deriving DecidableEq, Repr

/-- The responder after one call. -/
def call (cfg : KeyMapping) (self : FlKeyEmbedderResponder) : Call → FlKeyEmbedderResponder
  | Call.handle_event event specified_logical_key =>
    (fl_key_embedder_responder_handle_event cfg self event specified_logical_key).1
  | Call.sync_modifiers_if_needed state event_time =>
    fl_key_embedder_responder_sync_modifiers_if_needed cfg self state event_time

/-- The responder after a sequence of calls, the first call first. -/
def calls (cfg : KeyMapping) (self : FlKeyEmbedderResponder) (cs : List Call) :
    FlKeyEmbedderResponder :=
  cs.foldl (call cfg) self

/-! ## The GTK key mapping -/

/-- Modelled from the spec: the static data of `key_mapping.h`, which is not
among the sources. The plane constants, the four modifier families (Shift,
Control, Alt, Meta, each with a left primary and a right secondary logical
key) and the two lock keys (CapsLock, NumLock) are listed in full; of the two
key maps only the entries used below are listed, so every other keycode and
keyval misses them. -/
def key_mapping : KeyMapping :=
  { kValueMask := 0xffffffff
    kUnicodePlane := 0
    kGtkPlane := 0x1500000000
    xkb_to_physical_key_map :=
      [(0x25, 0x700e0), (0x26, 0x70004), (0x27, 0x70016), (0x32, 0x700e1), (0x3e, 0x700e5),
       (0x42, 0x70039), (0x4d, 0x70053)]
    gtk_keyval_to_logical_key_map :=
      [(0xff7f, 0x10000010a), (0xffe1, 0x200000102), (0xffe2, 0x200000103),
       (0xffe3, 0x200000100), (0xffe4, 0x200000101), (0xffe5, 0x100000104)]
    modifier_bit_to_checked_keys :=
      [(1, ⟨0x700e1, 0x200000102, 0x200000103, false⟩),
       (4, ⟨0x700e0, 0x200000100, 0x200000101, false⟩),
       (8, ⟨0x700e2, 0x200000104, 0x200000105, false⟩),
       (0x10000000, ⟨0x700e3, 0x200000106, 0x200000107, false⟩)]
    lock_bit_to_checked_keys :=
      [(2, ⟨0x70039, 0x100000104, 0, true⟩),
       (16, ⟨0x70053, 0x10000010a, 0, false⟩)]
    gdk_keyval_to_unicode := fun keyval =>
      if (0x20 ≤ keyval ∧ keyval ≤ 0x7e) ∨ (0xa0 ≤ keyval ∧ keyval ≤ 0xff) then keyval
      else if keyval &&& 0xff000000 = 0x01000000 then keyval &&& 0x00ffffff
      else 0 }

/-! ## The steps of the synchronizers -/

/-- The responder a loop body ends with. -/
def LoopStep.responder : LoopStep FlKeyEmbedderResponder → FlKeyEmbedderResponder
  | LoopStep.next self => self
  | LoopStep.returned self => self

/-- One effect of a synchronizer on the responder: a failed check, the
CapsLock inference, or one synthesized event together with its record
updates. -/
inductive SynchronizerStep (cfg : KeyMapping) :
    FlKeyEmbedderResponder → FlKeyEmbedderResponder → Prop where
  | failed_check (self : FlKeyEmbedderResponder) (a : Assertion) :
    SynchronizerStep cfg self (g_return_if_fail_warning self a)
  | inferrence (self : FlKeyEmbedderResponder) (is_down enabled_by_state : Bool)
      (stage_by_record : Nat) :
    SynchronizerStep cfg self
      (update_caps_lock_state_logic_inferrence self is_down enabled_by_state stage_by_record)
  | lock_stage (self : FlKeyEmbedderResponder) (modifier_bit : Nat)
      (checked_key : FlKeyEmbedderCheckedKey)
      (recorded_physical_key timestamp current_stage : Nat)
      (h_entry : (modifier_bit, checked_key) ∈ cfg.lock_bit_to_checked_keys)
      (h_recorded : recorded_physical_key = 0 ∨
        lookup_hash_table self.mapping_records checked_key.primary_logical_key =
          recorded_physical_key) :
    SynchronizerStep cfg self
      (synchronize_lock_states_stage cfg
        (if recorded_physical_key ≠ 0 then recorded_physical_key
         else checked_key.primary_physical_key)
        checked_key.primary_logical_key recorded_physical_key timestamp current_stage self)
  | modifier_release (self : FlKeyEmbedderResponder) (modifier_bit : Nat)
      (checked_key : FlKeyEmbedderCheckedKey) (logical_key timestamp : Nat)
      (h_entry : (modifier_bit, checked_key) ∈ cfg.modifier_bit_to_checked_keys)
      (h_key : logical_key ∈ checked_logical_keys checked_key)
      (h_nonzero : logical_key ≠ 0)
      (h_pressed : logical_key ∈ self.pressing_records.map Prod.snd)
      (h_recorded : lookup_hash_table self.mapping_records logical_key ≠ 0) :
    SynchronizerStep cfg self (synchronize_pressed_states_release self logical_key timestamp)
  | modifier_press (self : FlKeyEmbedderResponder) (modifier_bit : Nat)
      (checked_key : FlKeyEmbedderCheckedKey) (timestamp : Nat)
      (h_entry : (modifier_bit, checked_key) ∈ cfg.modifier_bit_to_checked_keys)
      (h_nonzero : checked_key.primary_logical_key ≠ 0)
      (h_released : ∀ l ∈ checked_logical_keys checked_key,
        l ∉ self.pressing_records.map Prod.snd) :
    SynchronizerStep cfg self (synchronize_pressed_states_press self checked_key timestamp)

/-- The responder is reached by a sequence of synchronizer steps. -/
def SynchronizerSteps (cfg : KeyMapping) :
    FlKeyEmbedderResponder → FlKeyEmbedderResponder → Prop :=
  Relation.ReflTransGen (SynchronizerStep cfg)

/-- An event as the synchronizers send it: flagged synthesized, a down or an
up event, without a character. -/
def FlutterKeyEvent.is_synthesized_simple (e : FlutterKeyEvent) : Prop :=
  e.synthesized = true ∧ e.character = none ∧ e.type ≠ kFlutterKeyEventTypeRepeat

/-- The logical key is pressed by record: it is a value of the pressing
records. -/
def pressed_by_record (self : FlKeyEmbedderResponder) (logical_key : Nat) : Prop :=
  logical_key ∈ self.pressing_records.map Prod.snd

instance (self : FlKeyEmbedderResponder) (logical_key : Nat) :
    Decidable (pressed_by_record self logical_key) :=
  inferInstanceAs (Decidable (logical_key ∈ self.pressing_records.map Prod.snd))

/-- The modifier bit of an entry of `modifier_bit_to_checked_keys` agrees with
the pressing records: the bit is set in the bitmask exactly when at least one
of the logical keys of the checked key is pressed by record. -/
def modifier_agrees (state : Nat) (self : FlKeyEmbedderResponder)
    (entry : Nat × FlKeyEmbedderCheckedKey) : Prop :=
  (state &&& entry.1) ≠ 0 ↔ ∃ l ∈ checked_logical_keys entry.2, pressed_by_record self l

/-- The pressing records hold at most one entry per physical key, as a hash
table does. -/
def pressing_records_well_formed (self : FlKeyEmbedderResponder) : Prop :=
  (self.pressing_records.map Prod.fst).Nodup

instance (self : FlKeyEmbedderResponder) : Decidable (pressing_records_well_formed self) :=
  inferInstanceAs (Decidable (self.pressing_records.map Prod.fst).Nodup)

/-- Every logical key of `keys` that is pressed by record is held only by the
physical key that the mapping record lists for it, and that physical key is
not 0. -/
def held_by_recorded_physical_key (self : FlKeyEmbedderResponder) (keys : List Nat) : Prop :=
  ∀ entry ∈ self.pressing_records, entry.2 ∈ keys →
    lookup_hash_table self.mapping_records entry.2 = entry.1 ∧ entry.1 ≠ 0

instance (self : FlKeyEmbedderResponder) (keys : List Nat) :
    Decidable (held_by_recorded_physical_key self keys) :=
  inferInstanceAs (Decidable (∀ entry ∈ self.pressing_records, entry.2 ∈ keys →
    lookup_hash_table self.mapping_records entry.2 = entry.1 ∧ entry.1 ≠ 0))

/-! ## Events and pressing records -/

/-- The events the engine has received from the responder. -/
def received_events (self : FlKeyEmbedderResponder) : List FlutterKeyEvent :=
  match self.engine with
  | some received => received
  | none => []

/-- The most recent event of the list whose physical key is `physical_key` is
a press (a down or a repeat event), so that no up event for the key follows
it; false when the list has no event for the key. -/
def pressed_by_events (events : List FlutterKeyEvent) (physical_key : Nat) : Bool :=
  events.foldl
    (fun pressed e =>
      if e.physical = physical_key then e.type != kFlutterKeyEventTypeUp else pressed)
    false

/-- The logical key that a call resolves for its raw event is not 0; a call of
`sync_modifiers_if_needed` carries no raw event. -/
def Call.logical_key_nonzero (cfg : KeyMapping) : Call → Bool
  | Call.handle_event event specified_logical_key =>
    resolved_logical_key cfg event specified_logical_key != 0
  | Call.sync_modifiers_if_needed _ _ => true

/-- The pressing records match the events sent to a live engine: no entry
holds the logical key 0, and a non-zero physical key has an entry exactly when
the most recent event for it is a press. -/
def pressing_records_match_events (self : FlKeyEmbedderResponder) : Prop :=
  self.engine.isSome = true ∧
  (∀ entry ∈ self.pressing_records, entry.2 ≠ 0) ∧
  ∀ p, p ≠ 0 →
    (lookup_hash_table self.pressing_records p ≠ 0 ↔
      pressed_by_events (received_events self) p = true)

instance (state : Nat) (self : FlKeyEmbedderResponder)
    (entry : Nat × FlKeyEmbedderCheckedKey) : Decidable (modifier_agrees state self entry) :=
  inferInstanceAs (Decidable ((state &&& entry.1) ≠ 0 ↔
    ∃ l ∈ checked_logical_keys entry.2, pressed_by_record self l))

/-- The events that the modifier synchronizer is to synthesize for one
modifier family, as the specification words them: with the bit clear, a
release for each pressed logical key of the family on the physical key of the
mapping record; with the bit set and no key of the family pressed, a press of
the primary logical key on the chosen physical key; otherwise nothing. -/
def expected_modifier_events (self : FlKeyEmbedderResponder) (state timestamp : Nat)
    (entry : Nat × FlKeyEmbedderCheckedKey) : List FlutterKeyEvent :=
  if state &&& entry.1 = 0 then
    ((checked_logical_keys entry.2).filter (fun l => decide (pressed_by_record self l))).map
      (fun l => ⟨timestamp, kFlutterKeyEventTypeUp, lookup_hash_table self.mapping_records l, l,
        none, true⟩)
  else if ∀ l ∈ checked_logical_keys entry.2, ¬ pressed_by_record self l then
    [⟨timestamp, kFlutterKeyEventTypeDown, chosen_physical_key self entry.2,
      entry.2.primary_logical_key, none, true⟩]
  else []

/-- The logical keys of the modifier families are usable: within a family they
are distinct and the primary one is not 0, and no logical key belongs to two
entries of the table. -/
def modifier_families_distinct (entries : List (Nat × FlKeyEmbedderCheckedKey)) : Prop :=
  (∀ entry ∈ entries,
    entry.2.primary_logical_key ≠ 0 ∧ (checked_logical_keys entry.2).Nodup) ∧
  entries.Pairwise (fun a b =>
    ∀ l ∈ checked_logical_keys a.2, l ∉ checked_logical_keys b.2)

instance (entries : List (Nat × FlKeyEmbedderCheckedKey)) :
    Decidable (modifier_families_distinct entries) := by
  unfold modifier_families_distinct
  exact inferInstance

/-- The logical key is the primary logical key of a lock key flagged
`is_caps_lock` in `lock_bit_to_checked_keys`. -/
def is_caps_lock_key (cfg : KeyMapping) (logical_key : Nat) : Prop :=
  ∃ entry ∈ cfg.lock_bit_to_checked_keys,
    entry.2.is_caps_lock = true ∧ entry.2.primary_logical_key = logical_key

instance (cfg : KeyMapping) (logical_key : Nat) : Decidable (is_caps_lock_key cfg logical_key) :=
  inferInstanceAs (Decidable (∃ entry ∈ cfg.lock_bit_to_checked_keys,
    entry.2.is_caps_lock = true ∧ entry.2.primary_logical_key = logical_key))

/-- The call handles a press event whose logical key is the CapsLock key. -/
def Call.is_caps_lock_press (cfg : KeyMapping) : Call → Prop
  | Call.handle_event event specified_logical_key =>
    event.is_press = true ∧
      is_caps_lock_key cfg (resolved_logical_key cfg event specified_logical_key)
  | Call.sync_modifiers_if_needed _ _ => False

/-- The logical key that the pressing records hold for the physical key that
the mapping record lists for a lock key, 0 without a mapping record:
`pressed_logical_key` in `synchronize_lock_states`. -/
def lock_pressed_logical_key (self : FlKeyEmbedderResponder)
    (checked_key : FlKeyEmbedderCheckedKey) : Nat :=
  let recorded_physical_key :=
    lookup_hash_table self.mapping_records checked_key.primary_logical_key
  if recorded_physical_key = 0 then 0
  else lookup_hash_table self.pressing_records recorded_physical_key

/-- The recorded stage of a lock key: `stage_by_record` in
`synchronize_lock_states`. -/
def lock_stage_by_record (self : FlKeyEmbedderResponder) (modifier_bit : Nat)
    (checked_key : FlKeyEmbedderCheckedKey) : Nat :=
  find_stage_by_record (lock_pressed_logical_key self checked_key != 0)
    ((self.lock_records &&& modifier_bit) != 0)

/-- The event that `synchronize_lock_states` synthesizes at one stage of its
`for` loop: a down event at the stages 0 and 2 of the cycle, an up event at
the stages 1 and 3. -/
def lock_stage_event (physical_key logical_key timestamp current_stage : Nat) :
    FlutterKeyEvent :=
  { timestamp := timestamp,
    type :=
      if current_stage % kNumStages == 0 || current_stage % kNumStages == 2 then
        kFlutterKeyEventTypeDown
      else kFlutterKeyEventTypeUp,
    physical := physical_key, logical := logical_key, character := none, synthesized := true }

/-- The responder after `synchronize_lock_states` has updated the CapsLock
inference for a lock key: the update runs when the lock key is the key of the
event and is flagged `is_caps_lock`. -/
def lock_inferrence_updated (self : FlKeyEmbedderResponder) (state : Nat) (is_down : Bool)
    (event_logical_key modifier_bit : Nat) (checked_key : FlKeyEmbedderCheckedKey) :
    FlKeyEmbedderResponder :=
  if checked_key.primary_logical_key == event_logical_key && checked_key.is_caps_lock then
    update_caps_lock_state_logic_inferrence self is_down ((state &&& modifier_bit) != 0)
      (lock_stage_by_record self modifier_bit checked_key)
  else self

/-- The stage of a lock key by the event: `stage_by_event` in
`synchronize_lock_states`, for the responder with the inference updated. -/
def lock_stage_by_event (self : FlKeyEmbedderResponder) (state : Nat) (is_down : Bool)
    (event_logical_key modifier_bit : Nat) (checked_key : FlKeyEmbedderCheckedKey) : Nat :=
  let stage_by_record := lock_stage_by_record self modifier_bit checked_key
  let enabled_by_state := (state &&& modifier_bit) != 0
  let reverse_state_logic :=
    checked_key.is_caps_lock &&
      self.caps_lock_state_logic_inferrence == STATE_LOGIC_INFERRENCE_REVERSED
  if checked_key.primary_logical_key == event_logical_key then
    find_stage_by_self_event stage_by_record is_down enabled_by_state reverse_state_logic
  else find_stage_by_others_event stage_by_record enabled_by_state

/-- An entry of `lock_bit_to_checked_keys` is usable: its logical key and its
hard-coded physical key are not 0, its bit is a single bit, and
`logical_key_to_lock_bit` maps its logical key to its bit. -/
def lock_key_usable (cfg : KeyMapping) (entry : Nat × FlKeyEmbedderCheckedKey) : Prop :=
  entry.2.primary_logical_key ≠ 0 ∧ entry.2.primary_physical_key ≠ 0 ∧
    (∃ i, entry.1 = 2 ^ i) ∧
    lookup_hash_table (logical_key_to_lock_bit cfg) entry.2.primary_logical_key = entry.1

/-- The pressing records after the stages of a lock key as the specification
words them: each even stage (a synthesized down event) inserts the key, each
odd stage (a synthesized up event) removes it. -/
def lock_stages_pressing_records (physical_key logical_key : Nat) (stages : List Nat)
    (records : GHashTable) : GHashTable :=
  stages.foldl
    (fun table stage =>
      if stage % 2 = 0 then g_hash_table_insert table physical_key logical_key
      else g_hash_table_remove table physical_key)
    records

/-- The lock records after the stages of a lock key as the specification
words them: each even stage (a synthesized down event) flips the lock bit. -/
def lock_stages_lock_records (modifier_bit : Nat) (stages : List Nat) (records : Nat) : Nat :=
  stages.foldl (fun lock_records stage =>
    if stage % 2 = 0 then lock_records ^^^ modifier_bit else lock_records) records

/-- The real event that `handle_event_impl` constructs for a raw event,
`out_event` in the source, from the responder after the synchronizers. -/
def handle_event_out_event (cfg : KeyMapping) (self : FlKeyEmbedderResponder)
    (event : FlKeyEvent) (specified_logical_key : Nat) : FlutterKeyEvent :=
  let logical_key := resolved_logical_key cfg event specified_logical_key
  let physical_key := resolved_physical_key cfg event specified_logical_key
  let last_logical_record := lookup_hash_table self.pressing_records physical_key
  { timestamp := event_to_timestamp event,
    type :=
      if event.is_press then
        (if last_logical_record ≠ 0 then kFlutterKeyEventTypeRepeat
         else kFlutterKeyEventTypeDown)
      else kFlutterKeyEventTypeUp,
    physical := physical_key,
    logical := if last_logical_record ≠ 0 then last_logical_record else logical_key,
    character := if event.is_press then event_to_character cfg event else none,
    synthesized := false }

/-- The two checked keys share no logical key: the primary and the secondary
logical key of the one differ from those of the other, compared as
`corrected_modifier_physical_key` compares them. -/
def logical_keys_disjoint (a b : FlKeyEmbedderCheckedKey) : Prop :=
  a.primary_logical_key ≠ b.primary_logical_key ∧
  a.primary_logical_key ≠ b.secondary_logical_key ∧
  a.secondary_logical_key ≠ b.primary_logical_key ∧
  a.secondary_logical_key ≠ b.secondary_logical_key

instance (a b : FlKeyEmbedderCheckedKey) : Decidable (logical_keys_disjoint a b) := by
  unfold logical_keys_disjoint
  exact inferInstance

/-- The lock records after the events of the lock synchronizer as the
specification words them: each synthesized down event flips the lock bit that
`logical_key_to_lock_bit` holds for its logical key, an up event leaves the
lock records as they are. -/
def lock_records_after_events (cfg : KeyMapping) (events : List FlutterKeyEvent)
    (records : Nat) : Nat :=
  events.foldl
    (fun lock_records e =>
      if e.type = kFlutterKeyEventTypeDown then
        lock_records ^^^ lookup_hash_table (logical_key_to_lock_bit cfg) e.logical
      else lock_records)
    records

/-- The physical keys of the key mapping are not 0: the plane of the generated
physical keys, the physical keys of `xkb_to_physical_key_map` and the primary
physical keys of the modifier keys and of the lock keys. -/
def physical_keys_nonzero (cfg : KeyMapping) : Prop :=
  cfg.kGtkPlane ≠ 0 ∧ (∀ entry ∈ cfg.xkb_to_physical_key_map, entry.2 ≠ 0) ∧
  (∀ entry ∈ cfg.modifier_bit_to_checked_keys, entry.2.primary_physical_key ≠ 0) ∧
  (∀ entry ∈ cfg.lock_bit_to_checked_keys, entry.2.primary_physical_key ≠ 0)

instance (cfg : KeyMapping) : Decidable (physical_keys_nonzero cfg) := by
  unfold physical_keys_nonzero
  exact inferInstance

/-- Every logical key that is a value of the pressing records has a mapping
record that is not 0. -/
def pressed_keys_mapped (self : FlKeyEmbedderResponder) : Prop :=
  ∀ entry ∈ self.pressing_records, lookup_hash_table self.mapping_records entry.2 ≠ 0

instance (self : FlKeyEmbedderResponder) : Decidable (pressed_keys_mapped self) := by
  unfold pressed_keys_mapped
  exact inferInstance

/-! # Theorems -/


/-! ## Hash table lemmas -/

theorem g_hash_table_lookup_set_value (t : GHashTable) (k v k' : Nat) :
    g_hash_table_lookup (g_hash_table_set_value t k v) k' =
      if k' = k then (g_hash_table_lookup t k).map (fun _ => v) else g_hash_table_lookup t k' := by
  induction t with
  | nil => simp [g_hash_table_set_value, g_hash_table_lookup]
  | cons kv rest ih =>
    obtain ⟨a, b⟩ := kv
    by_cases h : a = k
    · subst h
      by_cases h' : k' = a
      · subst h'; simp [g_hash_table_set_value, g_hash_table_lookup]
      · have : ¬ a = k' := fun e => h' e.symm
        simp [g_hash_table_set_value, g_hash_table_lookup, h', this]
    · by_cases h' : a = k'
      · subst h'
        simp [g_hash_table_set_value, g_hash_table_lookup, h]
      · simp [g_hash_table_set_value, g_hash_table_lookup, h, h', ih]

theorem g_hash_table_lookup_insert (t : GHashTable) (k v k' : Nat) :
    g_hash_table_lookup (g_hash_table_insert t k v) k' =
      if k' = k then some v else g_hash_table_lookup t k' := by
  unfold g_hash_table_insert
  cases h : g_hash_table_lookup t k with
  | none =>
    by_cases h' : k' = k
    · subst h'; simp [g_hash_table_lookup]
    · have : ¬ k = k' := fun e => h' e.symm
      simp [g_hash_table_lookup, h', this]
  | some w => simp [g_hash_table_lookup_set_value, h]

theorem g_hash_table_lookup_remove (t : GHashTable) (k k' : Nat) :
    g_hash_table_lookup (g_hash_table_remove t k) k' =
      if k' = k then none else g_hash_table_lookup t k' := by
  induction t with
  | nil => simp [g_hash_table_remove, g_hash_table_lookup]
  | cons kv rest ih =>
    obtain ⟨a, b⟩ := kv
    by_cases h : a = k
    · subst h
      by_cases h' : k' = a
      · subst h'; simp [g_hash_table_remove, g_hash_table_lookup, ih]
      · have : ¬ a = k' := fun e => h' e.symm
        simp [g_hash_table_remove, g_hash_table_lookup, ih, h', this]
    · by_cases h' : a = k'
      · subst h'
        have : ¬ a = k := h
        simp [g_hash_table_remove, g_hash_table_lookup, h]
      · simp [g_hash_table_remove, g_hash_table_lookup, h, h', ih]

theorem g_hash_table_remove_of_lookup_none (t : GHashTable) (k : Nat)
    (h : g_hash_table_lookup t k = none) : g_hash_table_remove t k = t := by
  induction t with
  | nil => rfl
  | cons kv rest ih =>
    obtain ⟨a, b⟩ := kv
    by_cases h' : a = k
    · simp [g_hash_table_lookup, h'] at h
    · simp [g_hash_table_lookup, h'] at h
      simp [g_hash_table_remove, h', ih h]

theorem g_hash_table_set_value_of_lookup (t : GHashTable) (k v : Nat)
    (h : g_hash_table_lookup t k = some v) : g_hash_table_set_value t k v = t := by
  induction t with
  | nil => rfl
  | cons kv rest ih =>
    obtain ⟨a, b⟩ := kv
    by_cases h' : a = k
    · simp [g_hash_table_lookup, h'] at h
      simp [g_hash_table_set_value, h', h]
    · simp [g_hash_table_lookup, h'] at h
      simp [g_hash_table_set_value, h', ih h]

theorem g_hash_table_insert_of_lookup (t : GHashTable) (k v : Nat)
    (h : g_hash_table_lookup t k = some v) : g_hash_table_insert t k v = t := by
  simp [g_hash_table_insert, h, g_hash_table_set_value_of_lookup]

theorem g_hash_table_remove_insert_of_lookup_none (t : GHashTable) (k v : Nat)
    (h : g_hash_table_lookup t k = none) :
    g_hash_table_remove (g_hash_table_insert t k v) k = t := by
  simp [g_hash_table_insert, h, g_hash_table_remove, g_hash_table_remove_of_lookup_none]

theorem lookup_hash_table_insert (t : GHashTable) (k v k' : Nat) :
    lookup_hash_table (g_hash_table_insert t k v) k' =
      if k' = k then v else lookup_hash_table t k' := by
  unfold lookup_hash_table
  rw [g_hash_table_lookup_insert]
  by_cases h : k' = k <;> simp [h]

theorem lookup_hash_table_remove (t : GHashTable) (k k' : Nat) :
    lookup_hash_table (g_hash_table_remove t k) k' =
      if k' = k then 0 else lookup_hash_table t k' := by
  unfold lookup_hash_table
  rw [g_hash_table_lookup_remove]
  by_cases h : k' = k <;> simp [h]

theorem g_hash_table_find_equal_value (t : GHashTable) (value : Nat) :
    g_hash_table_find t (fun k v => hash_table_find_equal_value k v value) =
      if value ∈ t.map Prod.snd then some value else none := by
  induction t with
  | nil => simp [g_hash_table_find]
  | cons kv rest ih =>
    obtain ⟨a, b⟩ := kv
    by_cases h : b = value
    · subst h; simp [g_hash_table_find, hash_table_find_equal_value]
    · have h2 : ¬ value = b := fun e => h e.symm
      have h3 : hash_table_find_equal_value a b value = false := by
        simp [hash_table_find_equal_value, h]
      rw [g_hash_table_find]
      simp only [h3, Bool.false_eq_true, if_false, ih, List.map_cons, List.mem_cons, h2,
        false_or]

theorem reverse_lookup_hash_table_eq (t : GHashTable) (value : Nat) :
    reverse_lookup_hash_table t value = if value ∈ t.map Prod.snd then value else 0 := by
  unfold reverse_lookup_hash_table
  rw [g_hash_table_find_equal_value]
  by_cases h : value ∈ t.map Prod.snd <;> simp [h]

/-! ## Effects of the record updates -/

@[simp] theorem fl_engine_send_key_event_engine (s : FlKeyEmbedderResponder) (e : FlutterKeyEvent) :
    (fl_engine_send_key_event s e).engine = s.engine.map (fun received => received ++ [e]) := by
  unfold fl_engine_send_key_event
  cases h : s.engine <;> simp [h]

@[simp] theorem fl_engine_send_key_event_pressing_records (s : FlKeyEmbedderResponder)
    (e : FlutterKeyEvent) :
    (fl_engine_send_key_event s e).pressing_records = s.pressing_records := by
  unfold fl_engine_send_key_event
  cases h : s.engine <;> simp [h]

@[simp] theorem fl_engine_send_key_event_mapping_records (s : FlKeyEmbedderResponder)
    (e : FlutterKeyEvent) :
    (fl_engine_send_key_event s e).mapping_records = s.mapping_records := by
  unfold fl_engine_send_key_event
  cases h : s.engine <;> simp [h]

@[simp] theorem fl_engine_send_key_event_lock_records (s : FlKeyEmbedderResponder)
    (e : FlutterKeyEvent) :
    (fl_engine_send_key_event s e).lock_records = s.lock_records := by
  unfold fl_engine_send_key_event
  cases h : s.engine <;> simp [h]

@[simp] theorem fl_engine_send_key_event_inferrence (s : FlKeyEmbedderResponder)
    (e : FlutterKeyEvent) :
    (fl_engine_send_key_event s e).caps_lock_state_logic_inferrence =
      s.caps_lock_state_logic_inferrence := by
  unfold fl_engine_send_key_event
  cases h : s.engine <;> simp [h]

@[simp] theorem fl_engine_send_key_event_sent_any_events (s : FlKeyEmbedderResponder)
    (e : FlutterKeyEvent) :
    (fl_engine_send_key_event s e).sent_any_events = s.sent_any_events := by
  unfold fl_engine_send_key_event
  cases h : s.engine <;> simp [h]

@[simp] theorem fl_engine_send_key_event_g_critical (s : FlKeyEmbedderResponder)
    (e : FlutterKeyEvent) :
    (fl_engine_send_key_event s e).g_critical = s.g_critical := by
  unfold fl_engine_send_key_event
  cases h : s.engine <;> simp [h]

@[simp] theorem synthesize_simple_event_engine (s : FlKeyEmbedderResponder)
    (type : FlutterKeyEventType) (physical logical timestamp : Nat) :
    (synthesize_simple_event s type physical logical timestamp).engine =
      s.engine.map (fun received =>
        received ++ [⟨timestamp, type, physical, logical, none, true⟩]) := by
  simp [synthesize_simple_event]

@[simp] theorem synthesize_simple_event_pressing_records (s : FlKeyEmbedderResponder)
    (type : FlutterKeyEventType) (physical logical timestamp : Nat) :
    (synthesize_simple_event s type physical logical timestamp).pressing_records =
      s.pressing_records := by
  simp [synthesize_simple_event]

@[simp] theorem synthesize_simple_event_mapping_records (s : FlKeyEmbedderResponder)
    (type : FlutterKeyEventType) (physical logical timestamp : Nat) :
    (synthesize_simple_event s type physical logical timestamp).mapping_records =
      s.mapping_records := by
  simp [synthesize_simple_event]

@[simp] theorem synthesize_simple_event_lock_records (s : FlKeyEmbedderResponder)
    (type : FlutterKeyEventType) (physical logical timestamp : Nat) :
    (synthesize_simple_event s type physical logical timestamp).lock_records =
      s.lock_records := by
  simp [synthesize_simple_event]

@[simp] theorem synthesize_simple_event_inferrence (s : FlKeyEmbedderResponder)
    (type : FlutterKeyEventType) (physical logical timestamp : Nat) :
    (synthesize_simple_event s type physical logical timestamp).caps_lock_state_logic_inferrence =
      s.caps_lock_state_logic_inferrence := by
  simp [synthesize_simple_event]

@[simp] theorem synthesize_simple_event_sent_any_events (s : FlKeyEmbedderResponder)
    (type : FlutterKeyEventType) (physical logical timestamp : Nat) :
    (synthesize_simple_event s type physical logical timestamp).sent_any_events = true := by
  simp [synthesize_simple_event]

@[simp] theorem synthesize_simple_event_g_critical (s : FlKeyEmbedderResponder)
    (type : FlutterKeyEventType) (physical logical timestamp : Nat) :
    (synthesize_simple_event s type physical logical timestamp).g_critical = s.g_critical := by
  simp [synthesize_simple_event]

@[simp] theorem update_pressing_state_engine (s : FlKeyEmbedderResponder) (p l : Nat) :
    (update_pressing_state s p l).engine = s.engine := by
  unfold update_pressing_state g_return_if_fail_warning
  split <;> split <;> rfl

@[simp] theorem update_pressing_state_mapping_records (s : FlKeyEmbedderResponder) (p l : Nat) :
    (update_pressing_state s p l).mapping_records = s.mapping_records := by
  unfold update_pressing_state g_return_if_fail_warning
  split <;> split <;> rfl

@[simp] theorem update_pressing_state_lock_records (s : FlKeyEmbedderResponder) (p l : Nat) :
    (update_pressing_state s p l).lock_records = s.lock_records := by
  unfold update_pressing_state g_return_if_fail_warning
  split <;> split <;> rfl

@[simp] theorem update_pressing_state_inferrence (s : FlKeyEmbedderResponder) (p l : Nat) :
    (update_pressing_state s p l).caps_lock_state_logic_inferrence =
      s.caps_lock_state_logic_inferrence := by
  unfold update_pressing_state g_return_if_fail_warning
  split <;> split <;> rfl

@[simp] theorem update_pressing_state_sent_any_events (s : FlKeyEmbedderResponder) (p l : Nat) :
    (update_pressing_state s p l).sent_any_events = s.sent_any_events := by
  unfold update_pressing_state g_return_if_fail_warning
  split <;> split <;> rfl

theorem update_pressing_state_pressing_records (s : FlKeyEmbedderResponder) (p l : Nat) :
    (update_pressing_state s p l).pressing_records =
      if l ≠ 0 then
        (if lookup_hash_table s.pressing_records p = 0 then
          g_hash_table_insert s.pressing_records p l
         else s.pressing_records)
      else
        (if lookup_hash_table s.pressing_records p ≠ 0 then
          g_hash_table_remove s.pressing_records p
         else s.pressing_records) := by
  unfold update_pressing_state g_return_if_fail_warning
  split <;> split <;> rfl

@[simp] theorem possibly_update_lock_bit_engine (cfg : KeyMapping) (s : FlKeyEmbedderResponder)
    (l : Nat) (d : Bool) : (possibly_update_lock_bit cfg s l d).engine = s.engine := by
  unfold possibly_update_lock_bit
  split
  · rfl
  · simp only []; split <;> rfl

@[simp] theorem possibly_update_lock_bit_pressing_records (cfg : KeyMapping)
    (s : FlKeyEmbedderResponder) (l : Nat) (d : Bool) :
    (possibly_update_lock_bit cfg s l d).pressing_records = s.pressing_records := by
  unfold possibly_update_lock_bit
  split
  · rfl
  · simp only []; split <;> rfl

@[simp] theorem possibly_update_lock_bit_mapping_records (cfg : KeyMapping)
    (s : FlKeyEmbedderResponder) (l : Nat) (d : Bool) :
    (possibly_update_lock_bit cfg s l d).mapping_records = s.mapping_records := by
  unfold possibly_update_lock_bit
  split
  · rfl
  · simp only []; split <;> rfl

@[simp] theorem possibly_update_lock_bit_inferrence (cfg : KeyMapping)
    (s : FlKeyEmbedderResponder) (l : Nat) (d : Bool) :
    (possibly_update_lock_bit cfg s l d).caps_lock_state_logic_inferrence =
      s.caps_lock_state_logic_inferrence := by
  unfold possibly_update_lock_bit
  split
  · rfl
  · simp only []; split <;> rfl

@[simp] theorem possibly_update_lock_bit_sent_any_events (cfg : KeyMapping)
    (s : FlKeyEmbedderResponder) (l : Nat) (d : Bool) :
    (possibly_update_lock_bit cfg s l d).sent_any_events = s.sent_any_events := by
  unfold possibly_update_lock_bit
  split
  · rfl
  · simp only []; split <;> rfl

@[simp] theorem possibly_update_lock_bit_g_critical (cfg : KeyMapping)
    (s : FlKeyEmbedderResponder) (l : Nat) (d : Bool) :
    (possibly_update_lock_bit cfg s l d).g_critical = s.g_critical := by
  unfold possibly_update_lock_bit
  split
  · rfl
  · simp only []; split <;> rfl

@[simp] theorem possibly_update_lock_bit_release (cfg : KeyMapping)
    (s : FlKeyEmbedderResponder) (l : Nat) :
    possibly_update_lock_bit cfg s l false = s := by
  simp [possibly_update_lock_bit]

@[simp] theorem update_mapping_record_engine (s : FlKeyEmbedderResponder) (p l : Nat) :
    (update_mapping_record s p l).engine = s.engine := rfl

@[simp] theorem update_mapping_record_pressing_records (s : FlKeyEmbedderResponder) (p l : Nat) :
    (update_mapping_record s p l).pressing_records = s.pressing_records := rfl

@[simp] theorem update_mapping_record_lock_records (s : FlKeyEmbedderResponder) (p l : Nat) :
    (update_mapping_record s p l).lock_records = s.lock_records := rfl

@[simp] theorem update_mapping_record_mapping_records (s : FlKeyEmbedderResponder) (p l : Nat) :
    (update_mapping_record s p l).mapping_records =
      g_hash_table_insert s.mapping_records l p := rfl

@[simp] theorem update_mapping_record_inferrence (s : FlKeyEmbedderResponder) (p l : Nat) :
    (update_mapping_record s p l).caps_lock_state_logic_inferrence =
      s.caps_lock_state_logic_inferrence := rfl

@[simp] theorem update_mapping_record_sent_any_events (s : FlKeyEmbedderResponder) (p l : Nat) :
    (update_mapping_record s p l).sent_any_events = s.sent_any_events := rfl

@[simp] theorem update_mapping_record_g_critical (s : FlKeyEmbedderResponder) (p l : Nat) :
    (update_mapping_record s p l).g_critical = s.g_critical := rfl

@[simp] theorem g_return_if_fail_warning_engine (s : FlKeyEmbedderResponder) (a : Assertion) :
    (g_return_if_fail_warning s a).engine = s.engine := rfl

@[simp] theorem g_return_if_fail_warning_pressing_records (s : FlKeyEmbedderResponder)
    (a : Assertion) : (g_return_if_fail_warning s a).pressing_records = s.pressing_records := rfl

@[simp] theorem g_return_if_fail_warning_mapping_records (s : FlKeyEmbedderResponder)
    (a : Assertion) : (g_return_if_fail_warning s a).mapping_records = s.mapping_records := rfl

@[simp] theorem g_return_if_fail_warning_lock_records (s : FlKeyEmbedderResponder)
    (a : Assertion) : (g_return_if_fail_warning s a).lock_records = s.lock_records := rfl

@[simp] theorem g_return_if_fail_warning_inferrence (s : FlKeyEmbedderResponder)
    (a : Assertion) :
    (g_return_if_fail_warning s a).caps_lock_state_logic_inferrence =
      s.caps_lock_state_logic_inferrence := rfl

@[simp] theorem g_return_if_fail_warning_sent_any_events (s : FlKeyEmbedderResponder)
    (a : Assertion) : (g_return_if_fail_warning s a).sent_any_events = s.sent_any_events := rfl

@[simp] theorem update_caps_lock_engine (s : FlKeyEmbedderResponder) (d e : Bool) (st : Nat) :
    (update_caps_lock_state_logic_inferrence s d e st).engine = s.engine := by
  unfold update_caps_lock_state_logic_inferrence
  split
  · rfl
  · split
    · rfl
    · simp only []; split <;> rfl

@[simp] theorem update_caps_lock_pressing_records (s : FlKeyEmbedderResponder) (d e : Bool)
    (st : Nat) :
    (update_caps_lock_state_logic_inferrence s d e st).pressing_records = s.pressing_records := by
  unfold update_caps_lock_state_logic_inferrence
  split
  · rfl
  · split
    · rfl
    · simp only []; split <;> rfl

@[simp] theorem update_caps_lock_mapping_records (s : FlKeyEmbedderResponder) (d e : Bool)
    (st : Nat) :
    (update_caps_lock_state_logic_inferrence s d e st).mapping_records = s.mapping_records := by
  unfold update_caps_lock_state_logic_inferrence
  split
  · rfl
  · split
    · rfl
    · simp only []; split <;> rfl

@[simp] theorem update_caps_lock_lock_records (s : FlKeyEmbedderResponder) (d e : Bool)
    (st : Nat) :
    (update_caps_lock_state_logic_inferrence s d e st).lock_records = s.lock_records := by
  unfold update_caps_lock_state_logic_inferrence
  split
  · rfl
  · split
    · rfl
    · simp only []; split <;> rfl

@[simp] theorem update_caps_lock_sent_any_events (s : FlKeyEmbedderResponder) (d e : Bool)
    (st : Nat) :
    (update_caps_lock_state_logic_inferrence s d e st).sent_any_events = s.sent_any_events := by
  unfold update_caps_lock_state_logic_inferrence
  split
  · rfl
  · split
    · rfl
    · simp only []; split <;> rfl

@[simp] theorem update_caps_lock_g_critical (s : FlKeyEmbedderResponder) (d e : Bool)
    (st : Nat) :
    (update_caps_lock_state_logic_inferrence s d e st).g_critical = s.g_critical := by
  unfold update_caps_lock_state_logic_inferrence
  split
  · rfl
  · split
    · rfl
    · simp only []; split <;> rfl

/-! ## The synchronizers as sequences of steps -/

theorem synchronizer_steps_refl (cfg : KeyMapping) (s : FlKeyEmbedderResponder) :
    SynchronizerSteps cfg s s := Relation.ReflTransGen.refl

theorem synchronizer_steps_trans {cfg : KeyMapping} {a b c : FlKeyEmbedderResponder}
    (h1 : SynchronizerSteps cfg a b) (h2 : SynchronizerSteps cfg b c) :
    SynchronizerSteps cfg a c := Relation.ReflTransGen.trans h1 h2

theorem synchronizer_steps_single {cfg : KeyMapping} {a b : FlKeyEmbedderResponder}
    (h : SynchronizerStep cfg a b) : SynchronizerSteps cfg a b :=
  Relation.ReflTransGen.single h

theorem synchronize_lock_states_stage_mapping_records (cfg : KeyMapping)
    (physical_key logical_key recorded_physical_key timestamp current_stage : Nat)
    (s : FlKeyEmbedderResponder) (h : recorded_physical_key ≠ 0) :
    (synchronize_lock_states_stage cfg physical_key logical_key recorded_physical_key timestamp
      current_stage s).mapping_records = s.mapping_records := by
  simp [synchronize_lock_states_stage, h]

theorem synchronize_lock_states_stages_steps (cfg : KeyMapping) (modifier_bit : Nat)
    (checked_key : FlKeyEmbedderCheckedKey) (recorded_physical_key timestamp : Nat)
    (h_entry : (modifier_bit, checked_key) ∈ cfg.lock_bit_to_checked_keys)
    (stages : List Nat) (s : FlKeyEmbedderResponder)
    (h : recorded_physical_key = 0 ∨
      lookup_hash_table s.mapping_records checked_key.primary_logical_key =
        recorded_physical_key) :
    SynchronizerSteps cfg s
      (synchronize_lock_states_stages cfg
        (if recorded_physical_key ≠ 0 then recorded_physical_key
         else checked_key.primary_physical_key)
        checked_key.primary_logical_key recorded_physical_key timestamp stages s) := by
  induction stages generalizing s with
  | nil => exact synchronizer_steps_refl cfg s
  | cons current_stage rest ih =>
    unfold synchronize_lock_states_stages
    refine synchronizer_steps_trans
      (synchronizer_steps_single
        (SynchronizerStep.lock_stage s modifier_bit checked_key recorded_physical_key timestamp
          current_stage h_entry h)) (ih _ ?_)
    rcases h with h | h
    · exact Or.inl h
    · by_cases h0 : recorded_physical_key = 0
      · exact Or.inl h0
      · right
        rw [synchronize_lock_states_stage_mapping_records _ _ _ _ _ _ _ h0]
        exact h

theorem synchronize_lock_states_checked_key_steps (cfg : KeyMapping) (state timestamp : Nat)
    (is_down : Bool) (event_logical_key modifier_bit : Nat)
    (checked_key : FlKeyEmbedderCheckedKey)
    (h_entry : (modifier_bit, checked_key) ∈ cfg.lock_bit_to_checked_keys)
    (s : FlKeyEmbedderResponder) :
    SynchronizerSteps cfg s
      (synchronize_lock_states_checked_key cfg state timestamp is_down event_logical_key
        modifier_bit checked_key s).responder := by
  unfold synchronize_lock_states_checked_key
  lift_lets
  extract_lets logical_key recorded physical pressed stage_by_record enabled this_key s1 reverse s2
    stage_by_event destination
  have h1 : SynchronizerSteps cfg s s1 := by
    show SynchronizerSteps cfg s (if _ then _ else _)
    split
    · exact synchronizer_steps_single (SynchronizerStep.inferrence _ _ _ _)
    · exact synchronizer_steps_refl cfg s
  have h2 : SynchronizerSteps cfg s1 s2 := by
    show SynchronizerSteps cfg s1 (if _ then _ else _)
    split
    · exact synchronizer_steps_single (SynchronizerStep.failed_check _ _)
    · exact synchronizer_steps_refl cfg s1
  have hm1 : s1.mapping_records = s.mapping_records := by
    show (if _ then _ else _ : FlKeyEmbedderResponder).mapping_records = _
    split <;> simp
  have hm2 : s2.mapping_records = s1.mapping_records := by
    show (if _ then _ else _ : FlKeyEmbedderResponder).mapping_records = _
    split <;> simp
  split
  · exact synchronizer_steps_single (SynchronizerStep.failed_check _ _)
  · split
    · exact synchronizer_steps_trans h1
        (synchronizer_steps_single (SynchronizerStep.failed_check _ _))
    · split
      · exact synchronizer_steps_trans (synchronizer_steps_trans h1 h2)
          (synchronizer_steps_single (SynchronizerStep.failed_check _ _))
      · refine synchronizer_steps_trans (synchronizer_steps_trans h1 h2) ?_
        show SynchronizerSteps cfg s2
          (synchronize_lock_states_stages cfg (chosen_physical_key s checked_key)
            checked_key.primary_logical_key
            (lookup_hash_table s.mapping_records checked_key.primary_logical_key) timestamp _ s2)
        unfold chosen_physical_key
        apply synchronize_lock_states_stages_steps cfg modifier_bit checked_key _ timestamp h_entry
        right
        rw [hm2, hm1]

theorem synchronize_lock_states_entries_steps (cfg : KeyMapping) (state timestamp : Nat)
    (is_down : Bool) (event_logical_key : Nat) (entries : List (Nat × FlKeyEmbedderCheckedKey))
    (h_entries : ∀ entry ∈ entries, entry ∈ cfg.lock_bit_to_checked_keys)
    (s : FlKeyEmbedderResponder) :
    SynchronizerSteps cfg s
      (synchronize_lock_states_entries cfg state timestamp is_down event_logical_key entries s) := by
  induction entries generalizing s with
  | nil => exact synchronizer_steps_refl cfg s
  | cons entry rest ih =>
    obtain ⟨modifier_bit, checked_key⟩ := entry
    have h := synchronize_lock_states_checked_key_steps cfg state timestamp is_down
      event_logical_key modifier_bit checked_key (h_entries _ (List.mem_cons_self _ _)) s
    unfold synchronize_lock_states_entries
    cases hstep : synchronize_lock_states_checked_key cfg state timestamp is_down
        event_logical_key modifier_bit checked_key s with
    | returned s1 =>
      rw [hstep] at h
      exact h
    | next s1 =>
      rw [hstep] at h
      exact synchronizer_steps_trans h
        (ih (fun e he => h_entries e (List.mem_cons_of_mem _ he)) s1)

theorem synchronize_lock_states_steps (cfg : KeyMapping) (s : FlKeyEmbedderResponder)
    (state timestamp : Nat) (is_down : Bool) (event_logical_key : Nat) :
    SynchronizerSteps cfg s
      (synchronize_lock_states cfg s state timestamp is_down event_logical_key) :=
  synchronize_lock_states_entries_steps cfg state timestamp is_down event_logical_key _
    (fun _ h => h) s

theorem reverse_lookup_hash_table_ne_zero (t : GHashTable) (value : Nat) (h : value ≠ 0) :
    (reverse_lookup_hash_table t value != 0) = decide (value ∈ t.map Prod.snd) := by
  rw [reverse_lookup_hash_table_eq]
  by_cases hv : value ∈ t.map Prod.snd <;> simp [hv, h]

theorem primary_mem_checked_logical_keys (checked_key : FlKeyEmbedderCheckedKey) :
    checked_key.primary_logical_key ∈ checked_logical_keys checked_key := by
  unfold checked_logical_keys
  split <;> simp

theorem mem_checked_logical_keys (checked_key : FlKeyEmbedderCheckedKey) (l : Nat) :
    l ∈ checked_logical_keys checked_key ↔
      l = checked_key.primary_logical_key ∨
        (checked_key.secondary_logical_key ≠ 0 ∧ l = checked_key.secondary_logical_key) := by
  unfold checked_logical_keys
  split <;> simp [*]

theorem synchronize_pressed_states_logical_keys_released (any_pressed_by_state : Bool)
    (timestamp : Nat) (keys : List Nat) (any_pressed_by_record : Bool)
    (s s' : FlKeyEmbedderResponder)
    (h : synchronize_pressed_states_logical_keys any_pressed_by_state timestamp keys
      any_pressed_by_record s = LoopStep.next (s', false)) :
    any_pressed_by_record = false ∧ s' = s ∧
      ∀ l ∈ keys, l ≠ 0 ∧ l ∉ s.pressing_records.map Prod.snd := by
  induction keys generalizing any_pressed_by_record s with
  | nil =>
    simp only [synchronize_pressed_states_logical_keys, LoopStep.next.injEq, Prod.mk.injEq] at h
    exact ⟨h.2, h.1.symm, by simp⟩
  | cons l rest ih =>
    unfold synchronize_pressed_states_logical_keys at h
    by_cases hl : l = 0
    · simp [hl] at h
    · simp only [hl, if_false] at h
      rw [reverse_lookup_hash_table_ne_zero _ _ hl] at h
      by_cases hp : l ∈ s.pressing_records.map Prod.snd
      · simp only [hp, decide_True, Bool.or_true, Bool.true_and] at h
        split at h
        · split at h
          · simp at h
          · exact absurd (ih _ _ h).1 (by simp)
        · exact absurd (ih _ _ h).1 (by simp)
      · simp only [hp, decide_False, Bool.or_false, Bool.false_and, Bool.false_eq_true,
          if_false] at h
        obtain ⟨h1, h2, h3⟩ := ih _ _ h
        refine ⟨h1, h2, ?_⟩
        intro k hk
        rcases List.mem_cons.1 hk with hk | hk
        · subst hk; exact ⟨hl, hp⟩
        · exact h3 k hk

theorem synchronize_pressed_states_logical_keys_steps (cfg : KeyMapping)
    (modifier_bit : Nat) (checked_key : FlKeyEmbedderCheckedKey)
    (h_entry : (modifier_bit, checked_key) ∈ cfg.modifier_bit_to_checked_keys)
    (any_pressed_by_state : Bool) (timestamp : Nat) (keys : List Nat)
    (h_keys : ∀ l ∈ keys, l ∈ checked_logical_keys checked_key)
    (any_pressed_by_record : Bool) (s : FlKeyEmbedderResponder) :
    (∀ s' b, synchronize_pressed_states_logical_keys any_pressed_by_state timestamp keys
        any_pressed_by_record s = LoopStep.next (s', b) → SynchronizerSteps cfg s s') ∧
    (∀ s', synchronize_pressed_states_logical_keys any_pressed_by_state timestamp keys
        any_pressed_by_record s = LoopStep.returned s' → SynchronizerSteps cfg s s') := by
  induction keys generalizing any_pressed_by_record s with
  | nil =>
    constructor
    · intro s' b h
      simp only [synchronize_pressed_states_logical_keys, LoopStep.next.injEq,
        Prod.mk.injEq] at h
      rw [← h.1]; exact synchronizer_steps_refl cfg s
    · intro s' h
      simp [synchronize_pressed_states_logical_keys] at h
  | cons l rest ih =>
    have h_rest : ∀ k ∈ rest, k ∈ checked_logical_keys checked_key :=
      fun k hk => h_keys k (List.mem_cons_of_mem _ hk)
    unfold synchronize_pressed_states_logical_keys
    by_cases hl : l = 0
    · simp only [hl, if_true]
      constructor
      · intro s' b h; simp at h
      · intro s' h
        simp only [LoopStep.returned.injEq] at h
        rw [← h]
        exact synchronizer_steps_single (SynchronizerStep.failed_check _ _)
    · simp only [hl, if_false]
      rw [reverse_lookup_hash_table_ne_zero _ _ hl]
      by_cases hp : l ∈ s.pressing_records.map Prod.snd
      · simp only [hp, decide_True, Bool.or_true, Bool.true_and]
        by_cases hst : any_pressed_by_state = true
        · subst hst
          simp only [Bool.not_true, Bool.false_eq_true, if_false]
          exact ih h_rest _ _
        · simp only [Bool.not_eq_true] at hst
          subst hst
          simp only [Bool.not_false, if_true]
          by_cases hr : lookup_hash_table s.mapping_records l = 0
          · simp only [hr, if_true]
            constructor
            · intro s' b h; simp at h
            · intro s' h
              simp only [LoopStep.returned.injEq] at h
              rw [← h]
              exact synchronizer_steps_single (SynchronizerStep.failed_check _ _)
          · simp only [hr, if_false]
            have hstep : SynchronizerSteps cfg s
                (synchronize_pressed_states_release s l timestamp) :=
              synchronizer_steps_single
                (SynchronizerStep.modifier_release s modifier_bit checked_key l timestamp h_entry
                  (h_keys l (List.mem_cons_self _ _)) hl hp hr)
            obtain ⟨ih1, ih2⟩ := ih h_rest true (synchronize_pressed_states_release s l timestamp)
            exact ⟨fun s' b h => synchronizer_steps_trans hstep (ih1 s' b h),
              fun s' h => synchronizer_steps_trans hstep (ih2 s' h)⟩
      · simp only [hp, decide_False, Bool.or_false, Bool.false_and, Bool.false_eq_true,
          if_false]
        exact ih h_rest _ _

theorem synchronize_pressed_states_checked_key_steps (cfg : KeyMapping) (state timestamp : Nat)
    (modifier_bit : Nat) (checked_key : FlKeyEmbedderCheckedKey)
    (h_entry : (modifier_bit, checked_key) ∈ cfg.modifier_bit_to_checked_keys)
    (s : FlKeyEmbedderResponder) :
    SynchronizerSteps cfg s
      (synchronize_pressed_states_checked_key state timestamp modifier_bit checked_key
        s).responder := by
  unfold synchronize_pressed_states_checked_key
  simp only []
  obtain ⟨h1, h2⟩ := synchronize_pressed_states_logical_keys_steps cfg modifier_bit checked_key
    h_entry ((state &&& modifier_bit) != 0) timestamp (checked_logical_keys checked_key)
    (fun _ h => h) false s
  cases hloop : synchronize_pressed_states_logical_keys ((state &&& modifier_bit) != 0) timestamp
      (checked_logical_keys checked_key) false s with
  | returned s1 => exact h2 s1 hloop
  | next r =>
    obtain ⟨s1, b⟩ := r
    have hs1 := h1 s1 b hloop
    simp only []
    split
    · rename_i hcond
      simp only [Bool.and_eq_true, Bool.not_eq_true'] at hcond
      obtain ⟨_, hb⟩ := hcond
      subst hb
      obtain ⟨_, hs, hrel⟩ := synchronize_pressed_states_logical_keys_released _ _ _ _ _ _ hloop
      subst hs
      exact synchronizer_steps_single
        (SynchronizerStep.modifier_press s1 modifier_bit checked_key timestamp h_entry
          (hrel _ (primary_mem_checked_logical_keys checked_key)).1
          (fun l hl => (hrel l hl).2))
    · exact hs1

theorem synchronize_pressed_states_entries_steps (cfg : KeyMapping) (state timestamp : Nat)
    (entries : List (Nat × FlKeyEmbedderCheckedKey))
    (h_entries : ∀ entry ∈ entries, entry ∈ cfg.modifier_bit_to_checked_keys)
    (s : FlKeyEmbedderResponder) :
    SynchronizerSteps cfg s (synchronize_pressed_states_entries state timestamp entries s) := by
  induction entries generalizing s with
  | nil => exact synchronizer_steps_refl cfg s
  | cons entry rest ih =>
    obtain ⟨modifier_bit, checked_key⟩ := entry
    have h := synchronize_pressed_states_checked_key_steps cfg state timestamp modifier_bit
      checked_key (h_entries _ (List.mem_cons_self _ _)) s
    unfold synchronize_pressed_states_entries
    cases hstep : synchronize_pressed_states_checked_key state timestamp modifier_bit
        checked_key s with
    | returned s1 =>
      rw [hstep] at h
      exact h
    | next s1 =>
      rw [hstep] at h
      exact synchronizer_steps_trans h
        (ih (fun e he => h_entries e (List.mem_cons_of_mem _ he)) s1)

theorem synchronize_pressed_states_steps (cfg : KeyMapping) (s : FlKeyEmbedderResponder)
    (state timestamp : Nat) :
    SynchronizerSteps cfg s (synchronize_pressed_states cfg s state timestamp) :=
  synchronize_pressed_states_entries_steps cfg state timestamp _ (fun _ h => h) s

theorem synchronize_states_steps (cfg : KeyMapping) (s : FlKeyEmbedderResponder)
    (event : FlKeyEvent) (specified_logical_key : Nat) :
    SynchronizerSteps cfg s (synchronize_states cfg s event specified_logical_key) :=
  synchronizer_steps_trans (synchronize_lock_states_steps cfg s _ _ _ _)
    (synchronize_pressed_states_steps cfg _ _ _)

/-! ## What the synchronizer steps leave alone -/

@[simp] theorem synchronize_lock_states_stage_sent_any_events (cfg : KeyMapping)
    (physical_key logical_key recorded_physical_key timestamp current_stage : Nat)
    (s : FlKeyEmbedderResponder) :
    (synchronize_lock_states_stage cfg physical_key logical_key recorded_physical_key timestamp
      current_stage s).sent_any_events = true := by
  simp [synchronize_lock_states_stage]

@[simp] theorem synchronize_pressed_states_release_sent_any_events (s : FlKeyEmbedderResponder)
    (logical_key timestamp : Nat) :
    (synchronize_pressed_states_release s logical_key timestamp).sent_any_events = true := by
  simp [synchronize_pressed_states_release]

@[simp] theorem synchronize_pressed_states_press_sent_any_events (s : FlKeyEmbedderResponder)
    (checked_key : FlKeyEmbedderCheckedKey) (timestamp : Nat) :
    (synchronize_pressed_states_press s checked_key timestamp).sent_any_events = true := by
  simp [synchronize_pressed_states_press]

/-- The records of a responder that the key events are about: the events the
engine has received, the pressing records, the mapping records and the lock
records. -/
theorem synchronizer_step_of_not_sent {cfg : KeyMapping} {s s' : FlKeyEmbedderResponder}
    (h : SynchronizerStep cfg s s') (hf : s'.sent_any_events = false) :
    s.sent_any_events = false ∧ s'.engine = s.engine ∧
      s'.pressing_records = s.pressing_records ∧ s'.mapping_records = s.mapping_records ∧
      s'.lock_records = s.lock_records := by
  cases h with
  | failed_check a => exact ⟨hf, rfl, rfl, rfl, rfl⟩
  | inferrence d e st => simp at hf; simp [hf]
  | lock_stage => simp at hf
  | modifier_release => simp at hf
  | modifier_press => simp at hf

theorem synchronizer_steps_of_not_sent {cfg : KeyMapping} {s s' : FlKeyEmbedderResponder}
    (h : SynchronizerSteps cfg s s') (hf : s'.sent_any_events = false) :
    s.sent_any_events = false ∧ s'.engine = s.engine ∧
      s'.pressing_records = s.pressing_records ∧ s'.mapping_records = s.mapping_records ∧
      s'.lock_records = s.lock_records := by
  induction h with
  | refl => exact ⟨hf, rfl, rfl, rfl, rfl⟩
  | tail _ hstep ih =>
    obtain ⟨h1, h2, h3, h4, h5⟩ := synchronizer_step_of_not_sent hstep hf
    obtain ⟨i1, i2, i3, i4, i5⟩ := ih h1
    exact ⟨i1, h2.trans i2, h3.trans i3, h4.trans i4, h5.trans i5⟩

theorem synchronize_lock_states_stage_engine (cfg : KeyMapping)
    (physical_key logical_key recorded_physical_key timestamp current_stage : Nat)
    (s : FlKeyEmbedderResponder) :
    (synchronize_lock_states_stage cfg physical_key logical_key recorded_physical_key timestamp
      current_stage s).engine =
      s.engine.map (fun received => received ++
        [⟨timestamp,
          if (current_stage % kNumStages == 0 || current_stage % kNumStages == 2) = true then
            kFlutterKeyEventTypeDown
          else kFlutterKeyEventTypeUp,
          physical_key, logical_key, none, true⟩]) := by
  simp only [synchronize_lock_states_stage, synthesize_simple_event_engine,
    possibly_update_lock_bit_engine, update_pressing_state_engine,
    apply_ite FlKeyEmbedderResponder.engine, update_mapping_record_engine, ite_self]

theorem synchronize_pressed_states_release_engine (s : FlKeyEmbedderResponder)
    (logical_key timestamp : Nat) :
    (synchronize_pressed_states_release s logical_key timestamp).engine =
      s.engine.map (fun received => received ++
        [⟨timestamp, kFlutterKeyEventTypeUp, lookup_hash_table s.mapping_records logical_key,
          lookup_hash_table s.pressing_records
            (lookup_hash_table s.mapping_records logical_key), none, true⟩]) := by
  simp only [synchronize_pressed_states_release, update_pressing_state_engine,
    synthesize_simple_event_engine]

theorem synchronize_pressed_states_press_engine (s : FlKeyEmbedderResponder)
    (checked_key : FlKeyEmbedderCheckedKey) (timestamp : Nat) :
    (synchronize_pressed_states_press s checked_key timestamp).engine =
      s.engine.map (fun received => received ++
        [⟨timestamp, kFlutterKeyEventTypeDown, chosen_physical_key s checked_key,
          checked_key.primary_logical_key, none, true⟩]) := by
  simp only [synchronize_pressed_states_press, update_pressing_state_engine,
    synthesize_simple_event_engine, apply_ite FlKeyEmbedderResponder.engine,
    update_mapping_record_engine, ite_self]

theorem synchronizer_step_engine {cfg : KeyMapping} {s s' : FlKeyEmbedderResponder}
    (h : SynchronizerStep cfg s s') :
    ∃ events : List FlutterKeyEvent,
      s'.engine = s.engine.map (fun received => received ++ events) ∧
        ∀ e ∈ events, e.is_synthesized_simple := by
  cases h with
  | failed_check a => exact ⟨[], by simp, by simp⟩
  | inferrence d e st => exact ⟨[], by simp, by simp⟩
  | lock_stage modifier_bit checked_key recorded timestamp current_stage =>
    refine ⟨_, synchronize_lock_states_stage_engine _ _ _ _ _ _ _, ?_⟩
    intro e he
    simp only [List.mem_singleton] at he
    subst he
    refine ⟨rfl, rfl, ?_⟩
    show (if _ then _ else _) ≠ _
    split <;> simp
  | modifier_release modifier_bit checked_key logical_key timestamp =>
    refine ⟨_, synchronize_pressed_states_release_engine _ _ _, ?_⟩
    intro e he
    simp only [List.mem_singleton] at he
    subst he
    exact ⟨rfl, rfl, by simp⟩
  | modifier_press modifier_bit checked_key timestamp =>
    refine ⟨_, synchronize_pressed_states_press_engine _ _ _, ?_⟩
    intro e he
    simp only [List.mem_singleton] at he
    subst he
    exact ⟨rfl, rfl, by simp⟩

theorem synchronizer_steps_engine {cfg : KeyMapping} {s s' : FlKeyEmbedderResponder}
    (h : SynchronizerSteps cfg s s') :
    ∃ events : List FlutterKeyEvent,
      s'.engine = s.engine.map (fun received => received ++ events) ∧
        ∀ e ∈ events, e.is_synthesized_simple := by
  induction h with
  | refl => exact ⟨[], by simp, by simp⟩
  | tail _ hstep ih =>
    obtain ⟨ev1, h1, h2⟩ := ih
    obtain ⟨ev2, h3, h4⟩ := synchronizer_step_engine hstep
    refine ⟨ev1 ++ ev2, ?_, ?_⟩
    · rw [h3, h1]
      cases s.engine <;> simp
    · intro e he
      rcases List.mem_append.1 he with he | he
      · exact h2 e he
      · exact h4 e he

/-! ## The real event -/

theorem handle_event_impl_press (cfg : KeyMapping) (s : FlKeyEmbedderResponder)
    (event : FlKeyEvent) (specified_logical_key : Nat) (h : event.is_press = true) :
    fl_key_embedder_responder_handle_event_impl cfg s event specified_logical_key =
      let s1 := synchronize_states cfg s event specified_logical_key
      let p := resolved_physical_key cfg event specified_logical_key
      let l := resolved_logical_key cfg event specified_logical_key
      let r := lookup_hash_table s1.pressing_records p
      let s2 := if r ≠ 0 then s1 else update_pressing_state s1 p l
      let s3 := update_mapping_record (possibly_update_lock_bit cfg s2 l true) p l
      (fl_engine_send_key_event { s3 with sent_any_events := true }
        ⟨event_to_timestamp event,
          if r ≠ 0 then kFlutterKeyEventTypeRepeat else kFlutterKeyEventTypeDown, p,
          if r ≠ 0 then r else l, event_to_character cfg event, false⟩, none) := by
  unfold fl_key_embedder_responder_handle_event_impl
  simp only [h, Bool.not_true, Bool.false_and, Bool.false_eq_true, if_false, if_true]
  by_cases hr : lookup_hash_table
      (synchronize_states cfg s event specified_logical_key).pressing_records
      (resolved_physical_key cfg event specified_logical_key) = 0
  · simp [hr]
  · simp [hr]

theorem handle_event_impl_release (cfg : KeyMapping) (s : FlKeyEmbedderResponder)
    (event : FlKeyEvent) (specified_logical_key : Nat) (h : event.is_press = false)
    (hr : lookup_hash_table
      (synchronize_states cfg s event specified_logical_key).pressing_records
      (resolved_physical_key cfg event specified_logical_key) ≠ 0) :
    fl_key_embedder_responder_handle_event_impl cfg s event specified_logical_key =
      let s1 := synchronize_states cfg s event specified_logical_key
      let p := resolved_physical_key cfg event specified_logical_key
      let r := lookup_hash_table s1.pressing_records p
      (fl_engine_send_key_event { update_pressing_state s1 p 0 with sent_any_events := true }
        ⟨event_to_timestamp event, kFlutterKeyEventTypeUp, p, r, none, false⟩, none) := by
  unfold fl_key_embedder_responder_handle_event_impl
  simp [h, hr]

theorem handle_event_impl_stale_release (cfg : KeyMapping) (s : FlKeyEmbedderResponder)
    (event : FlKeyEvent) (specified_logical_key : Nat) (h : event.is_press = false)
    (hr : lookup_hash_table
      (synchronize_states cfg s event specified_logical_key).pressing_records
      (resolved_physical_key cfg event specified_logical_key) = 0) :
    fl_key_embedder_responder_handle_event_impl cfg s event specified_logical_key =
      (synchronize_states cfg s event specified_logical_key, some true) := by
  unfold fl_key_embedder_responder_handle_event_impl
  simp [h, hr]

theorem handle_event_of_real_event (cfg : KeyMapping) (s : FlKeyEmbedderResponder)
    (event : FlKeyEvent) (specified_logical_key : Nat)
    (h : event.is_press = true ∨ lookup_hash_table
      (synchronize_states cfg { s with sent_any_events := false } event
        specified_logical_key).pressing_records
      (resolved_physical_key cfg event specified_logical_key) ≠ 0) :
    fl_key_embedder_responder_handle_event cfg s event specified_logical_key =
      fl_key_embedder_responder_handle_event_impl cfg { s with sent_any_events := false } event
        specified_logical_key := by
  unfold fl_key_embedder_responder_handle_event
  have : (fl_key_embedder_responder_handle_event_impl cfg { s with sent_any_events := false }
      event specified_logical_key).1.sent_any_events = true := by
    by_cases hp : event.is_press = true
    · rw [handle_event_impl_press _ _ _ _ hp]; simp
    · simp only [Bool.not_eq_true] at hp
      rcases h with h | h
      · simp [hp] at h
      · rw [handle_event_impl_release _ _ _ _ hp h]; simp
  simp [this]

/-! ## C1: classification of the real event -/

/-- C1 (the code at the failing input): on the fresh responder the press of
keycode 0x26 with keyval 0 resolves to logical key 0; after the synchronizers
the physical key has no entry and the real event is a down event, with the
logical key 0; `update_pressing_state` takes the logical key 0 as the request
to release the key, its check that the key is pressed fails, and the pressing
records gain no entry: the table stays empty. -/
theorem handle_event_press_of_logical_key_zero_not_recorded :
    resolved_logical_key key_mapping ⟨0, true, 0x26, 0, 0⟩ 0 = 0 ∧
    resolved_physical_key key_mapping ⟨0, true, 0x26, 0, 0⟩ 0 = 0x70004 ∧
    g_hash_table_lookup
      (synchronize_states key_mapping (fl_key_embedder_responder_new (some []))
        ⟨0, true, 0x26, 0, 0⟩ 0).pressing_records 0x70004 = none ∧
    (fl_key_embedder_responder_handle_event key_mapping (fl_key_embedder_responder_new (some []))
      ⟨0, true, 0x26, 0, 0⟩ 0).1.engine =
        some [⟨0, kFlutterKeyEventTypeDown, 0x70004, 0, none, false⟩] ∧
    fl_key_embedder_responder_get_pressed_state
      (fl_key_embedder_responder_handle_event key_mapping
        (fl_key_embedder_responder_new (some [])) ⟨0, true, 0x26, 0, 0⟩ 0).1 = [] ∧
    (fl_key_embedder_responder_handle_event key_mapping
      (fl_key_embedder_responder_new (some [])) ⟨0, true, 0x26, 0, 0⟩ 0).1.g_critical =
        [Assertion.pressing_key_down] := by
  decide

/-- The classification of the real event for a logical key that is not 0: let
`s1` be the responder after the two synchronizers have
run for the raw event, `p` and `l` the corrected physical key and the logical
key of the event, and `r` the pressing record of `p` in `s1`. Then
`handle_event` sends, after the synthesized events, exactly: for a press with
`r` present one repeat event, leaving the pressing records as they are; for a
press with `r` absent and `l` non-zero one down event, and the pressing
records gain `p -> l`; for a release with `r` present one up event, and the
entry of `p` is removed; for a release with `r` absent no real event (only the
empty event if nothing was synthesized), and the task is completed with
handled = true. -/
theorem handle_event_classifies_real_event (cfg : KeyMapping) (s : FlKeyEmbedderResponder)
    (event : FlKeyEvent) (specified_logical_key : Nat) (s1 : FlKeyEmbedderResponder)
    (p l r : Nat)
    (hs1 : s1 = synchronize_states cfg { s with sent_any_events := false } event
      specified_logical_key)
    (hp : p = resolved_physical_key cfg event specified_logical_key)
    (hl : l = resolved_logical_key cfg event specified_logical_key)
    (hr : r = lookup_hash_table s1.pressing_records p) :
    (event.is_press = true → r ≠ 0 →
      (fl_key_embedder_responder_handle_event cfg s event specified_logical_key).1.engine =
        s1.engine.map (fun received => received ++
          [⟨event_to_timestamp event, kFlutterKeyEventTypeRepeat, p, r,
            event_to_character cfg event, false⟩]) ∧
      (fl_key_embedder_responder_handle_event cfg s event
        specified_logical_key).1.pressing_records = s1.pressing_records) ∧
    (event.is_press = true → r = 0 → l ≠ 0 →
      (fl_key_embedder_responder_handle_event cfg s event specified_logical_key).1.engine =
        s1.engine.map (fun received => received ++
          [⟨event_to_timestamp event, kFlutterKeyEventTypeDown, p, l,
            event_to_character cfg event, false⟩]) ∧
      (fl_key_embedder_responder_handle_event cfg s event
        specified_logical_key).1.pressing_records = g_hash_table_insert s1.pressing_records p l ∧
      g_hash_table_lookup (fl_key_embedder_responder_handle_event cfg s event
        specified_logical_key).1.pressing_records p = some l) ∧
    (event.is_press = false → r ≠ 0 →
      (fl_key_embedder_responder_handle_event cfg s event specified_logical_key).1.engine =
        s1.engine.map (fun received => received ++
          [⟨event_to_timestamp event, kFlutterKeyEventTypeUp, p, r, none, false⟩]) ∧
      (fl_key_embedder_responder_handle_event cfg s event
        specified_logical_key).1.pressing_records = g_hash_table_remove s1.pressing_records p ∧
      g_hash_table_lookup (fl_key_embedder_responder_handle_event cfg s event
        specified_logical_key).1.pressing_records p = none) ∧
    (event.is_press = false → r = 0 →
      (fl_key_embedder_responder_handle_event cfg s event specified_logical_key).1.engine =
        s1.engine.map (fun received => received ++
          if s1.sent_any_events = true then [] else [kEmptyEvent]) ∧
      (fl_key_embedder_responder_handle_event cfg s event
        specified_logical_key).1.pressing_records = s1.pressing_records ∧
      (fl_key_embedder_responder_handle_event cfg s event specified_logical_key).2 =
        some true) := by
  subst hs1 hp hl
  refine ⟨?_, ?_, ?_, ?_⟩
  · intro hpress hr0
    subst hr
    rw [handle_event_of_real_event _ _ _ _ (Or.inl hpress), handle_event_impl_press _ _ _ _ hpress]
    simp [hr0]
  · intro hpress hr0 hl0
    subst hr
    rw [handle_event_of_real_event _ _ _ _ (Or.inl hpress), handle_event_impl_press _ _ _ _ hpress]
    simp [hr0, update_pressing_state_pressing_records, hl0, g_hash_table_lookup_insert]
  · intro hrel hr0
    subst hr
    rw [handle_event_of_real_event _ _ _ _ (Or.inr hr0),
      handle_event_impl_release _ _ _ _ hrel hr0]
    simp [update_pressing_state_pressing_records, hr0, g_hash_table_lookup_remove]
  · intro hrel hr0
    subst hr
    unfold fl_key_embedder_responder_handle_event
    rw [handle_event_impl_stale_release _ _ _ _ hrel hr0]
    by_cases hsent : (synchronize_states cfg { s with sent_any_events := false } event
        specified_logical_key).sent_any_events = true
    · simp [hsent]
    · simp [hsent]

/-- An instance of the classification of the real event: the press of the A key (keycode 0x26, keyval 0x61) on the
fresh responder is the case of a press with no pressing record: one down event
is sent. -/
theorem handle_event_classifies_real_event_witness :
    (fl_key_embedder_responder_handle_event key_mapping (fl_key_embedder_responder_new (some []))
      ⟨0, true, 0x26, 0x61, 0⟩ 0).1.engine =
        some [⟨0, kFlutterKeyEventTypeDown, 0x70004, 0x61, some 0x61, false⟩] :=
  ((handle_event_classifies_real_event key_mapping (fl_key_embedder_responder_new (some []))
    ⟨0, true, 0x26, 0x61, 0⟩ 0 _ 0x70004 0x61 0 rfl (by decide) (by decide)
    (by decide)).2.1 rfl rfl (by decide)).1

/-! ## C2: stale release -/

/-- C2 (as stated, refuted): on the fresh responder the left Shift key has no
pressing record; its release with the Shift bit set in the bitmask makes the
modifier synchronizer press it first, so that `handle_event` sends a real up
event and leaves the task to the reply of the engine. -/
theorem handle_event_release_without_record_sends_real_up :
    g_hash_table_lookup (fl_key_embedder_responder_new (some [])).pressing_records
      (resolved_physical_key key_mapping ⟨0, false, 0x32, 0xffe1, 1⟩ 0) = none ∧
    (fl_key_embedder_responder_handle_event key_mapping (fl_key_embedder_responder_new (some []))
      ⟨0, false, 0x32, 0xffe1, 1⟩ 0) =
      ({ engine := some [⟨0, kFlutterKeyEventTypeDown, 0x700e1, 0x200000102, none, true⟩,
                         ⟨0, kFlutterKeyEventTypeUp, 0x700e1, 0x200000102, none, false⟩],
         pressing_records := [], lock_records := 0,
         mapping_records := [(0x200000102, 0x700e1)],
         caps_lock_state_logic_inferrence := STATE_LOGIC_INFERRENCE_UNDECIDED,
         sent_any_events := true, g_critical := [] }, none) := by
  decide

/-- C2 (amended): for every responder state and every release raw event whose
physical key has no pressing record after the two synchronizers have run,
`handle_event` completes the task with handled = true, and every event it
sends is a synthesized event of the synchronizers or the reserved empty
event. -/
theorem handle_event_stale_release (cfg : KeyMapping) (s : FlKeyEmbedderResponder)
    (event : FlKeyEvent) (specified_logical_key : Nat)
    (h_release : event.is_press = false)
    (h_absent : lookup_hash_table
      (synchronize_states cfg { s with sent_any_events := false } event
        specified_logical_key).pressing_records
      (resolved_physical_key cfg event specified_logical_key) = 0) :
    (fl_key_embedder_responder_handle_event cfg s event specified_logical_key).2 = some true ∧
    ∃ events : List FlutterKeyEvent,
      (fl_key_embedder_responder_handle_event cfg s event specified_logical_key).1.engine =
        s.engine.map (fun received => received ++ events) ∧
      ∀ e ∈ events, e.synthesized = true ∨ e = kEmptyEvent := by
  have hsteps := synchronize_states_steps cfg { s with sent_any_events := false } event
    specified_logical_key
  obtain ⟨events, hev, hsyn⟩ := synchronizer_steps_engine hsteps
  unfold fl_key_embedder_responder_handle_event
  rw [handle_event_impl_stale_release _ _ _ _ h_release h_absent]
  simp only []
  refine ⟨by split <;> rfl, ?_⟩
  by_cases hsent : (synchronize_states cfg { s with sent_any_events := false } event
      specified_logical_key).sent_any_events = true
  · refine ⟨events, ?_, fun e he => Or.inl (hsyn e he).1⟩
    simp only [hsent, Bool.not_true, Bool.false_eq_true, if_false]
    exact hev
  · refine ⟨events ++ [kEmptyEvent], ?_, ?_⟩
    · simp only [hsent, Bool.not_false, if_true, Bool.not_eq_true]
      simp only [Bool.not_eq_true] at hsent
      simp only [hsent, Bool.not_false, if_true, fl_engine_send_key_event_engine, hev]
      cases s.engine <;> simp
    · intro e he
      rcases List.mem_append.1 he with he | he
      · exact Or.inl (hsyn e he).1
      · right; simpa using he

/-- C2 (witness): the release of the A key on the fresh responder is a stale
release. -/
theorem handle_event_stale_release_witness :
    (fl_key_embedder_responder_handle_event key_mapping (fl_key_embedder_responder_new (some []))
      ⟨0, false, 0x26, 0x61, 0⟩ 0).2 = some true :=
  (handle_event_stale_release key_mapping (fl_key_embedder_responder_new (some []))
    ⟨0, false, 0x26, 0x61, 0⟩ 0 rfl (by decide)).1

/-! ## C3: repeat detection -/

theorem handle_event_press_pressing_record (cfg : KeyMapping) (s : FlKeyEmbedderResponder)
    (event : FlKeyEvent) (specified_logical_key : Nat) (h : event.is_press = true)
    (hl : resolved_logical_key cfg event specified_logical_key ≠ 0) :
    lookup_hash_table
      (fl_key_embedder_responder_handle_event cfg s event
        specified_logical_key).1.pressing_records
      (resolved_physical_key cfg event specified_logical_key) ≠ 0 := by
  rw [handle_event_of_real_event _ _ _ _ (Or.inl h), handle_event_impl_press _ _ _ _ h]
  by_cases hr : lookup_hash_table
      (synchronize_states cfg { s with sent_any_events := false } event
        specified_logical_key).pressing_records
      (resolved_physical_key cfg event specified_logical_key) = 0
  · simp [hr, update_pressing_state_pressing_records, hl, lookup_hash_table_insert]
  · simp [hr]

theorem synchronize_states_of_not_sent (cfg : KeyMapping) (s : FlKeyEmbedderResponder)
    (event : FlKeyEvent) (specified_logical_key : Nat)
    (h : (synchronize_states cfg s event specified_logical_key).sent_any_events = false) :
    (synchronize_states cfg s event specified_logical_key).engine = s.engine ∧
    (synchronize_states cfg s event specified_logical_key).pressing_records =
      s.pressing_records ∧
    (synchronize_states cfg s event specified_logical_key).mapping_records =
      s.mapping_records ∧
    (synchronize_states cfg s event specified_logical_key).lock_records = s.lock_records :=
  (synchronizer_steps_of_not_sent (synchronize_states_steps cfg s event specified_logical_key) h).2

/-- C3 (as stated, refuted): two consecutive presses of the CapsLock key on the
fresh responder, the second with the CapsLock bit set: the lock synchronizer
releases the key before the second real event, which is a down event, not a
repeat. -/
theorem handle_event_second_caps_lock_press_is_down :
    resolved_physical_key key_mapping ⟨0, true, 0x42, 0xffe5, 0⟩ 0 = 0x70039 ∧
    resolved_physical_key key_mapping ⟨0, true, 0x42, 0xffe5, 2⟩ 0 = 0x70039 ∧
    (fl_key_embedder_responder_handle_event key_mapping
      (fl_key_embedder_responder_handle_event key_mapping
        (fl_key_embedder_responder_new (some [])) ⟨0, true, 0x42, 0xffe5, 0⟩ 0).1
      ⟨0, true, 0x42, 0xffe5, 2⟩ 0).1.engine =
      some [⟨0, kFlutterKeyEventTypeDown, 0x70039, 0x100000104, none, false⟩,
            ⟨0, kFlutterKeyEventTypeUp, 0x70039, 0x100000104, none, true⟩,
            ⟨0, kFlutterKeyEventTypeDown, 0x70039, 0x100000104, none, false⟩] := by
  decide

/-- C3 (amended): for every physical key, lock keys and modifier keys
included, and every two consecutive press raw events for that physical key,
the first with a non-zero logical key: if the synchronizers synthesize no
event for the second press, `handle_event` sends for it exactly one event, a
repeat event that carries the logical key recorded for the physical key. -/
theorem handle_event_second_press_is_repeat (cfg : KeyMapping) (s s1 : FlKeyEmbedderResponder)
    (first second : FlKeyEvent) (first_specified second_specified : Nat)
    (h_first : first.is_press = true) (h_second : second.is_press = true)
    (h_logical : resolved_logical_key cfg first first_specified ≠ 0)
    (h_physical : resolved_physical_key cfg second second_specified =
      resolved_physical_key cfg first first_specified)
    (hs1 : s1 = (fl_key_embedder_responder_handle_event cfg s first first_specified).1)
    (h_quiet : (synchronize_states cfg { s1 with sent_any_events := false } second
      second_specified).sent_any_events = false) :
    (fl_key_embedder_responder_handle_event cfg s1 second second_specified).1.engine =
      s1.engine.map (fun received => received ++
        [⟨event_to_timestamp second, kFlutterKeyEventTypeRepeat,
          resolved_physical_key cfg first first_specified,
          lookup_hash_table s1.pressing_records (resolved_physical_key cfg first first_specified),
          event_to_character cfg second, false⟩]) := by
  have hrec := handle_event_press_pressing_record cfg s first first_specified h_first h_logical
  rw [← hs1] at hrec
  obtain ⟨he, hp, _, _⟩ := synchronize_states_of_not_sent cfg _ second second_specified h_quiet
  rw [handle_event_of_real_event _ _ _ _ (Or.inl h_second),
    handle_event_impl_press _ _ _ _ h_second]
  dsimp only at he hp
  simp [h_physical, hp, he, hrec]

/-- C3 (witness): two presses of the A key on the fresh responder. -/
theorem handle_event_second_press_is_repeat_witness :
    (fl_key_embedder_responder_handle_event key_mapping
      (fl_key_embedder_responder_handle_event key_mapping
        (fl_key_embedder_responder_new (some [])) ⟨0, true, 0x26, 0x61, 0⟩ 0).1
      ⟨7, true, 0x26, 0x61, 0⟩ 0).1.engine =
      Option.map (fun received => received ++
        [⟨7000, kFlutterKeyEventTypeRepeat, 0x70004, 0x61, some 0x61, false⟩])
        (fl_key_embedder_responder_handle_event key_mapping
          (fl_key_embedder_responder_new (some [])) ⟨0, true, 0x26, 0x61, 0⟩ 0).1.engine :=
  handle_event_second_press_is_repeat key_mapping (fl_key_embedder_responder_new (some [])) _
    ⟨0, true, 0x26, 0x61, 0⟩ ⟨7, true, 0x26, 0x61, 0⟩ 0 0 rfl rfl (by decide) (by decide) rfl
    (by decide)

/-! ## C4: a press followed by its release -/

theorem possibly_update_lock_bit_lock_records (cfg : KeyMapping) (s : FlKeyEmbedderResponder)
    (l : Nat) (d : Bool) :
    (possibly_update_lock_bit cfg s l d).lock_records =
      if d = true then s.lock_records ^^^ lookup_hash_table (logical_key_to_lock_bit cfg) l
      else s.lock_records := by
  unfold possibly_update_lock_bit
  cases d
  · simp
  · by_cases h : lookup_hash_table (logical_key_to_lock_bit cfg) l = 0
    · simp [h]
    · simp [h]

theorem lookup_hash_table_of_lookup_none (t : GHashTable) (k : Nat)
    (h : g_hash_table_lookup t k = none) : lookup_hash_table t k = 0 := by
  simp [lookup_hash_table, h]

theorem handle_event_impl_down (cfg : KeyMapping) (s : FlKeyEmbedderResponder)
    (event : FlKeyEvent) (specified_logical_key : Nat) (h : event.is_press = true)
    (hr : lookup_hash_table
      (synchronize_states cfg s event specified_logical_key).pressing_records
      (resolved_physical_key cfg event specified_logical_key) = 0) :
    fl_key_embedder_responder_handle_event_impl cfg s event specified_logical_key =
      (fl_engine_send_key_event
        { update_mapping_record
            (possibly_update_lock_bit cfg
              (update_pressing_state (synchronize_states cfg s event specified_logical_key)
                (resolved_physical_key cfg event specified_logical_key)
                (resolved_logical_key cfg event specified_logical_key))
              (resolved_logical_key cfg event specified_logical_key) true)
            (resolved_physical_key cfg event specified_logical_key)
            (resolved_logical_key cfg event specified_logical_key) with
          sent_any_events := true }
        ⟨event_to_timestamp event, kFlutterKeyEventTypeDown,
          resolved_physical_key cfg event specified_logical_key,
          resolved_logical_key cfg event specified_logical_key,
          event_to_character cfg event, false⟩, none) := by
  rw [handle_event_impl_press _ _ _ _ h]
  simp [hr]

theorem handle_event_impl_repeat (cfg : KeyMapping) (s : FlKeyEmbedderResponder)
    (event : FlKeyEvent) (specified_logical_key : Nat) (h : event.is_press = true)
    (hr : lookup_hash_table
      (synchronize_states cfg s event specified_logical_key).pressing_records
      (resolved_physical_key cfg event specified_logical_key) ≠ 0) :
    fl_key_embedder_responder_handle_event_impl cfg s event specified_logical_key =
      (fl_engine_send_key_event
        { update_mapping_record
            (possibly_update_lock_bit cfg (synchronize_states cfg s event specified_logical_key)
              (resolved_logical_key cfg event specified_logical_key) true)
            (resolved_physical_key cfg event specified_logical_key)
            (resolved_logical_key cfg event specified_logical_key) with
          sent_any_events := true }
        ⟨event_to_timestamp event, kFlutterKeyEventTypeRepeat,
          resolved_physical_key cfg event specified_logical_key,
          lookup_hash_table
            (synchronize_states cfg s event specified_logical_key).pressing_records
            (resolved_physical_key cfg event specified_logical_key),
          event_to_character cfg event, false⟩, none) := by
  rw [handle_event_impl_press _ _ _ _ h]
  simp [hr]

/-- C4 (as stated, refuted): the press and the release of the A key on the
fresh responder, both with bitmask 0: the mapping record, empty before the
press, holds the entry of the A key afterwards. -/
theorem handle_event_press_release_changes_mapping_record :
    g_hash_table_lookup (fl_key_embedder_responder_new (some [])).pressing_records
      (resolved_physical_key key_mapping ⟨0, true, 0x26, 0x61, 0⟩ 0) = none ∧
    (fl_key_embedder_responder_new (some [])).mapping_records = [] ∧
    (fl_key_embedder_responder_handle_event key_mapping
      (fl_key_embedder_responder_handle_event key_mapping
        (fl_key_embedder_responder_new (some [])) ⟨0, true, 0x26, 0x61, 0⟩ 0).1
      ⟨0, false, 0x26, 0x61, 0⟩ 0).1.mapping_records = [(0x61, 0x70004)] := by
  decide

/-- C4 (amended): for every responder state and every physical key with no
pressing record in it, a press raw event with a non-zero logical key followed
immediately by a release raw event for the same physical key, neither of
which makes the synchronizers synthesize an event, sends exactly one real down
event and then one real up event with the logical key of the press, and
leaves the pressing records exactly as they were before the press; the
mapping record maps the logical key to the physical key afterwards, and the
lock records have the lock bit of the logical key flipped (no bit for a key
that is not a lock key). -/
theorem handle_event_press_then_release (cfg : KeyMapping) (s s1 : FlKeyEmbedderResponder)
    (press release : FlKeyEvent) (press_specified release_specified p l : Nat)
    (h_press : press.is_press = true) (h_release : release.is_press = false)
    (hp : p = resolved_physical_key cfg press press_specified)
    (hl : l = resolved_logical_key cfg press press_specified)
    (h_physical : resolved_physical_key cfg release release_specified = p)
    (h_logical : l ≠ 0)
    (h_absent : g_hash_table_lookup s.pressing_records p = none)
    (hs1 : s1 = (fl_key_embedder_responder_handle_event cfg s press press_specified).1)
    (h_quiet_press : (synchronize_states cfg { s with sent_any_events := false } press
      press_specified).sent_any_events = false)
    (h_quiet_release : (synchronize_states cfg { s1 with sent_any_events := false } release
      release_specified).sent_any_events = false) :
    (fl_key_embedder_responder_handle_event cfg s1 release release_specified).1.engine =
      s.engine.map (fun received => received ++
        [⟨event_to_timestamp press, kFlutterKeyEventTypeDown, p, l,
            event_to_character cfg press, false⟩,
         ⟨event_to_timestamp release, kFlutterKeyEventTypeUp, p, l, none, false⟩]) ∧
    (fl_key_embedder_responder_handle_event cfg s1 release release_specified).1.pressing_records =
      s.pressing_records ∧
    (fl_key_embedder_responder_handle_event cfg s1 release release_specified).1.mapping_records =
      g_hash_table_insert s.mapping_records l p ∧
    (fl_key_embedder_responder_handle_event cfg s1 release release_specified).1.lock_records =
      s.lock_records ^^^ lookup_hash_table (logical_key_to_lock_bit cfg) l := by
  subst hp hl
  obtain ⟨he, hpr, hm, hlk⟩ := synchronize_states_of_not_sent cfg _ press press_specified
    h_quiet_press
  dsimp only at he hpr hm hlk
  have hr : lookup_hash_table
      (synchronize_states cfg { s with sent_any_events := false } press
        press_specified).pressing_records
      (resolved_physical_key cfg press press_specified) = 0 := by
    rw [hpr]; exact lookup_hash_table_of_lookup_none _ _ h_absent
  have hs1' := hs1
  rw [handle_event_of_real_event _ _ _ _ (Or.inl h_press),
    handle_event_impl_down _ _ _ _ h_press hr] at hs1'
  generalize synchronize_states cfg { s with sent_any_events := false } press
    press_specified = t1 at he hpr hm hlk hs1' hr
  have h1e : s1.engine = s.engine.map (fun received => received ++
      [⟨event_to_timestamp press, kFlutterKeyEventTypeDown,
        resolved_physical_key cfg press press_specified,
        resolved_logical_key cfg press press_specified,
        event_to_character cfg press, false⟩]) := by
    rw [hs1']
    simp [he]
  have h1p : s1.pressing_records =
      (resolved_physical_key cfg press press_specified,
        resolved_logical_key cfg press press_specified) :: s.pressing_records := by
    rw [hs1']
    simp [update_pressing_state_pressing_records, h_logical, hpr, g_hash_table_insert,
      h_absent, lookup_hash_table_of_lookup_none _ _ h_absent]
  have h1m : s1.mapping_records = g_hash_table_insert s.mapping_records
      (resolved_logical_key cfg press press_specified)
      (resolved_physical_key cfg press press_specified) := by
    rw [hs1']
    simp [hm]
  have h1l : s1.lock_records = s.lock_records ^^^
      lookup_hash_table (logical_key_to_lock_bit cfg)
        (resolved_logical_key cfg press press_specified) := by
    rw [hs1']
    simp [possibly_update_lock_bit_lock_records, hlk]
  clear hs1' hs1
  obtain ⟨he2, hpr2, hm2, hlk2⟩ := synchronize_states_of_not_sent cfg _ release
    release_specified h_quiet_release
  dsimp only at he2 hpr2 hm2 hlk2
  have hr2 : lookup_hash_table
      (synchronize_states cfg { s1 with sent_any_events := false } release
        release_specified).pressing_records
      (resolved_physical_key cfg release release_specified) =
        resolved_logical_key cfg press press_specified := by
    rw [hpr2, h_physical, h1p]
    simp [lookup_hash_table, g_hash_table_lookup]
  have hr2' : lookup_hash_table
      (synchronize_states cfg { s1 with sent_any_events := false } release
        release_specified).pressing_records
      (resolved_physical_key cfg release release_specified) ≠ 0 := by
    rw [hr2]; exact h_logical
  rw [handle_event_of_real_event _ _ _ _ (Or.inr hr2'),
    handle_event_impl_release _ _ _ _ h_release hr2']
  generalize synchronize_states cfg { s1 with sent_any_events := false } release
    release_specified = t2 at he2 hpr2 hm2 hlk2 hr2 hr2'
  rw [h_physical] at hr2 hr2'
  refine ⟨?_, ?_, ?_, ?_⟩
  · simp only [fl_engine_send_key_event_engine, update_pressing_state_engine, he2, h1e, hr2,
      h_physical]
    cases s.engine <;> simp
  · simp only [fl_engine_send_key_event_pressing_records]
    rw [update_pressing_state_pressing_records]
    rw [h_physical]
    simp only [ne_eq, not_true_eq_false, if_false, hr2', not_false_eq_true, if_true]
    rw [hpr2, h1p]
    simp [g_hash_table_remove, g_hash_table_remove_of_lookup_none _ _ h_absent]
  · simp [hm2, h1m]
  · simp [hlk2, h1l]

/-- C4 (witness): the press and the release of the A key on the fresh
responder. -/
theorem handle_event_press_then_release_witness :
    (fl_key_embedder_responder_handle_event key_mapping
      (fl_key_embedder_responder_handle_event key_mapping
        (fl_key_embedder_responder_new (some [])) ⟨0, true, 0x26, 0x61, 0⟩ 0).1
      ⟨3, false, 0x26, 0x61, 0⟩ 0).1.pressing_records = [] :=
  (handle_event_press_then_release key_mapping (fl_key_embedder_responder_new (some [])) _
    ⟨0, true, 0x26, 0x61, 0⟩ ⟨3, false, 0x26, 0x61, 0⟩ 0 0 0x70004 0x61 rfl rfl (by decide)
    (by decide) (by decide) (by decide) (by decide) rfl (by decide) (by decide)).2.1

/-! ## C8: agreement of bitmask and pressing records -/

theorem synchronize_pressed_states_logical_keys_state_on (timestamp : Nat) (keys : List Nat)
    (any_pressed_by_record : Bool) (s : FlKeyEmbedderResponder) :
    synchronize_pressed_states_logical_keys true timestamp keys any_pressed_by_record s =
        LoopStep.next (s, any_pressed_by_record ||
          decide (∃ l ∈ keys, pressed_by_record s l)) ∨
      ∃ a, synchronize_pressed_states_logical_keys true timestamp keys any_pressed_by_record s =
        LoopStep.returned (g_return_if_fail_warning s a) := by
  induction keys generalizing any_pressed_by_record with
  | nil => left; simp [synchronize_pressed_states_logical_keys]
  | cons l rest ih =>
    unfold synchronize_pressed_states_logical_keys
    by_cases hl : l = 0
    · right; exact ⟨Assertion.modifier_logical_key_nonzero, by simp [hl]⟩
    · simp only [hl, if_false, Bool.not_true, Bool.and_false, Bool.false_eq_true]
      rw [reverse_lookup_hash_table_ne_zero _ _ hl]
      rcases ih (any_pressed_by_record || decide (l ∈ s.pressing_records.map Prod.snd)) with h | h
      · left
        rw [h]
        simp only [LoopStep.next.injEq, Prod.mk.injEq, true_and, pressed_by_record,
          List.mem_cons, exists_eq_or_imp, Bool.decide_or, Bool.or_assoc]
      · right; exact h

theorem synchronize_pressed_states_logical_keys_none_pressed (any_pressed_by_state : Bool)
    (timestamp : Nat) (keys : List Nat) (any_pressed_by_record : Bool)
    (s : FlKeyEmbedderResponder) (h : ∀ l ∈ keys, ¬ pressed_by_record s l) :
    synchronize_pressed_states_logical_keys any_pressed_by_state timestamp keys
        any_pressed_by_record s = LoopStep.next (s, any_pressed_by_record) ∨
      ∃ a, synchronize_pressed_states_logical_keys any_pressed_by_state timestamp keys
        any_pressed_by_record s = LoopStep.returned (g_return_if_fail_warning s a) := by
  induction keys generalizing any_pressed_by_record with
  | nil => left; simp [synchronize_pressed_states_logical_keys]
  | cons l rest ih =>
    unfold synchronize_pressed_states_logical_keys
    by_cases hl : l = 0
    · right; exact ⟨Assertion.modifier_logical_key_nonzero, by simp [hl]⟩
    · simp only [hl, if_false]
      rw [reverse_lookup_hash_table_ne_zero _ _ hl]
      have hp : l ∉ s.pressing_records.map Prod.snd := h l (List.mem_cons_self _ _)
      simp only [hp, decide_False, Bool.or_false, Bool.false_and, Bool.false_eq_true, if_false]
      exact ih _ (fun k hk => h k (List.mem_cons_of_mem _ hk))

theorem synchronize_pressed_states_checked_key_of_agreement (state timestamp modifier_bit : Nat)
    (checked_key : FlKeyEmbedderCheckedKey) (s : FlKeyEmbedderResponder)
    (h : modifier_agrees state s (modifier_bit, checked_key)) :
    synchronize_pressed_states_checked_key state timestamp modifier_bit checked_key s =
        LoopStep.next s ∨
      ∃ a, synchronize_pressed_states_checked_key state timestamp modifier_bit checked_key s =
        LoopStep.returned (g_return_if_fail_warning s a) := by
  unfold synchronize_pressed_states_checked_key
  simp only []
  unfold modifier_agrees at h
  by_cases hb : state &&& modifier_bit = 0
  · have hnone : ∀ l ∈ checked_logical_keys checked_key, ¬ pressed_by_record s l := by
      intro l hl hp
      exact (h.2 ⟨l, hl, hp⟩) hb
    rcases synchronize_pressed_states_logical_keys_none_pressed ((state &&& modifier_bit) != 0)
      timestamp (checked_logical_keys checked_key) false s hnone with h1 | ⟨a, h1⟩
    · left
      rw [h1]
      simp [hb]
    · right
      rw [h1]
      exact ⟨a, rfl⟩
  · have hsome : ∃ l ∈ checked_logical_keys checked_key, pressed_by_record s l := h.1 hb
    have hb' : ((state &&& modifier_bit) != 0) = true := by simp [hb]
    rw [hb']
    rcases synchronize_pressed_states_logical_keys_state_on timestamp
      (checked_logical_keys checked_key) false s with h1 | ⟨a, h1⟩
    · left
      rw [h1]
      simp [hsome]
    · right
      rw [h1]
      exact ⟨a, rfl⟩

theorem synchronize_pressed_states_entries_of_agreement (state timestamp : Nat)
    (entries : List (Nat × FlKeyEmbedderCheckedKey)) (s : FlKeyEmbedderResponder)
    (h : ∀ entry ∈ entries, modifier_agrees state s entry) :
    synchronize_pressed_states_entries state timestamp entries s = s ∨
      ∃ a, synchronize_pressed_states_entries state timestamp entries s =
        g_return_if_fail_warning s a := by
  induction entries with
  | nil => left; rfl
  | cons entry rest ih =>
    obtain ⟨modifier_bit, checked_key⟩ := entry
    unfold synchronize_pressed_states_entries
    rcases synchronize_pressed_states_checked_key_of_agreement state timestamp modifier_bit
      checked_key s (h _ (List.mem_cons_self _ _)) with h1 | ⟨a, h1⟩
    · rw [h1]
      exact ih (fun e he => h e (List.mem_cons_of_mem _ he))
    · rw [h1]
      exact Or.inr ⟨a, rfl⟩

/-- C8: for every responder state and bitmask, if for every registered
modifier family the bit of the family is set in the bitmask exactly when at
least one of its logical keys is a value of the pressing records, then
`synchronize_pressed_states` sends no event to the engine (nor marks one as
sent) and leaves the pressing records, the mapping records and the lock
records unchanged. -/
theorem synchronize_pressed_states_of_agreement (cfg : KeyMapping) (s : FlKeyEmbedderResponder)
    (state timestamp : Nat)
    (h : ∀ entry ∈ cfg.modifier_bit_to_checked_keys, modifier_agrees state s entry) :
    (synchronize_pressed_states cfg s state timestamp).engine = s.engine ∧
    (synchronize_pressed_states cfg s state timestamp).sent_any_events = s.sent_any_events ∧
    (synchronize_pressed_states cfg s state timestamp).pressing_records = s.pressing_records ∧
    (synchronize_pressed_states cfg s state timestamp).mapping_records = s.mapping_records ∧
    (synchronize_pressed_states cfg s state timestamp).lock_records = s.lock_records := by
  unfold synchronize_pressed_states
  rcases synchronize_pressed_states_entries_of_agreement state timestamp
    cfg.modifier_bit_to_checked_keys s h with h1 | ⟨a, h1⟩
  · rw [h1]; exact ⟨rfl, rfl, rfl, rfl, rfl⟩
  · rw [h1]; exact ⟨rfl, rfl, rfl, rfl, rfl⟩

/-- C8 (witness): the fresh responder and the bitmask 0 agree in every
modifier family. -/
theorem synchronize_pressed_states_of_agreement_witness :
    (synchronize_pressed_states key_mapping (fl_key_embedder_responder_new (some [])) 0
      5).engine = some [] :=
  (synchronize_pressed_states_of_agreement key_mapping (fl_key_embedder_responder_new (some []))
    0 5 (by
      intro entry _
      unfold modifier_agrees pressed_by_record
      simp [fl_key_embedder_responder_new])).1

/-! ## C9: modifier press correction -/

/-- C9 (the code at the failing input): after the press of the key at the position of the
left Shift key (keycode 0x32) with keyval 0x61, no Shift logical key is a
value of the pressing records and the mapping record has no Shift entry; with
the Shift bit set `synchronize_pressed_states` synthesizes the down event of
the primary Shift key for the default physical key, which is held; the
insertion check of `update_pressing_state` fails, and the pressing records
still map that physical key to the logical key 0x61. -/
theorem synchronize_pressed_states_press_on_held_physical_key :
    ¬ pressed_by_record
      (fl_key_embedder_responder_handle_event key_mapping
        (fl_key_embedder_responder_new (some [])) ⟨0, true, 0x32, 0x61, 0⟩ 0).1 0x200000102 ∧
    ¬ pressed_by_record
      (fl_key_embedder_responder_handle_event key_mapping
        (fl_key_embedder_responder_new (some [])) ⟨0, true, 0x32, 0x61, 0⟩ 0).1 0x200000103 ∧
    g_hash_table_lookup
      (fl_key_embedder_responder_handle_event key_mapping
        (fl_key_embedder_responder_new (some [])) ⟨0, true, 0x32, 0x61, 0⟩ 0).1.mapping_records
      0x200000102 = none ∧
    (synchronize_pressed_states key_mapping
      (fl_key_embedder_responder_handle_event key_mapping
        (fl_key_embedder_responder_new (some [])) ⟨0, true, 0x32, 0x61, 0⟩ 0).1 1 0).engine =
      some [⟨0, kFlutterKeyEventTypeDown, 0x700e1, 0x61, some 0x61, false⟩,
            ⟨0, kFlutterKeyEventTypeDown, 0x700e1, 0x200000102, none, true⟩] ∧
    (synchronize_pressed_states key_mapping
      (fl_key_embedder_responder_handle_event key_mapping
        (fl_key_embedder_responder_new (some [])) ⟨0, true, 0x32, 0x61, 0⟩ 0).1 1
        0).pressing_records = [(0x700e1, 0x61)] ∧
    (synchronize_pressed_states key_mapping
      (fl_key_embedder_responder_handle_event key_mapping
        (fl_key_embedder_responder_new (some [])) ⟨0, true, 0x32, 0x61, 0⟩ 0).1 1
        0).g_critical = [Assertion.pressing_key_not_down] := by
  decide

/-- The press of one modifier family on a physical key that is not held: for
every responder state and modifier family with a
non-zero primary logical key whose bit is set in the bitmask while none of
its logical keys is a value of the pressing records, and whose chosen physical
key (the entry of the mapping record for the primary logical key if there is
one, else the static primary physical key) has no pressing record, the step of
`synchronize_pressed_states` for that family synthesizes exactly one event, a
down event of the primary logical key on the chosen physical key; the mapping
record gains primary logical key -> chosen physical key when it had no entry
and is unchanged otherwise; and afterwards the pressing records map the chosen
physical key to the primary logical key. -/
theorem synchronize_pressed_states_checked_key_press (state timestamp modifier_bit : Nat)
    (checked_key : FlKeyEmbedderCheckedKey) (s : FlKeyEmbedderResponder)
    (h_bit : state &&& modifier_bit ≠ 0)
    (h_nonzero : checked_key.primary_logical_key ≠ 0)
    (h_released : ∀ l ∈ checked_logical_keys checked_key, ¬ pressed_by_record s l)
    (h_free : lookup_hash_table s.pressing_records (chosen_physical_key s checked_key) = 0) :
    synchronize_pressed_states_checked_key state timestamp modifier_bit checked_key s =
      LoopStep.next (synchronize_pressed_states_press s checked_key timestamp) ∧
    (synchronize_pressed_states_press s checked_key timestamp).engine =
      s.engine.map (fun received => received ++
        [⟨timestamp, kFlutterKeyEventTypeDown, chosen_physical_key s checked_key,
          checked_key.primary_logical_key, none, true⟩]) ∧
    chosen_physical_key s checked_key =
      (if lookup_hash_table s.mapping_records checked_key.primary_logical_key ≠ 0 then
        lookup_hash_table s.mapping_records checked_key.primary_logical_key
       else checked_key.primary_physical_key) ∧
    (synchronize_pressed_states_press s checked_key timestamp).mapping_records =
      (if lookup_hash_table s.mapping_records checked_key.primary_logical_key = 0 then
        g_hash_table_insert s.mapping_records checked_key.primary_logical_key
          checked_key.primary_physical_key
       else s.mapping_records) ∧
    (synchronize_pressed_states_press s checked_key timestamp).pressing_records =
      g_hash_table_insert s.pressing_records (chosen_physical_key s checked_key)
        checked_key.primary_logical_key ∧
    g_hash_table_lookup (synchronize_pressed_states_press s checked_key timestamp).pressing_records
      (chosen_physical_key s checked_key) = some checked_key.primary_logical_key := by
  have h_keys : ∀ l ∈ checked_logical_keys checked_key, l ≠ 0 := by
    intro l hl
    rcases (mem_checked_logical_keys checked_key l).1 hl with h | ⟨h0, h⟩
    · rw [h]; exact h_nonzero
    · rw [h]; exact h0
  have hloop : ∀ (keys : List Nat) (any : Bool), (∀ l ∈ keys, l ≠ 0 ∧ ¬ pressed_by_record s l) →
      synchronize_pressed_states_logical_keys ((state &&& modifier_bit) != 0) timestamp keys any s
        = LoopStep.next (s, any) := by
    intro keys
    induction keys with
    | nil => intro any _; rfl
    | cons l rest ih =>
      intro any h
      obtain ⟨hl0, hlp⟩ := h l (List.mem_cons_self _ _)
      unfold synchronize_pressed_states_logical_keys
      simp only [hl0, if_false]
      rw [reverse_lookup_hash_table_ne_zero _ _ hl0]
      have hp : l ∉ s.pressing_records.map Prod.snd := hlp
      simp only [hp, decide_False, Bool.or_false, Bool.false_and, Bool.false_eq_true, if_false]
      exact ih any (fun k hk => h k (List.mem_cons_of_mem _ hk))
  have hpress : (synchronize_pressed_states_press s checked_key timestamp).pressing_records =
      g_hash_table_insert s.pressing_records (chosen_physical_key s checked_key)
        checked_key.primary_logical_key := by
    unfold synchronize_pressed_states_press
    simp only [update_pressing_state_pressing_records, synthesize_simple_event_pressing_records,
      apply_ite FlKeyEmbedderResponder.pressing_records, update_mapping_record_pressing_records,
      ite_self, h_free, if_true, ne_eq, h_nonzero, not_false_eq_true]
  refine ⟨?_, synchronize_pressed_states_press_engine s checked_key timestamp, rfl, ?_, hpress,
    ?_⟩
  · unfold synchronize_pressed_states_checked_key
    simp only []
    rw [hloop _ _ (fun l hl => ⟨h_keys l hl, h_released l hl⟩)]
    simp [h_bit]
  · unfold synchronize_pressed_states_press
    simp only [update_pressing_state_mapping_records, synthesize_simple_event_mapping_records,
      apply_ite FlKeyEmbedderResponder.mapping_records, update_mapping_record_mapping_records]
    by_cases hm : lookup_hash_table s.mapping_records checked_key.primary_logical_key = 0
    · simp [hm, chosen_physical_key]
    · simp [hm]
  · rw [hpress, g_hash_table_lookup_insert]
    simp

/-- An instance of the press of one modifier family: the Shift family on the fresh responder with the Shift bit
set: one synthesized down event of the primary Shift logical key on the
default physical key, and the pressing records gain that entry. -/
theorem synchronize_pressed_states_checked_key_press_witness :
    (synchronize_pressed_states_press (fl_key_embedder_responder_new (some []))
      ⟨0x700e1, 0x200000102, 0x200000103, false⟩ 0).pressing_records =
      g_hash_table_insert [] 0x700e1 0x200000102 :=
  (synchronize_pressed_states_checked_key_press 1 0 1
    ⟨0x700e1, 0x200000102, 0x200000103, false⟩ (fl_key_embedder_responder_new (some []))
    (by decide) (by decide) (by decide) (by decide)).2.2.2.2.1

/-! ## C10: modifier release correction -/

theorem g_hash_table_remove_eq_filter (t : GHashTable) (k : Nat) :
    g_hash_table_remove t k = t.filter (fun kv => decide (kv.1 ≠ k)) := by
  induction t with
  | nil => rfl
  | cons kv rest ih =>
    obtain ⟨a, b⟩ := kv
    by_cases h : a = k
    · simp [g_hash_table_remove, h, ih]
    · simp [g_hash_table_remove, h, ih]

theorem g_hash_table_lookup_of_mem (t : GHashTable) (k v : Nat)
    (h_wf : (t.map Prod.fst).Nodup) (h : (k, v) ∈ t) : g_hash_table_lookup t k = some v := by
  induction t with
  | nil => simp at h
  | cons kv rest ih =>
    obtain ⟨a, b⟩ := kv
    simp only [List.map_cons, List.nodup_cons] at h_wf
    rcases List.mem_cons.1 h with h | h
    · simp only [Prod.mk.injEq] at h
      simp [g_hash_table_lookup, h.1, h.2]
    · have hne : a ≠ k := by
        intro e
        apply h_wf.1
        rw [e]
        exact List.mem_map.2 ⟨(k, v), h, rfl⟩
      simp [g_hash_table_lookup, hne, ih h_wf.2 h]

theorem g_hash_table_remove_of_only_holder (t : GHashTable) (q l : Nat)
    (h_wf : (t.map Prod.fst).Nodup) (h : (q, l) ∈ t)
    (h_only : ∀ p, (p, l) ∈ t → p = q) :
    g_hash_table_remove t q = t.filter (fun kv => decide (kv.2 ≠ l)) := by
  rw [g_hash_table_remove_eq_filter]
  apply List.filter_congr
  intro kv hkv
  obtain ⟨a, b⟩ := kv
  have hiff : a = q ↔ b = l := by
    constructor
    · intro e
      subst e
      have h1 := g_hash_table_lookup_of_mem t a b h_wf hkv
      have h2 := g_hash_table_lookup_of_mem t a l h_wf h
      rw [h1] at h2
      exact Option.some.inj h2
    · intro e
      subst e
      exact h_only a hkv
  simp [hiff]

theorem synchronize_pressed_states_release_of_only_holder (s : FlKeyEmbedderResponder)
    (l timestamp p : Nat) (h_wf : (s.pressing_records.map Prod.fst).Nodup) (hl : l ≠ 0)
    (hp : (p, l) ∈ s.pressing_records)
    (h_held : ∀ p', (p', l) ∈ s.pressing_records →
      lookup_hash_table s.mapping_records l = p' ∧ p' ≠ 0) :
    (synchronize_pressed_states_release s l timestamp).engine =
      s.engine.map (fun received => received ++
        [⟨timestamp, kFlutterKeyEventTypeUp, lookup_hash_table s.mapping_records l, l, none,
          true⟩]) ∧
    (synchronize_pressed_states_release s l timestamp).pressing_records =
      s.pressing_records.filter (fun kv => decide (kv.2 ≠ l)) ∧
    (synchronize_pressed_states_release s l timestamp).mapping_records = s.mapping_records ∧
    (synchronize_pressed_states_release s l timestamp).lock_records = s.lock_records := by
  obtain ⟨hq, _⟩ := h_held p hp
  have hlook : lookup_hash_table s.pressing_records (lookup_hash_table s.mapping_records l) = l := by
    rw [hq]
    simp [lookup_hash_table, g_hash_table_lookup_of_mem _ _ _ h_wf hp]
  refine ⟨?_, ?_, ?_, ?_⟩
  · rw [synchronize_pressed_states_release_engine, hlook]
  · unfold synchronize_pressed_states_release
    simp only [update_pressing_state_pressing_records, synthesize_simple_event_pressing_records,
      ne_eq, not_true_eq_false, if_false, hlook, hl, not_false_eq_true, if_true]
    rw [hq]
    apply g_hash_table_remove_of_only_holder _ _ _ h_wf hp
    intro p' hp'
    rw [← (h_held p' hp').1, hq]
  · simp [synchronize_pressed_states_release]
  · simp [synchronize_pressed_states_release]

theorem synchronize_pressed_states_logical_keys_release (timestamp : Nat) (keys : List Nat)
    (any_pressed_by_record : Bool) (s : FlKeyEmbedderResponder)
    (h_nodup : keys.Nodup)
    (h_wf : (s.pressing_records.map Prod.fst).Nodup)
    (h_keys : ∀ l ∈ keys, l ≠ 0)
    (h_held : ∀ l ∈ keys, ∀ p, (p, l) ∈ s.pressing_records →
      lookup_hash_table s.mapping_records l = p ∧ p ≠ 0) :
    ∃ s' : FlKeyEmbedderResponder,
      synchronize_pressed_states_logical_keys false timestamp keys any_pressed_by_record s =
        LoopStep.next (s', any_pressed_by_record ||
          decide (∃ l ∈ keys, pressed_by_record s l)) ∧
      s'.engine = s.engine.map (fun received => received ++
        (keys.filter (fun l => decide (pressed_by_record s l))).map (fun l =>
          ⟨timestamp, kFlutterKeyEventTypeUp, lookup_hash_table s.mapping_records l, l, none,
            true⟩)) ∧
      s'.pressing_records = s.pressing_records.filter (fun kv => decide (kv.2 ∉ keys)) ∧
      s'.mapping_records = s.mapping_records ∧
      s'.lock_records = s.lock_records := by
  induction keys generalizing any_pressed_by_record s with
  | nil =>
    refine ⟨s, ?_, ?_, ?_, rfl, rfl⟩
    · simp [synchronize_pressed_states_logical_keys]
    · cases s.engine <;> simp
    · simp
  | cons l rest ih =>
    have hl0 : l ≠ 0 := h_keys l (List.mem_cons_self _ _)
    obtain ⟨hl_rest, h_nodup_rest⟩ := List.nodup_cons.1 h_nodup
    unfold synchronize_pressed_states_logical_keys
    simp only [hl0, if_false]
    rw [reverse_lookup_hash_table_ne_zero _ _ hl0]
    by_cases hp : pressed_by_record s l
    · have hp' : l ∈ s.pressing_records.map Prod.snd := hp
      obtain ⟨kv, hkv, hkv2⟩ := List.mem_map.1 hp'
      obtain ⟨p, v⟩ := kv
      simp only at hkv2
      subst hkv2
      have hheld := h_held v (List.mem_cons_self _ _)
      obtain ⟨hq, hq0⟩ := hheld p hkv
      have hrec : lookup_hash_table s.mapping_records v ≠ 0 := by rw [hq]; exact hq0
      obtain ⟨he2, hp2, hm2, hl2⟩ := synchronize_pressed_states_release_of_only_holder s v
        timestamp p h_wf hl0 hkv hheld
      simp only [hp', decide_True, Bool.or_true, Bool.true_and, Bool.not_false, if_true, hrec,
        if_false]
      have h_wf2 : ((synchronize_pressed_states_release s v timestamp).pressing_records.map
          Prod.fst).Nodup := by
        rw [hp2]
        exact h_wf.sublist ((List.filter_sublist _).map _)
      have h_held2 : ∀ k ∈ rest, ∀ p',
          (p', k) ∈ (synchronize_pressed_states_release s v timestamp).pressing_records →
          lookup_hash_table (synchronize_pressed_states_release s v timestamp).mapping_records k
            = p' ∧ p' ≠ 0 := by
        intro k hk p' hp'k
        rw [hp2] at hp'k
        rw [hm2]
        exact h_held k (List.mem_cons_of_mem _ hk) p' (List.mem_filter.1 hp'k).1
      obtain ⟨s', h1, h2, h3, h4, h5⟩ := ih true (synchronize_pressed_states_release s v timestamp)
        h_nodup_rest h_wf2 (fun k hk => h_keys k (List.mem_cons_of_mem _ hk)) h_held2
      have hpress_iff : ∀ k ∈ rest,
          (pressed_by_record (synchronize_pressed_states_release s v timestamp) k ↔
            pressed_by_record s k) := by
        intro k hk
        have hkv : k ≠ v := fun e => hl_rest (e ▸ hk)
        unfold pressed_by_record
        rw [hp2]
        simp only [List.mem_map, List.mem_filter, decide_eq_true_eq]
        constructor
        · rintro ⟨a, ⟨ha, _⟩, hak⟩
          exact ⟨a, ha, hak⟩
        · rintro ⟨a, ha, hak⟩
          exact ⟨a, ⟨ha, by rw [hak]; exact hkv⟩, hak⟩
      refine ⟨s', ?_, ?_, ?_, h4.trans hm2, h5.trans hl2⟩
      · rw [h1]
        simp [hp]
      · rw [h2, he2, hm2]
        have hfilter : rest.filter
            (fun k => decide (pressed_by_record
              (synchronize_pressed_states_release s v timestamp) k)) =
            rest.filter (fun k => decide (pressed_by_record s k)) := by
          apply List.filter_congr
          intro k hk
          simp [hpress_iff k hk]
        rw [hfilter]
        simp only [List.filter_cons, hp, decide_True, if_true, List.map_cons]
        cases s.engine <;> simp
      · rw [h3, hp2, List.filter_filter]
        apply List.filter_congr
        intro kv _
        simp only [List.mem_cons, not_or, ne_eq, Bool.decide_and, Bool.and_comm]
    · have hp' : l ∉ s.pressing_records.map Prod.snd := hp
      simp only [hp', decide_False, Bool.or_false, Bool.false_and, Bool.false_eq_true, if_false]
      obtain ⟨s', h1, h2, h3, h4, h5⟩ := ih any_pressed_by_record s h_nodup_rest h_wf
        (fun k hk => h_keys k (List.mem_cons_of_mem _ hk))
        (fun k hk => h_held k (List.mem_cons_of_mem _ hk))
      refine ⟨s', ?_, ?_, ?_, h4, h5⟩
      · rw [h1]
        simp [hp]
      · rw [h2]
        simp [List.filter_cons, hp]
      · rw [h3]
        apply List.filter_congr
        intro kv hkv
        have : kv.2 ≠ l := by
          intro e
          apply hp'
          rw [← e]
          exact List.mem_map.2 ⟨kv, hkv, rfl⟩
        simp [this]

/-- C10 (as stated, refuted): two physical keys (keycodes 0x26 and 0x27) are
pressed one after the other, both with the keyval of the left Shift key; the
state is reachable from the fresh responder, the Shift bit is clear in the
bitmask 0,
and after `synchronize_pressed_states` the left Shift logical key is still a
value of the pressing records: only the physical key of the mapping record
was released. -/
theorem synchronize_pressed_states_release_leaves_second_holder :
    (synchronize_pressed_states key_mapping
      (calls key_mapping (fl_key_embedder_responder_new (some []))
        [Call.handle_event ⟨0, true, 0x26, 0xffe1, 0⟩ 0,
         Call.handle_event ⟨0, true, 0x27, 0xffe1, 1⟩ 0]) 0 0).pressing_records =
      [(0x70004, 0x200000102)] ∧
    pressed_by_record
      (synchronize_pressed_states key_mapping
        (calls key_mapping (fl_key_embedder_responder_new (some []))
          [Call.handle_event ⟨0, true, 0x26, 0xffe1, 0⟩ 0,
           Call.handle_event ⟨0, true, 0x27, 0xffe1, 1⟩ 0]) 0 0) 0x200000102 := by
  decide

/-- The step of `synchronize_pressed_states` for one modifier family whose bit
is clear, when every pressed logical key of the family is held only by the
physical key of the mapping record: one up event for each pressed logical key
of the family, exactly the entries holding them removed, and none of the
family's logical keys pressed afterwards. -/
theorem synchronize_pressed_states_checked_key_release (state timestamp modifier_bit : Nat)
    (checked_key : FlKeyEmbedderCheckedKey) (s : FlKeyEmbedderResponder)
    (h_bit : state &&& modifier_bit = 0)
    (h_nonzero : checked_key.primary_logical_key ≠ 0)
    (h_nodup : (checked_logical_keys checked_key).Nodup)
    (h_wf : pressing_records_well_formed s)
    (h_held : held_by_recorded_physical_key s (checked_logical_keys checked_key)) :
    synchronize_pressed_states_checked_key state timestamp modifier_bit checked_key s =
      LoopStep.next
        (synchronize_pressed_states_checked_key state timestamp modifier_bit checked_key
          s).responder ∧
    (synchronize_pressed_states_checked_key state timestamp modifier_bit checked_key
      s).responder.engine =
      s.engine.map (fun received => received ++
        ((checked_logical_keys checked_key).filter
          (fun l => decide (pressed_by_record s l))).map (fun l =>
            ⟨timestamp, kFlutterKeyEventTypeUp, lookup_hash_table s.mapping_records l, l, none,
              true⟩)) ∧
    (synchronize_pressed_states_checked_key state timestamp modifier_bit checked_key
      s).responder.pressing_records =
      s.pressing_records.filter (fun kv => decide (kv.2 ∉ checked_logical_keys checked_key)) ∧
    (∀ l ∈ checked_logical_keys checked_key,
      ¬ pressed_by_record
        (synchronize_pressed_states_checked_key state timestamp modifier_bit checked_key
          s).responder l) ∧
    (synchronize_pressed_states_checked_key state timestamp modifier_bit checked_key
      s).responder.mapping_records = s.mapping_records ∧
    (synchronize_pressed_states_checked_key state timestamp modifier_bit checked_key
      s).responder.lock_records = s.lock_records := by
  have h_keys : ∀ l ∈ checked_logical_keys checked_key, l ≠ 0 := by
    intro l hl
    rcases (mem_checked_logical_keys checked_key l).1 hl with h | ⟨h0, h⟩
    · rw [h]; exact h_nonzero
    · rw [h]; exact h0
  obtain ⟨s', h1, h2, h3, h4, h5⟩ := synchronize_pressed_states_logical_keys_release timestamp
    (checked_logical_keys checked_key) false s h_nodup h_wf h_keys
    (fun l hl p hp => h_held (p, l) hp hl)
  have hstep : synchronize_pressed_states_checked_key state timestamp modifier_bit checked_key s
      = LoopStep.next s' := by
    unfold synchronize_pressed_states_checked_key
    simp only [h_bit, bne_self_eq_false]
    rw [h1]
    simp
  rw [hstep]
  refine ⟨rfl, h2, h3, ?_, h4, h5⟩
  intro l hl hp
  have hp' : l ∈ s'.pressing_records.map Prod.snd := hp
  rw [h3] at hp'
  obtain ⟨kv, hkv, hkv2⟩ := List.mem_map.1 hp'
  have := (List.mem_filter.1 hkv).2
  simp only [decide_eq_true_eq] at this
  exact this (hkv2 ▸ hl)

/-! ## C5: the pressing records and the events sent -/

theorem pressed_by_events_append (events : List FlutterKeyEvent) (e : FlutterKeyEvent)
    (p : Nat) :
    pressed_by_events (events ++ [e]) p =
      if e.physical = p then e.type != kFlutterKeyEventTypeUp else pressed_by_events events p := by
  simp [pressed_by_events, List.foldl_append]

theorem received_events_of_engine_map (s s' : FlKeyEmbedderResponder) (e : FlutterKeyEvent)
    (h_live : s.engine.isSome = true)
    (h : s'.engine = s.engine.map (fun received => received ++ [e])) :
    s'.engine.isSome = true ∧ received_events s' = received_events s ++ [e] := by
  unfold received_events
  cases hs : s.engine with
  | none => simp [hs] at h_live
  | some log => simp [h, hs]

theorem mem_g_hash_table_remove (t : GHashTable) (k : Nat) (entry : Nat × Nat)
    (h : entry ∈ g_hash_table_remove t k) : entry ∈ t := by
  rw [g_hash_table_remove_eq_filter] at h
  exact (List.mem_filter.1 h).1

theorem mem_g_hash_table_set_value (t : GHashTable) (k v : Nat) (entry : Nat × Nat)
    (h : entry ∈ g_hash_table_set_value t k v) : entry ∈ t ∨ entry = (k, v) := by
  induction t with
  | nil => simp [g_hash_table_set_value] at h
  | cons kv rest ih =>
    obtain ⟨a, b⟩ := kv
    unfold g_hash_table_set_value at h
    by_cases hk : a = k
    · simp only [hk, if_true, List.mem_cons] at h
      rcases h with h | h
      · exact Or.inr h
      · exact Or.inl (List.mem_cons_of_mem _ h)
    · simp only [hk, if_false, List.mem_cons] at h
      rcases h with h | h
      · exact Or.inl (h ▸ List.mem_cons_self _ _)
      · rcases ih h with h | h
        · exact Or.inl (List.mem_cons_of_mem _ h)
        · exact Or.inr h

theorem mem_g_hash_table_insert (t : GHashTable) (k v : Nat) (entry : Nat × Nat)
    (h : entry ∈ g_hash_table_insert t k v) : entry ∈ t ∨ entry = (k, v) := by
  unfold g_hash_table_insert at h
  split at h
  · exact mem_g_hash_table_set_value t k v entry h
  · rcases List.mem_cons.1 h with h | h
    · exact Or.inr h
    · exact Or.inl h

theorem mem_update_pressing_state (s : FlKeyEmbedderResponder) (q v : Nat) (entry : Nat × Nat)
    (h : entry ∈ (update_pressing_state s q v).pressing_records) :
    entry ∈ s.pressing_records ∨ (v ≠ 0 ∧ entry = (q, v)) := by
  rw [update_pressing_state_pressing_records] at h
  by_cases hv : v = 0
  · simp only [hv, ne_eq, not_true_eq_false, if_false] at h
    split at h
    · exact Or.inl (mem_g_hash_table_remove _ _ _ h)
    · exact Or.inl h
  · simp only [ne_eq, hv, not_false_eq_true, if_true] at h
    split at h
    · rcases mem_g_hash_table_insert _ _ _ _ h with h | h
      · exact Or.inl h
      · exact Or.inr ⟨hv, h⟩
    · exact Or.inl h

theorem lookup_update_pressing_state (s : FlKeyEmbedderResponder) (q v p : Nat) :
    (lookup_hash_table (update_pressing_state s q v).pressing_records p ≠ 0) ↔
      if p = q then v ≠ 0
      else lookup_hash_table s.pressing_records p ≠ 0 := by
  rw [update_pressing_state_pressing_records]
  by_cases hpq : p = q
  · subst hpq
    by_cases hv : v = 0
    · by_cases hq : lookup_hash_table s.pressing_records p = 0
      · simp [hv, hq]
      · simp [hv, hq, lookup_hash_table_remove]
    · by_cases hq : lookup_hash_table s.pressing_records p = 0
      · simp [hv, hq, lookup_hash_table_insert]
      · simp [hv, hq]
  · by_cases hv : v = 0
    · by_cases hq : lookup_hash_table s.pressing_records q = 0
      · simp [hv, hq, hpq]
      · simp [hv, hq, hpq, lookup_hash_table_remove]
    · by_cases hq : lookup_hash_table s.pressing_records q = 0
      · simp [hv, hq, hpq, lookup_hash_table_insert]
      · simp [hv, hq, hpq]

/-- One event for the physical key `q` together with the update of its
pressing record keeps the records and the events matched. -/
theorem pressing_records_match_events_update (s s' : FlKeyEmbedderResponder)
    (e : FlutterKeyEvent) (v : Nat)
    (h : pressing_records_match_events s)
    (h_engine : s'.engine = s.engine.map (fun received => received ++ [e]))
    (h_pressing : s'.pressing_records = (update_pressing_state s e.physical v).pressing_records)
    (h_type : v ≠ 0 ↔ e.type ≠ kFlutterKeyEventTypeUp) :
    pressing_records_match_events s' := by
  obtain ⟨h_live, h_values, h_match⟩ := h
  obtain ⟨h_live', h_events⟩ := received_events_of_engine_map s s' e h_live h_engine
  refine ⟨h_live', ?_, ?_⟩
  · intro entry hentry
    rw [h_pressing] at hentry
    rcases mem_update_pressing_state _ _ _ _ hentry with h1 | ⟨hv, h1⟩
    · exact h_values entry h1
    · rw [h1]; exact hv
  · intro p hp
    rw [h_events, pressed_by_events_append, h_pressing, lookup_update_pressing_state]
    by_cases hpq : p = e.physical
    · subst hpq
      simp only [if_true]
      constructor
      · intro hv
        simpa using h_type.1 hv
      · intro h1
        exact h_type.2 (by simpa using h1)
    · have hqp : ¬ e.physical = p := fun e' => hpq e'.symm
      simp only [hpq, hqp, if_false]
      exact h_match p hp

/-- An event for a physical key whose record is left as it is keeps the
records and the events matched when the event is a press of a pressed key or
an event for the physical key 0. -/
theorem pressing_records_match_events_keep (s s' : FlKeyEmbedderResponder)
    (e : FlutterKeyEvent)
    (h : pressing_records_match_events s)
    (h_engine : s'.engine = s.engine.map (fun received => received ++ [e]))
    (h_pressing : s'.pressing_records = s.pressing_records)
    (h_type : e.physical = 0 ∨
      (e.type ≠ kFlutterKeyEventTypeUp ∧ lookup_hash_table s.pressing_records e.physical ≠ 0)) :
    pressing_records_match_events s' := by
  obtain ⟨h_live, h_values, h_match⟩ := h
  obtain ⟨h_live', h_events⟩ := received_events_of_engine_map s s' e h_live h_engine
  refine ⟨h_live', by rw [h_pressing]; exact h_values, ?_⟩
  intro p hp
  rw [h_events, pressed_by_events_append, h_pressing]
  by_cases hpq : e.physical = p
  · simp only [hpq, if_true]
    rcases h_type with h0 | ⟨ht, hl⟩
    · exact absurd (hpq ▸ h0) hp
    · rw [hpq] at hl
      simp [hl, ht]
  · simp only [hpq, if_false]
    exact h_match p hp

theorem pressing_records_match_events_same (s s' : FlKeyEmbedderResponder)
    (h : pressing_records_match_events s)
    (h_engine : s'.engine = s.engine) (h_pressing : s'.pressing_records = s.pressing_records) :
    pressing_records_match_events s' := by
  unfold pressing_records_match_events received_events at *
  rw [h_engine, h_pressing]
  exact h

theorem synchronize_lock_states_stage_pressing_records (cfg : KeyMapping)
    (physical_key logical_key recorded_physical_key timestamp current_stage : Nat)
    (s : FlKeyEmbedderResponder) :
    (synchronize_lock_states_stage cfg physical_key logical_key recorded_physical_key timestamp
      current_stage s).pressing_records =
      (update_pressing_state s physical_key
        (if (current_stage % kNumStages == 0 || current_stage % kNumStages == 2) = true then
          logical_key else 0)).pressing_records := by
  simp only [synchronize_lock_states_stage, synthesize_simple_event_pressing_records,
    possibly_update_lock_bit_pressing_records, update_pressing_state_pressing_records,
    apply_ite FlKeyEmbedderResponder.pressing_records, update_mapping_record_pressing_records,
    ite_self]

theorem synchronize_pressed_states_press_pressing_records (s : FlKeyEmbedderResponder)
    (checked_key : FlKeyEmbedderCheckedKey) (timestamp : Nat) :
    (synchronize_pressed_states_press s checked_key timestamp).pressing_records =
      (update_pressing_state s (chosen_physical_key s checked_key)
        checked_key.primary_logical_key).pressing_records := by
  simp only [synchronize_pressed_states_press, synthesize_simple_event_pressing_records,
    update_pressing_state_pressing_records,
    apply_ite FlKeyEmbedderResponder.pressing_records, update_mapping_record_pressing_records,
    ite_self]

theorem synchronize_pressed_states_release_pressing_records (s : FlKeyEmbedderResponder)
    (logical_key timestamp : Nat) :
    (synchronize_pressed_states_release s logical_key timestamp).pressing_records =
      (update_pressing_state s (lookup_hash_table s.mapping_records logical_key)
        0).pressing_records := by
  simp only [synchronize_pressed_states_release, synthesize_simple_event_pressing_records,
    update_pressing_state_pressing_records]

theorem synchronizer_step_pressing_records_match_events {cfg : KeyMapping}
    {s s' : FlKeyEmbedderResponder}
    (h_cfg : ∀ entry ∈ cfg.lock_bit_to_checked_keys, entry.2.primary_logical_key ≠ 0)
    (h : SynchronizerStep cfg s s') (hs : pressing_records_match_events s) :
    pressing_records_match_events s' := by
  cases h with
  | failed_check a => exact pressing_records_match_events_same s _ hs rfl rfl
  | inferrence d e st => exact pressing_records_match_events_same s _ hs (by simp) (by simp)
  | lock_stage modifier_bit checked_key recorded timestamp current_stage h_entry _ =>
    have hl := h_cfg _ h_entry
    refine pressing_records_match_events_update s _ _ _ hs
      (synchronize_lock_states_stage_engine _ _ _ _ _ _ _)
      (synchronize_lock_states_stage_pressing_records _ _ _ _ _ _ _) ?_
    by_cases hd : (current_stage % kNumStages == 0 || current_stage % kNumStages == 2) = true
    · simp only [hd, if_true]
      simpa using hl
    · simp only [hd, Bool.false_eq_true, if_false]
      simp
  | modifier_release modifier_bit checked_key logical_key timestamp =>
    exact pressing_records_match_events_update s _ _ 0 hs
      (synchronize_pressed_states_release_engine _ _ _)
      (synchronize_pressed_states_release_pressing_records _ _ _) (by simp)
  | modifier_press modifier_bit checked_key timestamp h_entry h_nonzero _ =>
    exact pressing_records_match_events_update s _ _ _ hs
      (synchronize_pressed_states_press_engine _ _ _)
      (synchronize_pressed_states_press_pressing_records _ _ _) (by simpa using h_nonzero)

theorem synchronizer_steps_pressing_records_match_events {cfg : KeyMapping}
    {s s' : FlKeyEmbedderResponder}
    (h_cfg : ∀ entry ∈ cfg.lock_bit_to_checked_keys, entry.2.primary_logical_key ≠ 0)
    (h : SynchronizerSteps cfg s s') (hs : pressing_records_match_events s) :
    pressing_records_match_events s' := by
  induction h with
  | refl => exact hs
  | tail _ hstep ih => exact synchronizer_step_pressing_records_match_events h_cfg hstep ih

theorem handle_event_pressing_records_match_events (cfg : KeyMapping)
    (s : FlKeyEmbedderResponder) (event : FlKeyEvent) (specified_logical_key : Nat)
    (h_cfg : ∀ entry ∈ cfg.lock_bit_to_checked_keys, entry.2.primary_logical_key ≠ 0)
    (h_logical : resolved_logical_key cfg event specified_logical_key ≠ 0)
    (hs : pressing_records_match_events s) :
    pressing_records_match_events
      (fl_key_embedder_responder_handle_event cfg s event specified_logical_key).1 := by
  have hs0 : pressing_records_match_events { s with sent_any_events := false } :=
    pressing_records_match_events_same s _ hs rfl rfl
  have h1 := synchronizer_steps_pressing_records_match_events h_cfg
    (synchronize_states_steps cfg { s with sent_any_events := false } event
      specified_logical_key) hs0
  by_cases hp : event.is_press = true
  · rw [handle_event_of_real_event _ _ _ _ (Or.inl hp)]
    by_cases hr : lookup_hash_table
        (synchronize_states cfg { s with sent_any_events := false } event
          specified_logical_key).pressing_records
        (resolved_physical_key cfg event specified_logical_key) = 0
    · rw [handle_event_impl_down _ _ _ _ hp hr]
      exact pressing_records_match_events_update _ _
        ⟨event_to_timestamp event, kFlutterKeyEventTypeDown,
          resolved_physical_key cfg event specified_logical_key,
          resolved_logical_key cfg event specified_logical_key,
          event_to_character cfg event, false⟩
        (resolved_logical_key cfg event specified_logical_key) h1 (by simp) (by simp)
        (by simpa using h_logical)
    · rw [handle_event_impl_repeat _ _ _ _ hp hr]
      exact pressing_records_match_events_keep _ _
        ⟨event_to_timestamp event, kFlutterKeyEventTypeRepeat,
          resolved_physical_key cfg event specified_logical_key,
          lookup_hash_table
            (synchronize_states cfg { s with sent_any_events := false } event
              specified_logical_key).pressing_records
            (resolved_physical_key cfg event specified_logical_key),
          event_to_character cfg event, false⟩
        h1 (by simp) (by simp) (Or.inr ⟨by simp, hr⟩)
  · simp only [Bool.not_eq_true] at hp
    by_cases hr : lookup_hash_table
        (synchronize_states cfg { s with sent_any_events := false } event
          specified_logical_key).pressing_records
        (resolved_physical_key cfg event specified_logical_key) = 0
    · unfold fl_key_embedder_responder_handle_event
      rw [handle_event_impl_stale_release _ _ _ _ hp hr]
      simp only []
      split
      · exact pressing_records_match_events_keep _ _ kEmptyEvent h1 (by simp) (by simp)
          (Or.inl rfl)
      · exact h1
    · rw [handle_event_of_real_event _ _ _ _ (Or.inr hr),
        handle_event_impl_release _ _ _ _ hp hr]
      exact pressing_records_match_events_update _ _
        ⟨event_to_timestamp event, kFlutterKeyEventTypeUp,
          resolved_physical_key cfg event specified_logical_key,
          lookup_hash_table
            (synchronize_states cfg { s with sent_any_events := false } event
              specified_logical_key).pressing_records
            (resolved_physical_key cfg event specified_logical_key),
          none, false⟩
        0 h1 (by simp) (by simp) (by simp)

theorem call_pressing_records_match_events (cfg : KeyMapping) (s : FlKeyEmbedderResponder)
    (c : Call)
    (h_cfg : ∀ entry ∈ cfg.lock_bit_to_checked_keys, entry.2.primary_logical_key ≠ 0)
    (h_logical : c.logical_key_nonzero cfg = true)
    (hs : pressing_records_match_events s) :
    pressing_records_match_events (call cfg s c) := by
  cases c with
  | handle_event event specified_logical_key =>
    exact handle_event_pressing_records_match_events cfg s event specified_logical_key h_cfg
      (by simpa [Call.logical_key_nonzero] using h_logical) hs
  | sync_modifiers_if_needed state event_time =>
    exact synchronizer_steps_pressing_records_match_events h_cfg
      (synchronize_pressed_states_steps cfg s state _) hs

theorem calls_pressing_records_match_events (cfg : KeyMapping) (cs : List Call)
    (s : FlKeyEmbedderResponder)
    (h_cfg : ∀ entry ∈ cfg.lock_bit_to_checked_keys, entry.2.primary_logical_key ≠ 0)
    (h_logical : ∀ c ∈ cs, c.logical_key_nonzero cfg = true)
    (hs : pressing_records_match_events s) :
    pressing_records_match_events (calls cfg s cs) := by
  induction cs generalizing s with
  | nil => exact hs
  | cons c rest ih =>
    exact ih (call cfg s c) (fun c' hc' => h_logical c' (List.mem_cons_of_mem _ hc'))
      (call_pressing_records_match_events cfg s c h_cfg
        (h_logical c (List.mem_cons_self _ _)) hs)

theorem g_hash_table_lookup_isSome_of_values_nonzero (t : GHashTable) (p : Nat)
    (h : ∀ entry ∈ t, entry.2 ≠ 0) :
    (g_hash_table_lookup t p).isSome = true ↔ lookup_hash_table t p ≠ 0 := by
  induction t with
  | nil => simp [g_hash_table_lookup, lookup_hash_table]
  | cons kv rest ih =>
    obtain ⟨a, b⟩ := kv
    by_cases hk : a = p
    · have hb : b ≠ 0 := h (a, b) (List.mem_cons_self _ _)
      simp [g_hash_table_lookup, lookup_hash_table, hk, hb]
    · have := ih (fun e he => h e (List.mem_cons_of_mem _ he))
      simpa [g_hash_table_lookup, lookup_hash_table, hk] using this

/-- C5 (the code at the failing input): on the fresh responder the press of
keycode 0x26 with keyval 0 resolves to the logical key 0 and sends a down
event for the physical key 0x70004, so the most recent event for that key is a
press; `update_pressing_state` takes the logical key 0 as the request to
release the key, its check that the key is pressed fails, and the pressing
records have no entry for the key. -/
theorem calls_press_of_logical_key_zero_unmatched :
    resolved_logical_key key_mapping ⟨0, true, 0x26, 0, 0⟩ 0 = 0 ∧
    (calls key_mapping (fl_key_embedder_responder_new (some []))
      [Call.handle_event ⟨0, true, 0x26, 0, 0⟩ 0]).engine =
      some [⟨0, kFlutterKeyEventTypeDown, 0x70004, 0, none, false⟩] ∧
    pressed_by_events
      (received_events (calls key_mapping (fl_key_embedder_responder_new (some []))
        [Call.handle_event ⟨0, true, 0x26, 0, 0⟩ 0])) 0x70004 = true ∧
    g_hash_table_lookup
      (calls key_mapping (fl_key_embedder_responder_new (some []))
        [Call.handle_event ⟨0, true, 0x26, 0, 0⟩ 0]).pressing_records 0x70004 = none ∧
    (calls key_mapping (fl_key_embedder_responder_new (some []))
      [Call.handle_event ⟨0, true, 0x26, 0, 0⟩ 0]).g_critical =
      [Assertion.pressing_key_down] := by
  decide

/-- The pressing records match the events sent when no logical key is 0:
after any sequence of `handle_event` and
`sync_modifiers_if_needed` calls from the responder freshly constructed on a
live engine, in which every raw event resolves to a non-zero logical key (the
lock keys of the configuration having non-zero logical keys), for every
non-zero physical key `p` the pressing records have an entry for `p` if and
only if the most recent event sent, real or synthesized, whose physical key is
`p` was a press (down or repeat), not yet followed by an up event for `p`. -/
theorem calls_pressing_record_iff_pressed_by_events (cfg : KeyMapping) (cs : List Call)
    (p : Nat)
    (h_cfg : ∀ entry ∈ cfg.lock_bit_to_checked_keys, entry.2.primary_logical_key ≠ 0)
    (h_logical : ∀ c ∈ cs, c.logical_key_nonzero cfg = true)
    (hp : p ≠ 0) :
    (g_hash_table_lookup
      (calls cfg (fl_key_embedder_responder_new (some [])) cs).pressing_records p).isSome = true ↔
    pressed_by_events
      (received_events (calls cfg (fl_key_embedder_responder_new (some [])) cs)) p = true := by
  have h0 : pressing_records_match_events (fl_key_embedder_responder_new (some [])) := by
    refine ⟨rfl, by simp [fl_key_embedder_responder_new], ?_⟩
    intro q _
    simp [fl_key_embedder_responder_new, lookup_hash_table, g_hash_table_lookup,
      received_events, pressed_by_events]
  obtain ⟨_, h_values, h_match⟩ :=
    calls_pressing_records_match_events cfg cs _ h_cfg h_logical h0
  rw [g_hash_table_lookup_isSome_of_values_nonzero _ _ h_values]
  exact h_match p hp

/-- An instance of the match of pressing records and events: after the press of the left Shift key and the release of the
A key with the Shift bit clear, the left Shift key has no pressing record, and
the most recent event for it is the synthesized up event. -/
theorem calls_pressing_record_iff_pressed_by_events_witness :
    (g_hash_table_lookup
      (calls key_mapping (fl_key_embedder_responder_new (some []))
        [Call.handle_event ⟨0, true, 0x32, 0xffe1, 0⟩ 0,
         Call.handle_event ⟨0, false, 0x26, 0x61, 0⟩ 0]).pressing_records 0x700e1).isSome = true ↔
    pressed_by_events
      (received_events (calls key_mapping (fl_key_embedder_responder_new (some []))
        [Call.handle_event ⟨0, true, 0x32, 0xffe1, 0⟩ 0,
         Call.handle_event ⟨0, false, 0x26, 0x61, 0⟩ 0])) 0x700e1 = true :=
  calls_pressing_record_iff_pressed_by_events key_mapping
    [Call.handle_event ⟨0, true, 0x32, 0xffe1, 0⟩ 0,
     Call.handle_event ⟨0, false, 0x26, 0x61, 0⟩ 0] 0x700e1 (by decide) (by decide) (by decide)

/-! ## C6: the checks of `update_pressing_state` -/

set_option maxRecDepth 8000 in
/-- C6 (the checks can fail): from the fresh responder, the key at the
CapsLock position (keycode 0x42) is pressed with keyval 0x61, then another key
is pressed while the bitmask reports CapsLock enabled: the lock synchronizer
synthesizes a CapsLock press on the physical key that is already held, and the
insertion check of `update_pressing_state` fails. Likewise a modifier release
synthesized for a physical key that is no longer held fails the removal
check. -/
theorem update_pressing_state_checks_fail_in_reachable_states :
    (calls key_mapping (fl_key_embedder_responder_new (some []))
      [Call.handle_event ⟨0, true, 0x42, 0x61, 0⟩ 0,
       Call.handle_event ⟨0, true, 0x27, 0x62, 2⟩ 0]).g_critical =
      [Assertion.pressing_key_not_down] ∧
    (calls key_mapping (fl_key_embedder_responder_new (some []))
      [Call.handle_event ⟨0, true, 0x26, 0xffe1, 0⟩ 0,
       Call.handle_event ⟨0, true, 0x27, 0xffe1, 1⟩ 0,
       Call.handle_event ⟨0, false, 0x27, 0xffe1, 1⟩ 0,
       Call.handle_event ⟨0, false, 0x26, 0xffe1, 0⟩ 0]).g_critical =
      [Assertion.pressing_key_down] := by
  decide

/-! ## C7: synchronizing the modifiers twice -/

/-- C7 (the code at the failing input): two physical keys are pressed with the
keyval of the left Shift key, which is a state reachable from the fresh
responder; the first `sync_modifiers_if_needed` with bitmask 0 releases the
physical key of the mapping record and leaves the other one holding the
logical key. The second call with the same bitmask finds the logical key
pressed by record and takes the same physical key from the mapping record,
which has no pressing record any more: it synthesizes one more up event, for
that physical key and with logical key 0, and the removal check of
`update_pressing_state` fails. -/
theorem sync_modifiers_if_needed_twice_sends_again :
    (fl_key_embedder_responder_sync_modifiers_if_needed key_mapping
      (calls key_mapping (fl_key_embedder_responder_new (some []))
        [Call.handle_event ⟨0, true, 0x26, 0xffe1, 0⟩ 0,
         Call.handle_event ⟨0, true, 0x27, 0xffe1, 1⟩ 0]) 0 0).engine =
      Option.map (fun received => received ++
        [⟨0, kFlutterKeyEventTypeUp, 0x70016, 0x200000102, none, true⟩])
        (calls key_mapping (fl_key_embedder_responder_new (some []))
          [Call.handle_event ⟨0, true, 0x26, 0xffe1, 0⟩ 0,
           Call.handle_event ⟨0, true, 0x27, 0xffe1, 1⟩ 0]).engine ∧
    (fl_key_embedder_responder_sync_modifiers_if_needed key_mapping
      (calls key_mapping (fl_key_embedder_responder_new (some []))
        [Call.handle_event ⟨0, true, 0x26, 0xffe1, 0⟩ 0,
         Call.handle_event ⟨0, true, 0x27, 0xffe1, 1⟩ 0]) 0 0).pressing_records =
      [(0x70004, 0x200000102)] ∧
    (fl_key_embedder_responder_sync_modifiers_if_needed key_mapping
      (calls key_mapping (fl_key_embedder_responder_new (some []))
        [Call.handle_event ⟨0, true, 0x26, 0xffe1, 0⟩ 0,
         Call.handle_event ⟨0, true, 0x27, 0xffe1, 1⟩ 0]) 0 0).mapping_records =
      [(0x200000102, 0x70016)] ∧
    (fl_key_embedder_responder_sync_modifiers_if_needed key_mapping
      (calls key_mapping (fl_key_embedder_responder_new (some []))
        [Call.handle_event ⟨0, true, 0x26, 0xffe1, 0⟩ 0,
         Call.handle_event ⟨0, true, 0x27, 0xffe1, 1⟩ 0]) 0 0).g_critical = [] ∧
    (fl_key_embedder_responder_sync_modifiers_if_needed key_mapping
      (fl_key_embedder_responder_sync_modifiers_if_needed key_mapping
        (calls key_mapping (fl_key_embedder_responder_new (some []))
          [Call.handle_event ⟨0, true, 0x26, 0xffe1, 0⟩ 0,
           Call.handle_event ⟨0, true, 0x27, 0xffe1, 1⟩ 0]) 0 0) 0 0).g_critical =
      [Assertion.pressing_key_down] ∧
    (fl_key_embedder_responder_sync_modifiers_if_needed key_mapping
      (fl_key_embedder_responder_sync_modifiers_if_needed key_mapping
        (calls key_mapping (fl_key_embedder_responder_new (some []))
          [Call.handle_event ⟨0, true, 0x26, 0xffe1, 0⟩ 0,
           Call.handle_event ⟨0, true, 0x27, 0xffe1, 1⟩ 0]) 0 0) 0 0).engine =
      Option.map (fun received => received ++
        [⟨0, kFlutterKeyEventTypeUp, 0x70016, 0, none, true⟩])
        (fl_key_embedder_responder_sync_modifiers_if_needed key_mapping
          (calls key_mapping (fl_key_embedder_responder_new (some []))
            [Call.handle_event ⟨0, true, 0x26, 0xffe1, 0⟩ 0,
             Call.handle_event ⟨0, true, 0x27, 0xffe1, 1⟩ 0]) 0 0).engine := by
  decide

/-- Idempotence after agreement: for every responder state and every bitmask, when the first
call of `sync_modifiers_if_needed` has brought every registered modifier
family into agreement with the bitmask (its bit set exactly when one of its
logical keys is a value of the pressing records), a second call with the same
bitmask sends no event and leaves the engine, the pressing records, the
mapping records, the lock records, the inference and the sent flag as the
first call left them. -/
theorem sync_modifiers_if_needed_twice (cfg : KeyMapping) (s : FlKeyEmbedderResponder)
    (state first_time second_time : Nat)
    (h_agree : ∀ entry ∈ cfg.modifier_bit_to_checked_keys,
      modifier_agrees state
        (fl_key_embedder_responder_sync_modifiers_if_needed cfg s state first_time) entry) :
    (fl_key_embedder_responder_sync_modifiers_if_needed cfg
      (fl_key_embedder_responder_sync_modifiers_if_needed cfg s state first_time) state
      second_time).engine =
      (fl_key_embedder_responder_sync_modifiers_if_needed cfg s state first_time).engine ∧
    (fl_key_embedder_responder_sync_modifiers_if_needed cfg
      (fl_key_embedder_responder_sync_modifiers_if_needed cfg s state first_time) state
      second_time).pressing_records =
      (fl_key_embedder_responder_sync_modifiers_if_needed cfg s state
        first_time).pressing_records ∧
    (fl_key_embedder_responder_sync_modifiers_if_needed cfg
      (fl_key_embedder_responder_sync_modifiers_if_needed cfg s state first_time) state
      second_time).mapping_records =
      (fl_key_embedder_responder_sync_modifiers_if_needed cfg s state
        first_time).mapping_records ∧
    (fl_key_embedder_responder_sync_modifiers_if_needed cfg
      (fl_key_embedder_responder_sync_modifiers_if_needed cfg s state first_time) state
      second_time).lock_records =
      (fl_key_embedder_responder_sync_modifiers_if_needed cfg s state first_time).lock_records ∧
    (fl_key_embedder_responder_sync_modifiers_if_needed cfg
      (fl_key_embedder_responder_sync_modifiers_if_needed cfg s state first_time) state
      second_time).caps_lock_state_logic_inferrence =
      (fl_key_embedder_responder_sync_modifiers_if_needed cfg s state
        first_time).caps_lock_state_logic_inferrence ∧
    (fl_key_embedder_responder_sync_modifiers_if_needed cfg
      (fl_key_embedder_responder_sync_modifiers_if_needed cfg s state first_time) state
      second_time).sent_any_events =
      (fl_key_embedder_responder_sync_modifiers_if_needed cfg s state
        first_time).sent_any_events := by
  generalize fl_key_embedder_responder_sync_modifiers_if_needed cfg s state first_time = s1
    at h_agree
  unfold fl_key_embedder_responder_sync_modifiers_if_needed synchronize_pressed_states
  rcases synchronize_pressed_states_entries_of_agreement state
    (second_time * kMicrosecondsPerMillisecond) cfg.modifier_bit_to_checked_keys s1 h_agree
    with h1 | ⟨a, h1⟩
  · rw [h1]; exact ⟨rfl, rfl, rfl, rfl, rfl, rfl⟩
  · rw [h1]; exact ⟨rfl, rfl, rfl, rfl, rfl, rfl⟩

/-- An instance of the idempotence after agreement: with the left Shift key pressed and the bitmask 0, the first
call releases it and the second call finds every family in agreement. -/
theorem sync_modifiers_if_needed_twice_witness :
    (fl_key_embedder_responder_sync_modifiers_if_needed key_mapping
      (fl_key_embedder_responder_sync_modifiers_if_needed key_mapping
        (calls key_mapping (fl_key_embedder_responder_new (some []))
          [Call.handle_event ⟨0, true, 0x32, 0xffe1, 0⟩ 0]) 0 1) 0 2).engine =
      (fl_key_embedder_responder_sync_modifiers_if_needed key_mapping
        (calls key_mapping (fl_key_embedder_responder_new (some []))
          [Call.handle_event ⟨0, true, 0x32, 0xffe1, 0⟩ 0]) 0 1).engine :=
  (sync_modifiers_if_needed_twice key_mapping
    (calls key_mapping (fl_key_embedder_responder_new (some []))
      [Call.handle_event ⟨0, true, 0x32, 0xffe1, 0⟩ 0]) 0 1 2
    (by
      intro entry h_entry
      simp only [key_mapping, List.mem_cons, List.mem_singleton, List.not_mem_nil,
        or_false] at h_entry
      rcases h_entry with h | h | h | h <;> subst h <;> decide)).1

/-! ## The modifier synchronizer on tidy pressing records -/

theorem g_hash_table_set_value_keys (t : GHashTable) (k v : Nat) :
    (g_hash_table_set_value t k v).map Prod.fst = t.map Prod.fst := by
  induction t with
  | nil => rfl
  | cons kv rest ih =>
    obtain ⟨a, b⟩ := kv
    by_cases h : a = k
    · simp [g_hash_table_set_value, h]
    · simp [g_hash_table_set_value, h, ih]

theorem not_mem_keys_of_lookup_none (t : GHashTable) (k : Nat)
    (h : g_hash_table_lookup t k = none) : k ∉ t.map Prod.fst := by
  induction t with
  | nil => simp
  | cons kv rest ih =>
    obtain ⟨a, b⟩ := kv
    by_cases hk : a = k
    · simp [g_hash_table_lookup, hk] at h
    · simp only [g_hash_table_lookup, hk, if_false] at h
      simp only [List.map_cons, List.mem_cons, not_or]
      exact ⟨fun e => hk e.symm, ih h⟩

theorem g_hash_table_insert_keys_nodup (t : GHashTable) (k v : Nat)
    (h : (t.map Prod.fst).Nodup) : ((g_hash_table_insert t k v).map Prod.fst).Nodup := by
  unfold g_hash_table_insert
  cases hl : g_hash_table_lookup t k with
  | none =>
    simp only [List.map_cons, List.nodup_cons]
    exact ⟨not_mem_keys_of_lookup_none t k hl, h⟩
  | some w =>
    simp only [g_hash_table_set_value_keys]
    exact h

theorem update_pressing_state_well_formed (s : FlKeyEmbedderResponder) (q v : Nat)
    (h : pressing_records_well_formed s) :
    pressing_records_well_formed (update_pressing_state s q v) := by
  unfold pressing_records_well_formed at *
  rw [update_pressing_state_pressing_records]
  split
  · split
    · exact g_hash_table_insert_keys_nodup _ _ _ h
    · exact h
  · split
    · rw [g_hash_table_remove_eq_filter]
      exact h.sublist ((List.filter_sublist _).map _)
    · exact h

theorem mem_values_g_hash_table_set_value (t : GHashTable) (k v l : Nat)
    (h0 : lookup_hash_table t k = 0) (hl0 : l ≠ 0) (hlv : l ≠ v) :
    l ∈ (g_hash_table_set_value t k v).map Prod.snd ↔ l ∈ t.map Prod.snd := by
  induction t with
  | nil => simp [g_hash_table_set_value]
  | cons kv rest ih =>
    obtain ⟨a, b⟩ := kv
    by_cases hk : a = k
    · have hb : b = 0 := by simpa [lookup_hash_table, g_hash_table_lookup, hk] using h0
      simp [g_hash_table_set_value, hk, hb, hl0, hlv]
    · have h0' : lookup_hash_table rest k = 0 := by
        simpa [lookup_hash_table, g_hash_table_lookup, hk] using h0
      simp [g_hash_table_set_value, hk, ih h0']

theorem pressed_by_record_update_pressing_state_insert (s : FlKeyEmbedderResponder)
    (q v l : Nat) (hv : v ≠ 0) (hl0 : l ≠ 0) (hlv : l ≠ v) :
    pressed_by_record (update_pressing_state s q v) l ↔ pressed_by_record s l := by
  unfold pressed_by_record
  rw [update_pressing_state_pressing_records]
  simp only [ne_eq, hv, not_false_eq_true, if_true]
  split
  · rename_i h0
    unfold g_hash_table_insert
    cases hl : g_hash_table_lookup s.pressing_records q with
    | none => simp [hlv]
    | some w => exact mem_values_g_hash_table_set_value _ _ _ _ h0 hl0 hlv
  · exact Iff.rfl

theorem synchronize_pressed_states_press_frame (s : FlKeyEmbedderResponder)
    (checked_key : FlKeyEmbedderCheckedKey) (timestamp : Nat)
    (h_nonzero : checked_key.primary_logical_key ≠ 0)
    (h_wf : pressing_records_well_formed s) :
    pressing_records_well_formed (synchronize_pressed_states_press s checked_key timestamp) ∧
    (∀ entry ∈ (synchronize_pressed_states_press s checked_key timestamp).pressing_records,
      entry ∈ s.pressing_records ∨ entry.2 = checked_key.primary_logical_key) ∧
    (∀ l, l ≠ 0 → l ≠ checked_key.primary_logical_key →
      (pressed_by_record (synchronize_pressed_states_press s checked_key timestamp) l ↔
        pressed_by_record s l)) ∧
    (∀ l, l ≠ checked_key.primary_logical_key →
      lookup_hash_table (synchronize_pressed_states_press s checked_key timestamp).mapping_records
        l = lookup_hash_table s.mapping_records l) := by
  have hp := synchronize_pressed_states_press_pressing_records s checked_key timestamp
  refine ⟨?_, ?_, ?_, ?_⟩
  · unfold pressing_records_well_formed
    rw [hp]
    exact update_pressing_state_well_formed s _ _ h_wf
  · intro entry hentry
    rw [hp] at hentry
    rcases mem_update_pressing_state _ _ _ _ hentry with h | ⟨_, h⟩
    · exact Or.inl h
    · exact Or.inr (by rw [h])
  · intro l hl0 hl
    have := pressed_by_record_update_pressing_state_insert s
      (chosen_physical_key s checked_key) checked_key.primary_logical_key l h_nonzero hl0 hl
    unfold pressed_by_record at this ⊢
    rw [hp]
    exact this
  · intro l hl
    unfold synchronize_pressed_states_press
    simp only [update_pressing_state_mapping_records, synthesize_simple_event_mapping_records,
      apply_ite FlKeyEmbedderResponder.mapping_records, update_mapping_record_mapping_records]
    split
    · rw [lookup_hash_table_insert]
      simp [hl]
    · rfl

theorem synchronize_pressed_states_logical_keys_state_on_nonzero (timestamp : Nat)
    (keys : List Nat) (any_pressed_by_record : Bool) (s : FlKeyEmbedderResponder)
    (h_keys : ∀ l ∈ keys, l ≠ 0) :
    synchronize_pressed_states_logical_keys true timestamp keys any_pressed_by_record s =
      LoopStep.next (s, any_pressed_by_record ||
        decide (∃ l ∈ keys, pressed_by_record s l)) := by
  induction keys generalizing any_pressed_by_record with
  | nil => simp [synchronize_pressed_states_logical_keys]
  | cons l rest ih =>
    have hl : l ≠ 0 := h_keys l (List.mem_cons_self _ _)
    unfold synchronize_pressed_states_logical_keys
    simp only [hl, if_false, Bool.not_true, Bool.and_false, Bool.false_eq_true]
    rw [reverse_lookup_hash_table_ne_zero _ _ hl,
      ih _ (fun k hk => h_keys k (List.mem_cons_of_mem _ hk))]
    simp only [LoopStep.next.injEq, Prod.mk.injEq, true_and, pressed_by_record,
      List.mem_cons, exists_eq_or_imp, Bool.decide_or, Bool.or_assoc]

theorem checked_logical_keys_nonzero (checked_key : FlKeyEmbedderCheckedKey)
    (h_nonzero : checked_key.primary_logical_key ≠ 0) :
    ∀ l ∈ checked_logical_keys checked_key, l ≠ 0 := by
  intro l hl
  rcases (mem_checked_logical_keys checked_key l).1 hl with h | ⟨h0, h⟩
  · rw [h]; exact h_nonzero
  · rw [h]; exact h0

theorem synchronize_pressed_states_checked_key_tidy (state timestamp modifier_bit : Nat)
    (checked_key : FlKeyEmbedderCheckedKey) (s : FlKeyEmbedderResponder)
    (h_nonzero : checked_key.primary_logical_key ≠ 0)
    (h_nodup : (checked_logical_keys checked_key).Nodup)
    (h_wf : pressing_records_well_formed s)
    (h_held : held_by_recorded_physical_key s (checked_logical_keys checked_key)) :
    ∃ s1 : FlKeyEmbedderResponder,
      synchronize_pressed_states_checked_key state timestamp modifier_bit checked_key s =
        LoopStep.next s1 ∧
      s1.engine = s.engine.map (fun received => received ++
        expected_modifier_events s state timestamp (modifier_bit, checked_key)) ∧
      pressing_records_well_formed s1 ∧
      (state &&& modifier_bit = 0 →
        ∀ l ∈ checked_logical_keys checked_key, ¬ pressed_by_record s1 l) ∧
      (∀ entry ∈ s1.pressing_records,
        entry ∈ s.pressing_records ∨ entry.2 ∈ checked_logical_keys checked_key) ∧
      (∀ l, l ≠ 0 → l ∉ checked_logical_keys checked_key →
        (pressed_by_record s1 l ↔ pressed_by_record s l)) ∧
      (∀ l, l ∉ checked_logical_keys checked_key →
        lookup_hash_table s1.mapping_records l = lookup_hash_table s.mapping_records l) := by
  have h_keys := checked_logical_keys_nonzero checked_key h_nonzero
  by_cases h_bit : state &&& modifier_bit = 0
  · obtain ⟨s', h1, h2, h3, h4, _⟩ := synchronize_pressed_states_logical_keys_release timestamp
      (checked_logical_keys checked_key) false s h_nodup h_wf h_keys
      (fun l hl p hp => h_held (p, l) hp hl)
    have hstep : synchronize_pressed_states_checked_key state timestamp modifier_bit checked_key s
        = LoopStep.next s' := by
      unfold synchronize_pressed_states_checked_key
      simp only [h_bit, bne_self_eq_false]
      rw [h1]
      simp
    have hnot : ∀ l ∈ checked_logical_keys checked_key, ¬ pressed_by_record s' l := by
      intro l hl hp
      have hp' : l ∈ s'.pressing_records.map Prod.snd := hp
      rw [h3] at hp'
      obtain ⟨kv, hkv, hkv2⟩ := List.mem_map.1 hp'
      have := (List.mem_filter.1 hkv).2
      simp only [decide_eq_true_eq] at this
      exact this (hkv2 ▸ hl)
    refine ⟨s', hstep, ?_, ?_, fun _ => hnot, ?_, ?_, ?_⟩
    · rw [h2]
      simp [expected_modifier_events, h_bit]
    · unfold pressing_records_well_formed
      rw [h3]
      exact h_wf.sublist ((List.filter_sublist _).map _)
    · intro entry hentry
      rw [h3] at hentry
      exact Or.inl (List.mem_filter.1 hentry).1
    · intro l _ hl
      unfold pressed_by_record
      rw [h3]
      simp only [List.mem_map, List.mem_filter, decide_eq_true_eq]
      constructor
      · rintro ⟨a, ⟨ha, _⟩, hal⟩
        exact ⟨a, ha, hal⟩
      · rintro ⟨a, ha, hal⟩
        exact ⟨a, ⟨ha, by rw [hal]; exact hl⟩, hal⟩
    · intro l _
      rw [h4]
  · have hb' : ((state &&& modifier_bit) != 0) = true := by simp [h_bit]
    have hloop := synchronize_pressed_states_logical_keys_state_on_nonzero timestamp
      (checked_logical_keys checked_key) false s h_keys
    by_cases hany : ∃ l ∈ checked_logical_keys checked_key, pressed_by_record s l
    · refine ⟨s, ?_, ?_, h_wf, fun h => absurd h h_bit, fun e he => Or.inl he,
        fun _ _ _ => Iff.rfl, fun _ _ => rfl⟩
      · unfold synchronize_pressed_states_checked_key
        simp only [hb']
        rw [hloop]
        simp [hany]
      · have : ¬ ∀ l ∈ checked_logical_keys checked_key, ¬ pressed_by_record s l := by
          intro h
          obtain ⟨l, hl, hp⟩ := hany
          exact h l hl hp
        unfold expected_modifier_events
        rw [if_neg h_bit, if_neg this]
        cases s.engine <;> simp
    · obtain ⟨f1, f2, f3, f4⟩ := synchronize_pressed_states_press_frame s checked_key timestamp
        h_nonzero h_wf
      have hprim := primary_mem_checked_logical_keys checked_key
      refine ⟨synchronize_pressed_states_press s checked_key timestamp, ?_, ?_, f1,
        fun h => absurd h h_bit, ?_, ?_, ?_⟩
      · unfold synchronize_pressed_states_checked_key
        simp only [hb']
        rw [hloop]
        simp [hany]
      · have : ∀ l ∈ checked_logical_keys checked_key, ¬ pressed_by_record s l := by
          intro l hl hp
          exact hany ⟨l, hl, hp⟩
        rw [synchronize_pressed_states_press_engine]
        unfold expected_modifier_events
        rw [if_neg h_bit, if_pos this]
      · intro entry hentry
        rcases f2 entry hentry with h | h
        · exact Or.inl h
        · exact Or.inr (h ▸ hprim)
      · intro l hl0 hl
        exact f3 l hl0 (fun e => hl (e ▸ hprim))
      · intro l hl
        exact f4 l (fun e => hl (e ▸ hprim))

theorem expected_modifier_events_congr (s s1 : FlKeyEmbedderResponder) (state timestamp : Nat)
    (entry : Nat × FlKeyEmbedderCheckedKey)
    (h_pressed : ∀ l ∈ checked_logical_keys entry.2,
      (pressed_by_record s1 l ↔ pressed_by_record s l))
    (h_mapping : ∀ l ∈ checked_logical_keys entry.2,
      lookup_hash_table s1.mapping_records l = lookup_hash_table s.mapping_records l) :
    expected_modifier_events s1 state timestamp entry =
      expected_modifier_events s state timestamp entry := by
  unfold expected_modifier_events
  have hf : (checked_logical_keys entry.2).filter (fun l => decide (pressed_by_record s1 l)) =
      (checked_logical_keys entry.2).filter (fun l => decide (pressed_by_record s l)) := by
    apply List.filter_congr
    intro l hl
    simp [h_pressed l hl]
  have hall : (∀ l ∈ checked_logical_keys entry.2, ¬ pressed_by_record s1 l) ↔
      (∀ l ∈ checked_logical_keys entry.2, ¬ pressed_by_record s l) := by
    constructor
    · intro h l hl hp; exact h l hl ((h_pressed l hl).2 hp)
    · intro h l hl hp; exact h l hl ((h_pressed l hl).1 hp)
  have hchosen : chosen_physical_key s1 entry.2 = chosen_physical_key s entry.2 := by
    unfold chosen_physical_key
    simp only [h_mapping _ (primary_mem_checked_logical_keys entry.2)]
  rw [hf, hchosen]
  simp only [hall]
  split
  · apply List.map_congr_left
    intro l hl
    rw [h_mapping l (List.mem_filter.1 hl).1]
  · rfl

theorem flatMap_congr_of_mem {α β : Type} (l : List α) (f g : α → List β)
    (h : ∀ a ∈ l, f a = g a) : l.flatMap f = l.flatMap g := by
  induction l with
  | nil => rfl
  | cons a rest ih =>
    simp only [List.flatMap_cons]
    rw [h a (List.mem_cons_self _ _), ih (fun b hb => h b (List.mem_cons_of_mem _ hb))]

theorem synchronize_pressed_states_entries_tidy (state timestamp : Nat)
    (entries : List (Nat × FlKeyEmbedderCheckedKey)) (s : FlKeyEmbedderResponder)
    (h_distinct : modifier_families_distinct entries)
    (h_wf : pressing_records_well_formed s)
    (h_held : ∀ entry ∈ entries,
      held_by_recorded_physical_key s (checked_logical_keys entry.2)) :
    (synchronize_pressed_states_entries state timestamp entries s).engine =
      s.engine.map (fun received => received ++
        entries.flatMap (expected_modifier_events s state timestamp)) ∧
    (∀ entry ∈ entries, state &&& entry.1 = 0 →
      ∀ l ∈ checked_logical_keys entry.2,
        ¬ pressed_by_record (synchronize_pressed_states_entries state timestamp entries s) l) ∧
    (∀ l, l ≠ 0 → (∀ entry ∈ entries, l ∉ checked_logical_keys entry.2) →
      (pressed_by_record (synchronize_pressed_states_entries state timestamp entries s) l ↔
        pressed_by_record s l)) := by
  induction entries generalizing s with
  | nil =>
    refine ⟨?_, by simp, fun _ _ _ => Iff.rfl⟩
    simp only [synchronize_pressed_states_entries, List.flatMap_nil, List.append_nil]
    cases s.engine <;> rfl
  | cons entry rest ih =>
    obtain ⟨modifier_bit, checked_key⟩ := entry
    obtain ⟨h_keys, h_pair⟩ := h_distinct
    obtain ⟨h_disj, h_pair_rest⟩ := List.pairwise_cons.1 h_pair
    obtain ⟨h_nonzero, h_nodup⟩ := h_keys _ (List.mem_cons_self _ _)
    obtain ⟨s1, hstep, he1, hwf1, hclear1, hent1, hpress1, hmap1⟩ :=
      synchronize_pressed_states_checked_key_tidy state timestamp modifier_bit checked_key s
        h_nonzero h_nodup h_wf (h_held _ (List.mem_cons_self _ _))
    have h_distinct_rest : modifier_families_distinct rest :=
      ⟨fun e he => h_keys e (List.mem_cons_of_mem _ he), h_pair_rest⟩
    have h_not_mem : ∀ e ∈ rest, ∀ l ∈ checked_logical_keys e.2,
        l ∉ checked_logical_keys checked_key := by
      intro e he l hl hl'
      exact h_disj e he l hl' hl
    have h_held1 : ∀ e ∈ rest,
        held_by_recorded_physical_key s1 (checked_logical_keys e.2) := by
      intro e he kv hkv hkv2
      have hnot := h_not_mem e he kv.2 hkv2
      rcases hent1 kv hkv with h | h
      · rw [hmap1 kv.2 hnot]
        exact h_held e (List.mem_cons_of_mem _ he) kv h hkv2
      · exact absurd h hnot
    obtain ⟨ih1, ih2, ih3⟩ := ih s1 h_distinct_rest hwf1 h_held1
    have hloop : synchronize_pressed_states_entries state timestamp
        ((modifier_bit, checked_key) :: rest) s =
        synchronize_pressed_states_entries state timestamp rest s1 := by
      rw [synchronize_pressed_states_entries, hstep]
    rw [hloop]
    have h_expected : rest.flatMap (expected_modifier_events s1 state timestamp) =
        rest.flatMap (expected_modifier_events s state timestamp) := by
      have : ∀ e ∈ rest, expected_modifier_events s1 state timestamp e =
          expected_modifier_events s state timestamp e := by
        intro e he
        have hk := checked_logical_keys_nonzero e.2 (h_keys e (List.mem_cons_of_mem _ he)).1
        exact expected_modifier_events_congr s s1 state timestamp e
          (fun l hl => hpress1 l (hk l hl) (h_not_mem e he l hl))
          (fun l hl => hmap1 l (h_not_mem e he l hl))
      exact flatMap_congr_of_mem _ _ _ this
    refine ⟨?_, ?_, ?_⟩
    · rw [ih1, he1, h_expected]
      simp only [List.flatMap_cons]
      cases s.engine <;> simp
    · intro e he h_bit l hl
      rcases List.mem_cons.1 he with he | he
      · subst he
        have hl0 := checked_logical_keys_nonzero checked_key h_nonzero l hl
        rw [ih3 l hl0 (fun e' he' hl' => h_disj e' he' l hl hl')]
        exact hclear1 h_bit l hl
      · exact ih2 e he h_bit l hl
    · intro l hl0 hl
      rw [ih3 l hl0 (fun e he => hl e (List.mem_cons_of_mem _ he))]
      exact hpress1 l hl0 (hl _ (List.mem_cons_self _ _))

/-- C10 (amended): for every responder state with well-formed pressing records
in which every pressed logical key of a registered modifier family is held
only by the non-zero physical key that the mapping record lists for it (the
families having distinct logical keys with non-zero primary keys), the events
`synchronize_pressed_states` sends are, family by family, the events of the
specification; for every family whose bit is clear in the bitmask these are
exactly one up event for each of the family's logical keys that is a value of
the pressing records, on the physical key of the mapping record, and after the
call none of the family's logical keys, primary or secondary, is a value of
the pressing records. -/
theorem synchronize_pressed_states_releases_families (cfg : KeyMapping)
    (s : FlKeyEmbedderResponder) (state timestamp : Nat)
    (h_distinct : modifier_families_distinct cfg.modifier_bit_to_checked_keys)
    (h_wf : pressing_records_well_formed s)
    (h_held : ∀ entry ∈ cfg.modifier_bit_to_checked_keys,
      held_by_recorded_physical_key s (checked_logical_keys entry.2)) :
    (synchronize_pressed_states cfg s state timestamp).engine =
      s.engine.map (fun received => received ++
        cfg.modifier_bit_to_checked_keys.flatMap (expected_modifier_events s state timestamp)) ∧
    ∀ entry ∈ cfg.modifier_bit_to_checked_keys, state &&& entry.1 = 0 →
      expected_modifier_events s state timestamp entry =
        ((checked_logical_keys entry.2).filter (fun l => decide (pressed_by_record s l))).map
          (fun l => ⟨timestamp, kFlutterKeyEventTypeUp,
            lookup_hash_table s.mapping_records l, l, none, true⟩) ∧
      ∀ l ∈ checked_logical_keys entry.2,
        ¬ pressed_by_record (synchronize_pressed_states cfg s state timestamp) l := by
  obtain ⟨h1, h2, _⟩ := synchronize_pressed_states_entries_tidy state timestamp
    cfg.modifier_bit_to_checked_keys s h_distinct h_wf h_held
  refine ⟨h1, ?_⟩
  intro entry h_entry h_bit
  refine ⟨?_, h2 entry h_entry h_bit⟩
  unfold expected_modifier_events
  rw [if_pos h_bit]

/-- C10 (witness): with the left Shift key pressed on the fresh responder and
the bitmask 0, the left Shift logical key is not a value of the pressing
records after the call. -/
theorem synchronize_pressed_states_releases_families_witness :
    ¬ pressed_by_record
      (synchronize_pressed_states key_mapping
        (fl_key_embedder_responder_handle_event key_mapping
          (fl_key_embedder_responder_new (some [])) ⟨0, true, 0x32, 0xffe1, 0⟩ 0).1 0 0)
      0x200000102 :=
  ((synchronize_pressed_states_releases_families key_mapping
    (fl_key_embedder_responder_handle_event key_mapping (fl_key_embedder_responder_new (some []))
      ⟨0, true, 0x32, 0xffe1, 0⟩ 0).1 0 0 (by decide) (by decide) (by decide)).2
    (1, ⟨0x700e1, 0x200000102, 0x200000103, false⟩) (by decide) (by decide)).2
    0x200000102 (by decide)

/-! ## The stages of a lock key -/

/-- C11: `find_stage_by_record` is the stage encoding of the specification,
(released, disabled) at 0, (pressed, enabled) at 1, (released, enabled) at 2 and
(pressed, disabled) at 3; it is one-to-one on the four combinations and reaches
each of the stages 0, 1, 2, 3; the key is pressed exactly when the stage is odd
and the lock is enabled exactly when the stage is 1 or 2. -/
theorem find_stage_by_record_encoding :
    find_stage_by_record false false = 0 ∧ find_stage_by_record true true = 1 ∧
    find_stage_by_record false true = 2 ∧ find_stage_by_record true false = 3 ∧
    (∀ is_down is_enabled is_down2 is_enabled2 : Bool,
      find_stage_by_record is_down is_enabled = find_stage_by_record is_down2 is_enabled2 →
        is_down = is_down2 ∧ is_enabled = is_enabled2) ∧
    (∀ stage : Nat, stage < 4 ↔
      ∃ is_down is_enabled : Bool, find_stage_by_record is_down is_enabled = stage) ∧
    (∀ is_down is_enabled : Bool,
      (is_down = true ↔ find_stage_by_record is_down is_enabled % 2 = 1) ∧
      (is_enabled = true ↔
        find_stage_by_record is_down is_enabled = 1 ∨
          find_stage_by_record is_down is_enabled = 2)) := by
  refine ⟨rfl, rfl, rfl, rfl, by decide, ?_, by decide⟩
  intro stage
  constructor
  · intro h
    interval_cases stage
    · exact ⟨false, false, rfl⟩
    · exact ⟨true, true, rfl⟩
    · exact ⟨false, true, rfl⟩
    · exact ⟨true, false, rfl⟩
  · rintro ⟨is_down, is_enabled, rfl⟩
    revert is_down is_enabled
    decide

/-- C12: for every recorded stage in 0..3 and all flags,
`find_stage_by_self_event` is 0 when the bit is off under the normal logic and
2 when the bit is off under the reversed logic; with the bit on it is 2 for a
press under the normal logic and 0 for a press under the reversed logic, and
the recorded stage for a release; the result is one of the stages 0..3. -/
theorem find_stage_by_self_event_cases (stage_by_record : Nat)
    (is_down_event is_state_on reverse_state_logic : Bool) (h : stage_by_record < 4) :
    find_stage_by_self_event stage_by_record is_down_event is_state_on reverse_state_logic =
      (if is_state_on = false then (if reverse_state_logic = false then 0 else 2)
       else if is_down_event = true then (if reverse_state_logic = false then 2 else 0)
       else stage_by_record) ∧
    find_stage_by_self_event stage_by_record is_down_event is_state_on reverse_state_logic < 4 := by
  unfold find_stage_by_self_event
  cases is_down_event <;> cases is_state_on <;> cases reverse_state_logic <;> simp [h]

/-- C12 (witness): a release with the bit on at the recorded stage 3 keeps the
stage 3. -/
theorem find_stage_by_self_event_cases_witness :
    find_stage_by_self_event 3 false true false = 3 ∧
      find_stage_by_self_event 3 false true false < 4 := by
  have h := find_stage_by_self_event_cases 3 false true false (by decide)
  exact ⟨h.1.trans (by decide), h.2⟩

/-- C13: for every recorded stage in 0..3, `find_stage_by_others_event` is 0
when the bit is off, 1 when the bit is on and the recorded stage is 0, and the
recorded stage otherwise; so the result is 0 exactly when the bit is off. -/
theorem find_stage_by_others_event_cases (stage_by_record : Nat) (is_state_on : Bool)
    (h : stage_by_record < 4) :
    find_stage_by_others_event stage_by_record is_state_on =
      (if is_state_on = false then 0 else if stage_by_record = 0 then 1 else stage_by_record) ∧
    (find_stage_by_others_event stage_by_record is_state_on = 0 ↔ is_state_on = false) := by
  unfold find_stage_by_others_event
  cases is_state_on <;> interval_cases stage_by_record <;> simp

/-- C13 (witness): with the bit on, the recorded stage 0 advances to stage 1. -/
theorem find_stage_by_others_event_cases_witness :
    find_stage_by_others_event 0 true = 1 ∧ find_stage_by_others_event 0 true ≠ 0 := by
  have h := find_stage_by_others_event_cases 0 true (by decide)
  exact ⟨h.1.trans (by decide), fun h0 => Bool.noConfusion (h.2.mp h0)⟩

/-- C14: for recorded and event stages in 0..3, the destination stage of
`synchronize_lock_states` is the least `d` no less than the recorded stage
with `d % 4` equal to the event stage; it is at most the recorded stage plus 3
and at most 6. -/
theorem destination_stage_least (stage_by_record stage_by_event : Nat)
    (h_record : stage_by_record < 4) (h_event : stage_by_event < 4) :
    stage_by_record ≤ destination_stage stage_by_record stage_by_event ∧
    destination_stage stage_by_record stage_by_event % 4 = stage_by_event ∧
    (∀ d, stage_by_record ≤ d → d % 4 = stage_by_event →
      destination_stage stage_by_record stage_by_event ≤ d) ∧
    destination_stage stage_by_record stage_by_event ≤ stage_by_record + 3 ∧
    destination_stage stage_by_record stage_by_event ≤ 6 := by
  unfold destination_stage kNumStages
  split
  · refine ⟨by omega, by omega, ?_, by omega, by omega⟩
    intro d h1 h2
    omega
  · refine ⟨by omega, by omega, ?_, by omega, by omega⟩
    intro d h1 h2
    omega

/-- C14 (witness): from the recorded stage 3 the event stage 1 is reached at
the destination stage 5. -/
theorem destination_stage_least_witness :
    destination_stage 3 1 = 5 ∧ 3 ≤ destination_stage 3 1 ∧
      destination_stage 3 1 ≤ 3 + 3 := by
  have h := destination_stage_least 3 1 (by decide) (by decide)
  exact ⟨by decide, h.1, h.2.2.2.1⟩

/-! ## The CapsLock state logic inference -/

/-- C17: when `update_caps_lock_state_logic_inferrence` runs for a press while
the inference is undecided, the inference becomes reversed exactly when the
CapsLock bit is set in the bitmask and the recorded stage is 0, or the bit is
clear and the recorded stage is 2, and normal in every other case; so a first
press with the bit set at the recorded stage 0 infers reversed, and a first
press with the bit clear at the recorded stage 0 infers normal. -/
theorem update_caps_lock_state_logic_inferrence_decides (s : FlKeyEmbedderResponder)
    (enabled_by_state : Bool) (stage_by_record : Nat)
    (h : s.caps_lock_state_logic_inferrence = STATE_LOGIC_INFERRENCE_UNDECIDED) :
    ((update_caps_lock_state_logic_inferrence s true enabled_by_state
        stage_by_record).caps_lock_state_logic_inferrence =
      if (enabled_by_state = true ∧ stage_by_record = 0) ∨
          (enabled_by_state = false ∧ stage_by_record = 2) then
        STATE_LOGIC_INFERRENCE_REVERSED
      else STATE_LOGIC_INFERRENCE_NORMAL) ∧
    (update_caps_lock_state_logic_inferrence s true true
        0).caps_lock_state_logic_inferrence = STATE_LOGIC_INFERRENCE_REVERSED ∧
    (update_caps_lock_state_logic_inferrence s true false
        0).caps_lock_state_logic_inferrence = STATE_LOGIC_INFERRENCE_NORMAL := by
  have key : ∀ (e : Bool) (st : Nat),
      (update_caps_lock_state_logic_inferrence s true e st).caps_lock_state_logic_inferrence =
        if (e = true ∧ st = 0) ∨ (e = false ∧ st = 2) then STATE_LOGIC_INFERRENCE_REVERSED
        else STATE_LOGIC_INFERRENCE_NORMAL := by
    intro e st
    unfold update_caps_lock_state_logic_inferrence find_stage_by_self_event
    cases e
    · by_cases h2 : st = 2 <;> simp [h, h2]
    · by_cases h0 : st = 0 <;> simp [h, h0]
  exact ⟨key _ _, (key true 0).trans (by simp), (key false 0).trans (by simp)⟩

/-- C17 (witness): on the fresh responder a press with the CapsLock bit clear
at the recorded stage 2 infers the reversed logic. -/
theorem update_caps_lock_state_logic_inferrence_decides_witness :
    (update_caps_lock_state_logic_inferrence (fl_key_embedder_responder_new (some [])) true false
      2).caps_lock_state_logic_inferrence = STATE_LOGIC_INFERRENCE_REVERSED :=
  (update_caps_lock_state_logic_inferrence_decides (fl_key_embedder_responder_new (some []))
    false 2 rfl).1.trans (by decide)

@[simp] theorem synchronize_lock_states_stage_inferrence (cfg : KeyMapping)
    (physical_key logical_key recorded_physical_key timestamp current_stage : Nat)
    (s : FlKeyEmbedderResponder) :
    (synchronize_lock_states_stage cfg physical_key logical_key recorded_physical_key timestamp
      current_stage s).caps_lock_state_logic_inferrence = s.caps_lock_state_logic_inferrence := by
  simp only [synchronize_lock_states_stage, synthesize_simple_event_inferrence,
    possibly_update_lock_bit_inferrence, update_pressing_state_inferrence,
    apply_ite FlKeyEmbedderResponder.caps_lock_state_logic_inferrence,
    update_mapping_record_inferrence, ite_self]

@[simp] theorem synchronize_lock_states_stages_inferrence (cfg : KeyMapping)
    (physical_key logical_key recorded_physical_key timestamp : Nat) (stages : List Nat)
    (s : FlKeyEmbedderResponder) :
    (synchronize_lock_states_stages cfg physical_key logical_key recorded_physical_key timestamp
      stages s).caps_lock_state_logic_inferrence = s.caps_lock_state_logic_inferrence := by
  induction stages generalizing s with
  | nil => rfl
  | cons current_stage rest ih =>
    unfold synchronize_lock_states_stages
    rw [ih, synchronize_lock_states_stage_inferrence]

@[simp] theorem synchronize_pressed_states_release_inferrence (s : FlKeyEmbedderResponder)
    (logical_key timestamp : Nat) :
    (synchronize_pressed_states_release s logical_key timestamp).caps_lock_state_logic_inferrence =
      s.caps_lock_state_logic_inferrence := by
  simp [synchronize_pressed_states_release]

@[simp] theorem synchronize_pressed_states_press_inferrence (s : FlKeyEmbedderResponder)
    (checked_key : FlKeyEmbedderCheckedKey) (timestamp : Nat) :
    (synchronize_pressed_states_press s checked_key timestamp).caps_lock_state_logic_inferrence =
      s.caps_lock_state_logic_inferrence := by
  simp only [synchronize_pressed_states_press, update_pressing_state_inferrence,
    synthesize_simple_event_inferrence,
    apply_ite FlKeyEmbedderResponder.caps_lock_state_logic_inferrence,
    update_mapping_record_inferrence, ite_self]

/-- The inference after `update_caps_lock_state_logic_inferrence` is the one
before, unless it was undecided and the event is a press, and then it is
decided. -/
theorem update_caps_lock_state_logic_inferrence_write_once (s : FlKeyEmbedderResponder)
    (is_down_event enabled_by_state : Bool) (stage_by_record : Nat) :
    (update_caps_lock_state_logic_inferrence s is_down_event enabled_by_state
        stage_by_record).caps_lock_state_logic_inferrence = s.caps_lock_state_logic_inferrence ∨
      (s.caps_lock_state_logic_inferrence = STATE_LOGIC_INFERRENCE_UNDECIDED ∧
        is_down_event = true ∧
        (update_caps_lock_state_logic_inferrence s is_down_event enabled_by_state
          stage_by_record).caps_lock_state_logic_inferrence ≠
            STATE_LOGIC_INFERRENCE_UNDECIDED) := by
  unfold update_caps_lock_state_logic_inferrence
  by_cases h : s.caps_lock_state_logic_inferrence = STATE_LOGIC_INFERRENCE_UNDECIDED
  · cases is_down_event
    · left; simp
    · right
      refine ⟨h, rfl, ?_⟩
      simp only [h, ne_eq, not_true_eq_false, if_false, Bool.not_true, Bool.false_eq_true]
      split <;> simp
  · left; simp [h]

theorem synchronize_pressed_states_logical_keys_inferrence (any_pressed_by_state : Bool)
    (timestamp : Nat) (keys : List Nat) (any_pressed_by_record : Bool)
    (s : FlKeyEmbedderResponder) :
    match synchronize_pressed_states_logical_keys any_pressed_by_state timestamp keys
        any_pressed_by_record s with
    | LoopStep.next (s1, _) =>
      s1.caps_lock_state_logic_inferrence = s.caps_lock_state_logic_inferrence
    | LoopStep.returned s1 =>
      s1.caps_lock_state_logic_inferrence = s.caps_lock_state_logic_inferrence := by
  induction keys generalizing any_pressed_by_record s with
  | nil => simp [synchronize_pressed_states_logical_keys]
  | cons logical_key rest ih =>
    unfold synchronize_pressed_states_logical_keys
    by_cases h0 : logical_key = 0
    · rw [if_pos h0]
      rfl
    · rw [if_neg h0]
      lift_lets
      extract_lets pressing_physical_key this_key any_pressed recorded_physical_key
      by_cases hp : (this_key && !any_pressed_by_state) = true
      · rw [if_pos hp]
        by_cases hr : recorded_physical_key = 0
        · rw [if_pos hr]
          rfl
        · rw [if_neg hr]
          have h := ih any_pressed (synchronize_pressed_states_release s logical_key timestamp)
          simpa using h
      · rw [if_neg hp]
        exact ih _ s

theorem synchronize_pressed_states_checked_key_inferrence (state timestamp modifier_bit : Nat)
    (checked_key : FlKeyEmbedderCheckedKey) (s : FlKeyEmbedderResponder) :
    (synchronize_pressed_states_checked_key state timestamp modifier_bit checked_key
      s).responder.caps_lock_state_logic_inferrence = s.caps_lock_state_logic_inferrence := by
  unfold synchronize_pressed_states_checked_key
  have h := synchronize_pressed_states_logical_keys_inferrence ((state &&& modifier_bit) != 0)
    timestamp (checked_logical_keys checked_key) false s
  simp only []
  cases hk : synchronize_pressed_states_logical_keys ((state &&& modifier_bit) != 0) timestamp
      (checked_logical_keys checked_key) false s with
  | returned s1 =>
    rw [hk] at h
    exact h
  | next r =>
    obtain ⟨s1, b⟩ := r
    rw [hk] at h
    simp only []
    split
    · simpa [LoopStep.responder] using h
    · exact h

theorem synchronize_pressed_states_entries_inferrence (state timestamp : Nat)
    (entries : List (Nat × FlKeyEmbedderCheckedKey)) (s : FlKeyEmbedderResponder) :
    (synchronize_pressed_states_entries state timestamp entries
      s).caps_lock_state_logic_inferrence = s.caps_lock_state_logic_inferrence := by
  induction entries generalizing s with
  | nil => rfl
  | cons entry rest ih =>
    obtain ⟨modifier_bit, checked_key⟩ := entry
    have h := synchronize_pressed_states_checked_key_inferrence state timestamp modifier_bit
      checked_key s
    unfold synchronize_pressed_states_entries
    cases hk : synchronize_pressed_states_checked_key state timestamp modifier_bit checked_key
        s with
    | returned s1 =>
      rw [hk] at h
      exact h
    | next s1 =>
      rw [hk] at h
      exact (ih s1).trans h

@[simp] theorem synchronize_pressed_states_inferrence (cfg : KeyMapping)
    (s : FlKeyEmbedderResponder) (state timestamp : Nat) :
    (synchronize_pressed_states cfg s state timestamp).caps_lock_state_logic_inferrence =
      s.caps_lock_state_logic_inferrence :=
  synchronize_pressed_states_entries_inferrence state timestamp _ s

/-- The inference after the loop body of `synchronize_lock_states` for one lock
key is the one before, unless it was undecided, the event is a press and the
lock key is the CapsLock key of the event, and then it is decided. -/
theorem synchronize_lock_states_checked_key_inferrence (cfg : KeyMapping)
    (state timestamp : Nat) (is_down : Bool) (event_logical_key modifier_bit : Nat)
    (checked_key : FlKeyEmbedderCheckedKey) (s : FlKeyEmbedderResponder) :
    (synchronize_lock_states_checked_key cfg state timestamp is_down event_logical_key
        modifier_bit checked_key s).responder.caps_lock_state_logic_inferrence =
      s.caps_lock_state_logic_inferrence ∨
    (s.caps_lock_state_logic_inferrence = STATE_LOGIC_INFERRENCE_UNDECIDED ∧ is_down = true ∧
      checked_key.is_caps_lock = true ∧ checked_key.primary_logical_key = event_logical_key ∧
      (synchronize_lock_states_checked_key cfg state timestamp is_down event_logical_key
        modifier_bit checked_key s).responder.caps_lock_state_logic_inferrence ≠
          STATE_LOGIC_INFERRENCE_UNDECIDED) := by
  unfold synchronize_lock_states_checked_key
  lift_lets
  extract_lets logical_key recorded physical pressed stage_by_record enabled this_key s1 reverse s2
    stage_by_event destination
  have h1 : s1.caps_lock_state_logic_inferrence = s.caps_lock_state_logic_inferrence ∨
      (s.caps_lock_state_logic_inferrence = STATE_LOGIC_INFERRENCE_UNDECIDED ∧ is_down = true ∧
        checked_key.is_caps_lock = true ∧ checked_key.primary_logical_key = event_logical_key ∧
        s1.caps_lock_state_logic_inferrence ≠ STATE_LOGIC_INFERRENCE_UNDECIDED) := by
    by_cases hc : (this_key && checked_key.is_caps_lock) = true
    · have hs1 : s1 = update_caps_lock_state_logic_inferrence s is_down enabled
          stage_by_record := if_pos hc
      rw [hs1]
      simp only [Bool.and_eq_true, this_key, logical_key, beq_iff_eq] at hc
      rcases update_caps_lock_state_logic_inferrence_write_once s is_down enabled
        stage_by_record with h | ⟨h, hd, hn⟩
      · exact Or.inl h
      · exact Or.inr ⟨h, hd, hc.2, hc.1, hn⟩
    · have hs1 : s1 = s := if_neg hc
      rw [hs1]
      exact Or.inl rfl
  have h2 : s2.caps_lock_state_logic_inferrence = s1.caps_lock_state_logic_inferrence := by
    show (if _ then _ else _ : FlKeyEmbedderResponder).caps_lock_state_logic_inferrence = _
    split <;> simp
  split
  · exact Or.inl rfl
  · split
    · simpa [LoopStep.responder] using h1
    · split
      · simpa [LoopStep.responder, h2] using h1
      · simpa [LoopStep.responder, h2] using h1

theorem synchronize_lock_states_entries_inferrence (cfg : KeyMapping) (state timestamp : Nat)
    (is_down : Bool) (event_logical_key : Nat) (entries : List (Nat × FlKeyEmbedderCheckedKey))
    (s : FlKeyEmbedderResponder) :
    (synchronize_lock_states_entries cfg state timestamp is_down event_logical_key entries
        s).caps_lock_state_logic_inferrence = s.caps_lock_state_logic_inferrence ∨
    (s.caps_lock_state_logic_inferrence = STATE_LOGIC_INFERRENCE_UNDECIDED ∧ is_down = true ∧
      (∃ entry ∈ entries,
        entry.2.is_caps_lock = true ∧ entry.2.primary_logical_key = event_logical_key) ∧
      (synchronize_lock_states_entries cfg state timestamp is_down event_logical_key entries
        s).caps_lock_state_logic_inferrence ≠ STATE_LOGIC_INFERRENCE_UNDECIDED) := by
  induction entries generalizing s with
  | nil => exact Or.inl rfl
  | cons entry rest ih =>
    obtain ⟨modifier_bit, checked_key⟩ := entry
    have h := synchronize_lock_states_checked_key_inferrence cfg state timestamp is_down
      event_logical_key modifier_bit checked_key s
    unfold synchronize_lock_states_entries
    cases hk : synchronize_lock_states_checked_key cfg state timestamp is_down
        event_logical_key modifier_bit checked_key s with
    | returned s1 =>
      rw [hk] at h
      simp only [LoopStep.responder] at h
      rcases h with h | ⟨h1, h2, h3, h4, h5⟩
      · exact Or.inl h
      · exact Or.inr ⟨h1, h2, ⟨_, List.mem_cons_self _ _, h3, h4⟩, h5⟩
    | next s1 =>
      rw [hk] at h
      simp only [LoopStep.responder] at h
      simp only []
      rcases h with h | ⟨h1, h2, h3, h4, h5⟩
      · rcases ih s1 with i | ⟨i1, i2, ⟨e, he, i3⟩, i4⟩
        · exact Or.inl (i.trans h)
        · exact Or.inr ⟨h ▸ i1, i2, ⟨e, List.mem_cons_of_mem _ he, i3⟩, i4⟩
      · rcases ih s1 with i | ⟨i1, _⟩
        · exact Or.inr ⟨h1, h2, ⟨_, List.mem_cons_self _ _, h3, h4⟩, i ▸ h5⟩
        · exact absurd i1 h5

theorem handle_event_impl_inferrence (cfg : KeyMapping) (s : FlKeyEmbedderResponder)
    (event : FlKeyEvent) (specified_logical_key : Nat) :
    (fl_key_embedder_responder_handle_event_impl cfg s event
        specified_logical_key).1.caps_lock_state_logic_inferrence =
      (synchronize_lock_states cfg s event.state (event_to_timestamp event) event.is_press
        (resolved_logical_key cfg event specified_logical_key)).caps_lock_state_logic_inferrence := by
  have hs : (synchronize_states cfg s event specified_logical_key).caps_lock_state_logic_inferrence =
      (synchronize_lock_states cfg s event.state (event_to_timestamp event) event.is_press
        (resolved_logical_key cfg event specified_logical_key)).caps_lock_state_logic_inferrence := by
    unfold synchronize_states
    exact synchronize_pressed_states_inferrence _ _ _ _
  rw [← hs]
  cases hp : event.is_press
  · by_cases hr : lookup_hash_table
        (synchronize_states cfg s event specified_logical_key).pressing_records
        (resolved_physical_key cfg event specified_logical_key) = 0
    · rw [handle_event_impl_stale_release _ _ _ _ hp hr]
    · rw [handle_event_impl_release _ _ _ _ hp hr]
      simp
  · rw [handle_event_impl_press _ _ _ _ hp]
    simp only [fl_engine_send_key_event_inferrence, update_mapping_record_inferrence,
      possibly_update_lock_bit_inferrence]
    split <;> simp

theorem handle_event_inferrence (cfg : KeyMapping) (s : FlKeyEmbedderResponder)
    (event : FlKeyEvent) (specified_logical_key : Nat) :
    (fl_key_embedder_responder_handle_event cfg s event
        specified_logical_key).1.caps_lock_state_logic_inferrence =
      (synchronize_lock_states cfg { s with sent_any_events := false } event.state
        (event_to_timestamp event) event.is_press
        (resolved_logical_key cfg event specified_logical_key)).caps_lock_state_logic_inferrence := by
  unfold fl_key_embedder_responder_handle_event
  simp only []
  split
  · simp only [fl_engine_send_key_event_inferrence]
    exact handle_event_impl_inferrence _ _ _ _
  · exact handle_event_impl_inferrence _ _ _ _

/-- The inference after a call is the one before, unless it was undecided and
the call handles a press of the CapsLock key, and then it is decided. -/
theorem call_inferrence (cfg : KeyMapping) (s : FlKeyEmbedderResponder) (c : Call) :
    (call cfg s c).caps_lock_state_logic_inferrence = s.caps_lock_state_logic_inferrence ∨
    (s.caps_lock_state_logic_inferrence = STATE_LOGIC_INFERRENCE_UNDECIDED ∧
      c.is_caps_lock_press cfg ∧
      (call cfg s c).caps_lock_state_logic_inferrence ≠ STATE_LOGIC_INFERRENCE_UNDECIDED) := by
  cases c with
  | handle_event event specified_logical_key =>
    unfold call
    simp only []
    rw [handle_event_inferrence]
    rcases synchronize_lock_states_entries_inferrence cfg event.state (event_to_timestamp event)
      event.is_press (resolved_logical_key cfg event specified_logical_key)
      cfg.lock_bit_to_checked_keys { s with sent_any_events := false } with h | ⟨h1, h2, h3, h4⟩
    · exact Or.inl h
    · exact Or.inr ⟨h1, ⟨h2, h3⟩, h4⟩
  | sync_modifiers_if_needed state event_time =>
    left
    unfold call fl_key_embedder_responder_sync_modifiers_if_needed
    exact synchronize_pressed_states_inferrence _ _ _ _

theorem calls_inferrence_of_decided (cfg : KeyMapping) (cs : List Call)
    (s : FlKeyEmbedderResponder)
    (h : s.caps_lock_state_logic_inferrence ≠ STATE_LOGIC_INFERRENCE_UNDECIDED) :
    (calls cfg s cs).caps_lock_state_logic_inferrence = s.caps_lock_state_logic_inferrence := by
  induction cs generalizing s with
  | nil => rfl
  | cons c rest ih =>
    have hc : (call cfg s c).caps_lock_state_logic_inferrence =
        s.caps_lock_state_logic_inferrence := by
      rcases call_inferrence cfg s c with h1 | ⟨h1, _⟩
      · exact h1
      · exact absurd h1 h
    show (calls cfg (call cfg s c) rest).caps_lock_state_logic_inferrence = _
    rw [ih (call cfg s c) (hc ▸ h), hc]

/-- C18: the CapsLock inference is undecided in the responder that
`fl_key_embedder_responder_new` creates; a call of `handle_event` or
`sync_modifiers_if_needed` that changes it started with the inference
undecided, handles a press event whose logical key is the CapsLock key, and
leaves it normal or reversed; and once the inference is normal or reversed it
is the same after every sequence of calls. -/
theorem caps_lock_state_logic_inferrence_irrevocable (cfg : KeyMapping)
    (engine : Option (List FlutterKeyEvent)) (s : FlKeyEmbedderResponder) (c : Call)
    (cs : List Call) :
    (fl_key_embedder_responder_new engine).caps_lock_state_logic_inferrence =
      STATE_LOGIC_INFERRENCE_UNDECIDED ∧
    ((call cfg s c).caps_lock_state_logic_inferrence ≠ s.caps_lock_state_logic_inferrence →
      s.caps_lock_state_logic_inferrence = STATE_LOGIC_INFERRENCE_UNDECIDED ∧
      c.is_caps_lock_press cfg ∧
      ((call cfg s c).caps_lock_state_logic_inferrence = STATE_LOGIC_INFERRENCE_NORMAL ∨
        (call cfg s c).caps_lock_state_logic_inferrence = STATE_LOGIC_INFERRENCE_REVERSED)) ∧
    (s.caps_lock_state_logic_inferrence ≠ STATE_LOGIC_INFERRENCE_UNDECIDED →
      (calls cfg s cs).caps_lock_state_logic_inferrence = s.caps_lock_state_logic_inferrence) := by
  refine ⟨rfl, ?_, calls_inferrence_of_decided cfg cs s⟩
  intro h
  rcases call_inferrence cfg s c with h1 | ⟨h1, h2, h3⟩
  · exact absurd h1 h
  · refine ⟨h1, h2, ?_⟩
    cases hi : (call cfg s c).caps_lock_state_logic_inferrence with
    | STATE_LOGIC_INFERRENCE_UNDECIDED => exact absurd hi h3
    | STATE_LOGIC_INFERRENCE_NORMAL => exact Or.inl rfl
    | STATE_LOGIC_INFERRENCE_REVERSED => exact Or.inr rfl

/-- C18 (witness): the press of the CapsLock key on the fresh responder changes
the inference, so it is decided as normal or reversed by a press of the
CapsLock key; and a later release of the key, a press with the CapsLock bit
set and a modifier synchronization leave it as it was decided. -/
theorem caps_lock_state_logic_inferrence_irrevocable_witness :
    ((call key_mapping (fl_key_embedder_responder_new (some []))
        (Call.handle_event ⟨0, true, 0x42, 0xffe5, 0⟩ 0)).caps_lock_state_logic_inferrence =
          STATE_LOGIC_INFERRENCE_NORMAL ∨
      (call key_mapping (fl_key_embedder_responder_new (some []))
        (Call.handle_event ⟨0, true, 0x42, 0xffe5, 0⟩ 0)).caps_lock_state_logic_inferrence =
          STATE_LOGIC_INFERRENCE_REVERSED) ∧
    (calls key_mapping
      (call key_mapping (fl_key_embedder_responder_new (some []))
        (Call.handle_event ⟨0, true, 0x42, 0xffe5, 0⟩ 0))
      [Call.handle_event ⟨1, false, 0x42, 0xffe5, 0⟩ 0,
        Call.handle_event ⟨2, true, 0x42, 0xffe5, 2⟩ 0,
        Call.sync_modifiers_if_needed 1 3]).caps_lock_state_logic_inferrence =
      (call key_mapping (fl_key_embedder_responder_new (some []))
        (Call.handle_event ⟨0, true, 0x42, 0xffe5, 0⟩ 0)).caps_lock_state_logic_inferrence :=
  ⟨((caps_lock_state_logic_inferrence_irrevocable key_mapping (some [])
      (fl_key_embedder_responder_new (some []))
      (Call.handle_event ⟨0, true, 0x42, 0xffe5, 0⟩ 0) []).2.1 (by decide)).2.2,
    (caps_lock_state_logic_inferrence_irrevocable key_mapping (some [])
      (call key_mapping (fl_key_embedder_responder_new (some []))
        (Call.handle_event ⟨0, true, 0x42, 0xffe5, 0⟩ 0))
      (Call.sync_modifiers_if_needed 0 0)
      [Call.handle_event ⟨1, false, 0x42, 0xffe5, 0⟩ 0,
        Call.handle_event ⟨2, true, 0x42, 0xffe5, 2⟩ 0,
        Call.sync_modifiers_if_needed 1 3]).2.2 (by decide)⟩

/-! ## Lock cycles of the CapsLock key -/

set_option maxRecDepth 20000 in
/-- C19: on the fresh responder the four raw events of the CapsLock key, a
press with the CapsLock bit clear, a release, a press and a release with the
bit set, no other bit being set, send exactly the four real events down, up,
down, up and no synthesized event; the recorded stage of the CapsLock key
after the successive events is 1, 2, 3, 0, and the pressing records and the
lock records end empty and 0 as they started. -/
theorem handle_event_normal_lock_cycle :
    let caps_lock : FlKeyEmbedderCheckedKey := ⟨0x70039, 0x100000104, 0, true⟩
    let s0 := fl_key_embedder_responder_new (some [])
    let s1 := (fl_key_embedder_responder_handle_event key_mapping s0
      ⟨1, true, 0x42, 0xffe5, 0⟩ 0).1
    let s2 := (fl_key_embedder_responder_handle_event key_mapping s1
      ⟨2, false, 0x42, 0xffe5, 2⟩ 0).1
    let s3 := (fl_key_embedder_responder_handle_event key_mapping s2
      ⟨3, true, 0x42, 0xffe5, 2⟩ 0).1
    let s4 := (fl_key_embedder_responder_handle_event key_mapping s3
      ⟨4, false, 0x42, 0xffe5, 2⟩ 0).1
    (2, caps_lock) ∈ key_mapping.lock_bit_to_checked_keys ∧
    s4.engine = some
      [⟨1000, kFlutterKeyEventTypeDown, 0x70039, 0x100000104, none, false⟩,
        ⟨2000, kFlutterKeyEventTypeUp, 0x70039, 0x100000104, none, false⟩,
        ⟨3000, kFlutterKeyEventTypeDown, 0x70039, 0x100000104, none, false⟩,
        ⟨4000, kFlutterKeyEventTypeUp, 0x70039, 0x100000104, none, false⟩] ∧
    lock_stage_by_record s0 2 caps_lock = 0 ∧
    lock_stage_by_record s1 2 caps_lock = 1 ∧
    lock_stage_by_record s2 2 caps_lock = 2 ∧
    lock_stage_by_record s3 2 caps_lock = 3 ∧
    lock_stage_by_record s4 2 caps_lock = 0 ∧
    s4.pressing_records = s0.pressing_records ∧ s4.pressing_records = [] ∧
    s4.lock_records = s0.lock_records ∧ s4.lock_records = 0 ∧
    s4.caps_lock_state_logic_inferrence = STATE_LOGIC_INFERRENCE_NORMAL ∧
    s4.g_critical = [] := by
  decide

set_option maxRecDepth 20000 in
/-- C20: on the fresh responder a first press of the CapsLock key with the
CapsLock bit set makes the inference reversed; the release with the bit set,
the press with the bit clear and the release with the bit set that follow send
only real events, down, up, down, up over the four events, and no synthesized
event, and the recorded stage of the CapsLock key after the successive events
is 1, 2, 3, 0. -/
theorem handle_event_reversed_lock_cycle :
    let caps_lock : FlKeyEmbedderCheckedKey := ⟨0x70039, 0x100000104, 0, true⟩
    let s0 := fl_key_embedder_responder_new (some [])
    let s1 := (fl_key_embedder_responder_handle_event key_mapping s0
      ⟨1, true, 0x42, 0xffe5, 2⟩ 0).1
    let s2 := (fl_key_embedder_responder_handle_event key_mapping s1
      ⟨2, false, 0x42, 0xffe5, 2⟩ 0).1
    let s3 := (fl_key_embedder_responder_handle_event key_mapping s2
      ⟨3, true, 0x42, 0xffe5, 0⟩ 0).1
    let s4 := (fl_key_embedder_responder_handle_event key_mapping s3
      ⟨4, false, 0x42, 0xffe5, 2⟩ 0).1
    (2, caps_lock) ∈ key_mapping.lock_bit_to_checked_keys ∧
    s1.caps_lock_state_logic_inferrence = STATE_LOGIC_INFERRENCE_REVERSED ∧
    s2.caps_lock_state_logic_inferrence = STATE_LOGIC_INFERRENCE_REVERSED ∧
    s3.caps_lock_state_logic_inferrence = STATE_LOGIC_INFERRENCE_REVERSED ∧
    s4.caps_lock_state_logic_inferrence = STATE_LOGIC_INFERRENCE_REVERSED ∧
    s4.engine = some
      [⟨1000, kFlutterKeyEventTypeDown, 0x70039, 0x100000104, none, false⟩,
        ⟨2000, kFlutterKeyEventTypeUp, 0x70039, 0x100000104, none, false⟩,
        ⟨3000, kFlutterKeyEventTypeDown, 0x70039, 0x100000104, none, false⟩,
        ⟨4000, kFlutterKeyEventTypeUp, 0x70039, 0x100000104, none, false⟩] ∧
    lock_stage_by_record s1 2 caps_lock = 1 ∧
    lock_stage_by_record s2 2 caps_lock = 2 ∧
    lock_stage_by_record s3 2 caps_lock = 3 ∧
    lock_stage_by_record s4 2 caps_lock = 0 ∧
    s4.pressing_records = [] ∧ s4.lock_records = 0 ∧ s4.g_critical = [] := by
  decide

/-! ## The loop of the lock synchronizer -/

theorem find_stage_by_record_lt (is_down is_enabled : Bool) :
    find_stage_by_record is_down is_enabled < 4 := by
  revert is_down is_enabled
  decide

theorem lock_stage_by_record_lt (s : FlKeyEmbedderResponder) (modifier_bit : Nat)
    (checked_key : FlKeyEmbedderCheckedKey) :
    lock_stage_by_record s modifier_bit checked_key < 4 :=
  find_stage_by_record_lt _ _

theorem find_stage_by_self_event_lt (stage_by_record : Nat)
    (is_down_event is_state_on reverse_state_logic : Bool) (h : stage_by_record < 4) :
    find_stage_by_self_event stage_by_record is_down_event is_state_on reverse_state_logic < 4 := by
  unfold find_stage_by_self_event
  cases is_down_event <;> cases is_state_on <;> cases reverse_state_logic <;> simp [h]

theorem find_stage_by_others_event_lt (stage_by_record : Nat) (is_state_on : Bool)
    (h : stage_by_record < 4) : find_stage_by_others_event stage_by_record is_state_on < 4 := by
  unfold find_stage_by_others_event
  cases is_state_on <;> interval_cases stage_by_record <;> simp

theorem le_destination_stage (stage_by_record stage_by_event : Nat) (h : stage_by_record < 4) :
    stage_by_record ≤ destination_stage stage_by_record stage_by_event := by
  unfold destination_stage kNumStages
  split <;> omega

theorem lock_stage_by_event_lt (s : FlKeyEmbedderResponder) (state : Nat) (is_down : Bool)
    (event_logical_key modifier_bit : Nat) (checked_key : FlKeyEmbedderCheckedKey) :
    lock_stage_by_event s state is_down event_logical_key modifier_bit checked_key < 4 := by
  unfold lock_stage_by_event
  simp only []
  split
  · exact find_stage_by_self_event_lt _ _ _ _ (lock_stage_by_record_lt _ _ _)
  · exact find_stage_by_others_event_lt _ _ (lock_stage_by_record_lt _ _ _)

theorem lock_stage_steps_eq (stage_by_record stage_by_event : Nat)
    (h_record : stage_by_record < 4) (h_event : stage_by_event < 4) :
    lock_stage_steps stage_by_record (destination_stage stage_by_record stage_by_event) =
      List.range' stage_by_record ((stage_by_event + 4 - stage_by_record) % 4) := by
  unfold lock_stage_steps destination_stage kNumStages
  congr 1
  split <;> omega

@[simp] theorem lock_inferrence_updated_engine (s : FlKeyEmbedderResponder) (state : Nat)
    (is_down : Bool) (event_logical_key modifier_bit : Nat)
    (checked_key : FlKeyEmbedderCheckedKey) :
    (lock_inferrence_updated s state is_down event_logical_key modifier_bit checked_key).engine =
      s.engine := by
  unfold lock_inferrence_updated
  split <;> simp

@[simp] theorem lock_inferrence_updated_pressing_records (s : FlKeyEmbedderResponder)
    (state : Nat) (is_down : Bool) (event_logical_key modifier_bit : Nat)
    (checked_key : FlKeyEmbedderCheckedKey) :
    (lock_inferrence_updated s state is_down event_logical_key modifier_bit
      checked_key).pressing_records = s.pressing_records := by
  unfold lock_inferrence_updated
  split <;> simp

@[simp] theorem lock_inferrence_updated_mapping_records (s : FlKeyEmbedderResponder)
    (state : Nat) (is_down : Bool) (event_logical_key modifier_bit : Nat)
    (checked_key : FlKeyEmbedderCheckedKey) :
    (lock_inferrence_updated s state is_down event_logical_key modifier_bit
      checked_key).mapping_records = s.mapping_records := by
  unfold lock_inferrence_updated
  split <;> simp

@[simp] theorem lock_inferrence_updated_lock_records (s : FlKeyEmbedderResponder)
    (state : Nat) (is_down : Bool) (event_logical_key modifier_bit : Nat)
    (checked_key : FlKeyEmbedderCheckedKey) :
    (lock_inferrence_updated s state is_down event_logical_key modifier_bit
      checked_key).lock_records = s.lock_records := by
  unfold lock_inferrence_updated
  split <;> simp

@[simp] theorem lock_inferrence_updated_g_critical (s : FlKeyEmbedderResponder)
    (state : Nat) (is_down : Bool) (event_logical_key modifier_bit : Nat)
    (checked_key : FlKeyEmbedderCheckedKey) :
    (lock_inferrence_updated s state is_down event_logical_key modifier_bit
      checked_key).g_critical = s.g_critical := by
  unfold lock_inferrence_updated
  split <;> simp

@[simp] theorem lock_inferrence_updated_stage_by_record (s : FlKeyEmbedderResponder)
    (state : Nat) (is_down : Bool) (event_logical_key modifier_bit : Nat)
    (checked_key : FlKeyEmbedderCheckedKey) :
    lock_stage_by_record
      (lock_inferrence_updated s state is_down event_logical_key modifier_bit checked_key)
      modifier_bit checked_key = lock_stage_by_record s modifier_bit checked_key := by
  simp [lock_stage_by_record, lock_pressed_logical_key]

/-- The loop body of `synchronize_lock_states` for one lock key, in terms of
the recorded stage and the stage by the event: it leaves the function when the
recorded physical key is pressed with another logical key or when the
inference is undecided for the CapsLock key of the event, and otherwise steps
through the stages from the recorded stage up to the destination stage. -/
theorem synchronize_lock_states_checked_key_eq (cfg : KeyMapping) (state timestamp : Nat)
    (is_down : Bool) (event_logical_key modifier_bit : Nat)
    (checked_key : FlKeyEmbedderCheckedKey) (s : FlKeyEmbedderResponder) :
    synchronize_lock_states_checked_key cfg state timestamp is_down event_logical_key
        modifier_bit checked_key s =
      if ¬ (lock_pressed_logical_key s checked_key = 0 ∨
          lock_pressed_logical_key s checked_key = checked_key.primary_logical_key) then
        LoopStep.returned (g_return_if_fail_warning s Assertion.lock_pressed_logical_key)
      else if checked_key.primary_logical_key = event_logical_key ∧
          checked_key.is_caps_lock = true ∧
          (lock_inferrence_updated s state is_down event_logical_key modifier_bit
            checked_key).caps_lock_state_logic_inferrence =
              STATE_LOGIC_INFERRENCE_UNDECIDED then
        LoopStep.returned
          (g_return_if_fail_warning
            (lock_inferrence_updated s state is_down event_logical_key modifier_bit checked_key)
            Assertion.lock_inferrence_decided)
      else
        LoopStep.next
          (synchronize_lock_states_stages cfg (chosen_physical_key s checked_key)
            checked_key.primary_logical_key
            (lookup_hash_table s.mapping_records checked_key.primary_logical_key) timestamp
            (List.range' (lock_stage_by_record s modifier_bit checked_key)
              ((lock_stage_by_event
                  (lock_inferrence_updated s state is_down event_logical_key modifier_bit
                    checked_key)
                  state is_down event_logical_key modifier_bit checked_key + 4 -
                lock_stage_by_record s modifier_bit checked_key) % 4))
            (lock_inferrence_updated s state is_down event_logical_key modifier_bit
              checked_key)) := by
  have h_event := lock_stage_by_event_lt
    (lock_inferrence_updated s state is_down event_logical_key modifier_bit checked_key)
    state is_down event_logical_key modifier_bit checked_key
  have h_record := lock_stage_by_record_lt s modifier_bit checked_key
  have h_steps := lock_stage_steps_eq _ _ h_record h_event
  have h_order := le_destination_stage (lock_stage_by_record s modifier_bit checked_key)
    (lock_stage_by_event
      (lock_inferrence_updated s state is_down event_logical_key modifier_bit checked_key)
      state is_down event_logical_key modifier_bit checked_key) h_record
  rw [← h_steps]
  have h_se : lock_stage_by_event
      (lock_inferrence_updated s state is_down event_logical_key modifier_bit checked_key)
      state is_down event_logical_key modifier_bit checked_key =
      if (checked_key.primary_logical_key == event_logical_key) = true then
        find_stage_by_self_event (lock_stage_by_record s modifier_bit checked_key) is_down
          ((state &&& modifier_bit) != 0)
          (checked_key.is_caps_lock &&
            (lock_inferrence_updated s state is_down event_logical_key modifier_bit
              checked_key).caps_lock_state_logic_inferrence == STATE_LOGIC_INFERRENCE_REVERSED)
      else
        find_stage_by_others_event (lock_stage_by_record s modifier_bit checked_key)
          ((state &&& modifier_bit) != 0) := by
    unfold lock_stage_by_event
    rw [lock_inferrence_updated_stage_by_record]
  rw [h_se] at h_order ⊢
  clear h_se h_steps h_event
  unfold synchronize_lock_states_checked_key
  lift_lets
  extract_lets logical_key recorded physical pressed stage_by_record enabled this_key s1 reverse s2
    stage_by_event destination
  have h_s2 : s2 = s1 := by
    show (if _ then _ else _) = _
    rw [if_neg]
    have : stage_by_record < 4 := h_record
    simp [this]
  by_cases h1 : pressed = 0 ∨ pressed = logical_key
  · have h1' : lock_pressed_logical_key s checked_key = 0 ∨
        lock_pressed_logical_key s checked_key = checked_key.primary_logical_key := h1
    rw [if_neg (not_not.mpr h1), if_neg (not_not.mpr h1')]
    by_cases h2 : (this_key && checked_key.is_caps_lock &&
        s1.caps_lock_state_logic_inferrence == STATE_LOGIC_INFERRENCE_UNDECIDED) = true
    · have h2' : checked_key.primary_logical_key = event_logical_key ∧
          checked_key.is_caps_lock = true ∧
          (lock_inferrence_updated s state is_down event_logical_key modifier_bit
            checked_key).caps_lock_state_logic_inferrence =
              STATE_LOGIC_INFERRENCE_UNDECIDED := by
        simp only [Bool.and_eq_true, beq_iff_eq, this_key, logical_key] at h2
        exact ⟨h2.1.1, h2.1.2, h2.2⟩
      rw [if_pos h2, if_pos h2']
      rfl
    · have h2' : ¬ (checked_key.primary_logical_key = event_logical_key ∧
          checked_key.is_caps_lock = true ∧
          (lock_inferrence_updated s state is_down event_logical_key modifier_bit
            checked_key).caps_lock_state_logic_inferrence =
              STATE_LOGIC_INFERRENCE_UNDECIDED) := by
        intro h3
        apply h2
        simp only [Bool.and_eq_true, beq_iff_eq, this_key, logical_key]
        exact ⟨⟨h3.1, h3.2.1⟩, h3.2.2⟩
      have h_order' : stage_by_record ≤ destination := h_order
      rw [if_neg h2, if_neg (not_not.mpr h_order'), h_s2, if_neg h2']
      rfl
  · have h1' : ¬ (lock_pressed_logical_key s checked_key = 0 ∨
        lock_pressed_logical_key s checked_key = checked_key.primary_logical_key) := h1
    rw [if_pos h1, if_pos h1']

theorem synchronize_lock_states_stages_engine (cfg : KeyMapping)
    (physical_key logical_key recorded_physical_key timestamp : Nat) (stages : List Nat)
    (s : FlKeyEmbedderResponder) :
    (synchronize_lock_states_stages cfg physical_key logical_key recorded_physical_key timestamp
      stages s).engine =
      s.engine.map (fun received => received ++
        stages.map (lock_stage_event physical_key logical_key timestamp)) := by
  induction stages generalizing s with
  | nil => simp [synchronize_lock_states_stages]
  | cons current_stage rest ih =>
    unfold synchronize_lock_states_stages
    rw [ih, synchronize_lock_states_stage_engine]
    cases s.engine with
    | none => rfl
    | some received => simp [lock_stage_event]

theorem update_pressing_state_g_critical_count (s : FlKeyEmbedderResponder) (p l : Nat)
    (a : Assertion) (h1 : a ≠ Assertion.pressing_key_not_down)
    (h2 : a ≠ Assertion.pressing_key_down) :
    (update_pressing_state s p l).g_critical.count a = s.g_critical.count a := by
  unfold update_pressing_state g_return_if_fail_warning
  split
  · split
    · rfl
    · simp [List.count_append, List.count_singleton, Ne.symm h1]
  · split
    · rfl
    · simp [List.count_append, List.count_singleton, Ne.symm h2]

theorem synchronize_lock_states_stage_g_critical_count (cfg : KeyMapping)
    (physical_key logical_key recorded_physical_key timestamp current_stage : Nat)
    (s : FlKeyEmbedderResponder) (a : Assertion) (h1 : a ≠ Assertion.pressing_key_not_down)
    (h2 : a ≠ Assertion.pressing_key_down) :
    (synchronize_lock_states_stage cfg physical_key logical_key recorded_physical_key timestamp
      current_stage s).g_critical.count a = s.g_critical.count a := by
  simp only [synchronize_lock_states_stage, synthesize_simple_event_g_critical,
    possibly_update_lock_bit_g_critical, update_pressing_state_g_critical_count _ _ _ _ h1 h2]
  split <;> simp

theorem synchronize_lock_states_stages_g_critical_count (cfg : KeyMapping)
    (physical_key logical_key recorded_physical_key timestamp : Nat) (stages : List Nat)
    (s : FlKeyEmbedderResponder) (a : Assertion) (h1 : a ≠ Assertion.pressing_key_not_down)
    (h2 : a ≠ Assertion.pressing_key_down) :
    (synchronize_lock_states_stages cfg physical_key logical_key recorded_physical_key timestamp
      stages s).g_critical.count a = s.g_critical.count a := by
  induction stages generalizing s with
  | nil => rfl
  | cons current_stage rest ih =>
    unfold synchronize_lock_states_stages
    rw [ih, synchronize_lock_states_stage_g_critical_count _ _ _ _ _ _ _ _ h1 h2]

/-- The events of the loop body of `synchronize_lock_states` for one lock key:
at most 3 events, all synthesized for the logical key of the lock key; and the
checks of the stage range and of the stage order do not fail. -/
theorem synchronize_lock_states_checked_key_bound (cfg : KeyMapping) (state timestamp : Nat)
    (is_down : Bool) (event_logical_key modifier_bit : Nat)
    (checked_key : FlKeyEmbedderCheckedKey) (s : FlKeyEmbedderResponder) :
    (∃ events : List FlutterKeyEvent,
      events.length ≤ 3 ∧
      (∀ e ∈ events, e.synthesized = true ∧ e.logical = checked_key.primary_logical_key) ∧
      (synchronize_lock_states_checked_key cfg state timestamp is_down event_logical_key
        modifier_bit checked_key s).responder.engine =
          s.engine.map (fun received => received ++ events)) ∧
    (synchronize_lock_states_checked_key cfg state timestamp is_down event_logical_key
      modifier_bit checked_key s).responder.g_critical.count Assertion.lock_stage_order =
        s.g_critical.count Assertion.lock_stage_order ∧
    (synchronize_lock_states_checked_key cfg state timestamp is_down event_logical_key
      modifier_bit checked_key s).responder.g_critical.count Assertion.lock_stage_in_range =
        s.g_critical.count Assertion.lock_stage_in_range := by
  rw [synchronize_lock_states_checked_key_eq]
  split
  · refine ⟨⟨[], by simp, by simp, ?_⟩, ?_, ?_⟩
    · simp [LoopStep.responder]
    · simp [LoopStep.responder, g_return_if_fail_warning, List.count_append, List.count_singleton]
    · simp [LoopStep.responder, g_return_if_fail_warning, List.count_append, List.count_singleton]
  · split
    · refine ⟨⟨[], by simp, by simp, ?_⟩, ?_, ?_⟩
      · simp [LoopStep.responder]
      · simp [LoopStep.responder, g_return_if_fail_warning, List.count_append,
          List.count_singleton]
      · simp [LoopStep.responder, g_return_if_fail_warning, List.count_append,
          List.count_singleton]
    · refine ⟨⟨(List.range' (lock_stage_by_record s modifier_bit checked_key)
          ((lock_stage_by_event
              (lock_inferrence_updated s state is_down event_logical_key modifier_bit
                checked_key)
              state is_down event_logical_key modifier_bit checked_key + 4 -
            lock_stage_by_record s modifier_bit checked_key) % 4)).map
          (lock_stage_event (chosen_physical_key s checked_key) checked_key.primary_logical_key
            timestamp), ?_, ?_, ?_⟩, ?_, ?_⟩
      · rw [List.length_map, List.length_range']
        omega
      · intro e he
        rw [List.mem_map] at he
        obtain ⟨st, _, rfl⟩ := he
        exact ⟨rfl, rfl⟩
      · simp only [LoopStep.responder]
        rw [synchronize_lock_states_stages_engine, lock_inferrence_updated_engine]
      · simp only [LoopStep.responder]
        rw [synchronize_lock_states_stages_g_critical_count _ _ _ _ _ _ _ _ (by decide)
          (by decide), lock_inferrence_updated_g_critical]
      · simp only [LoopStep.responder]
        rw [synchronize_lock_states_stages_g_critical_count _ _ _ _ _ _ _ _ (by decide)
          (by decide), lock_inferrence_updated_g_critical]

theorem flatten_map_nil {α β : Type} (l : List α) :
    (l.map (fun _ => ([] : List β))).flatten = [] := by
  induction l with
  | nil => rfl
  | cons a rest ih => simp

theorem synchronize_lock_states_entries_bound (cfg : KeyMapping) (state timestamp : Nat)
    (is_down : Bool) (event_logical_key : Nat) (entries : List (Nat × FlKeyEmbedderCheckedKey))
    (s : FlKeyEmbedderResponder) :
    (∃ events : List (List FlutterKeyEvent),
      List.Forall₂
        (fun (entry : Nat × FlKeyEmbedderCheckedKey) (key_events : List FlutterKeyEvent) =>
          key_events.length ≤ 3 ∧
            ∀ e ∈ key_events, e.synthesized = true ∧ e.logical = entry.2.primary_logical_key)
        entries events ∧
      (synchronize_lock_states_entries cfg state timestamp is_down event_logical_key entries
        s).engine = s.engine.map (fun received => received ++ events.flatten)) ∧
    (synchronize_lock_states_entries cfg state timestamp is_down event_logical_key entries
      s).g_critical.count Assertion.lock_stage_order =
        s.g_critical.count Assertion.lock_stage_order ∧
    (synchronize_lock_states_entries cfg state timestamp is_down event_logical_key entries
      s).g_critical.count Assertion.lock_stage_in_range =
        s.g_critical.count Assertion.lock_stage_in_range := by
  induction entries generalizing s with
  | nil => exact ⟨⟨[], List.Forall₂.nil, by simp [synchronize_lock_states_entries]⟩, rfl, rfl⟩
  | cons entry rest ih =>
    obtain ⟨modifier_bit, checked_key⟩ := entry
    obtain ⟨⟨events, h_length, h_events, h_engine⟩, h_order, h_range⟩ :=
      synchronize_lock_states_checked_key_bound cfg state timestamp is_down event_logical_key
        modifier_bit checked_key s
    unfold synchronize_lock_states_entries
    cases hk : synchronize_lock_states_checked_key cfg state timestamp is_down
        event_logical_key modifier_bit checked_key s with
    | returned s1 =>
      rw [hk] at h_engine h_order h_range
      simp only [LoopStep.responder] at h_engine h_order h_range
      refine ⟨⟨events :: rest.map (fun _ => []), ?_, ?_⟩, h_order, h_range⟩
      · refine List.Forall₂.cons ⟨h_length, h_events⟩ ?_
        rw [List.forall₂_map_right_iff, List.forall₂_same]
        intro x _
        exact ⟨by simp, by simp⟩
      · simp only [List.flatten_cons, flatten_map_nil, List.append_nil]
        exact h_engine
    | next s1 =>
      rw [hk] at h_engine h_order h_range
      simp only [LoopStep.responder] at h_engine h_order h_range
      obtain ⟨⟨rest_events, i_forall, i_engine⟩, i_order, i_range⟩ := ih s1
      refine ⟨⟨events :: rest_events, List.Forall₂.cons ⟨h_length, h_events⟩ i_forall, ?_⟩,
        i_order.trans h_order, i_range.trans h_range⟩
      simp only []
      rw [i_engine, h_engine]
      cases s.engine with
      | none => rfl
      | some received => simp

/-- C16: the `for` loop of `synchronize_lock_states` is never ended by its cap:
for every recorded stage that `find_stage_by_record` returns and every stage by
the event, the recorded stage is no more than the destination stage, the
destination stage is below 9, and the loop steps through the stages from the
recorded stage up to the destination stage, at most 3 of them; a call of
`synchronize_lock_states` sends, lock key by lock key, at most 3 events for
each lock key, all synthesized with the logical key of the lock key; and the
check of the stage order does not fail during the call. -/
theorem synchronize_lock_states_at_most_three_events (cfg : KeyMapping)
    (s : FlKeyEmbedderResponder) (state timestamp : Nat) (is_down : Bool)
    (event_logical_key : Nat) :
    (∀ pressed enabled this_key_is_event_key is_down_event enabled_by_state
        reverse_state_logic : Bool,
      let stage_by_record := find_stage_by_record pressed enabled
      let stage_by_event :=
        if this_key_is_event_key = true then
          find_stage_by_self_event stage_by_record is_down_event enabled_by_state
            reverse_state_logic
        else find_stage_by_others_event stage_by_record enabled_by_state
      let destination := destination_stage stage_by_record stage_by_event
      stage_by_record ≤ destination ∧ destination < 9 ∧
      lock_stage_steps stage_by_record destination =
        List.range' stage_by_record (destination - stage_by_record) ∧
      (lock_stage_steps stage_by_record destination).length ≤ 3) ∧
    (∃ events : List (List FlutterKeyEvent),
      List.Forall₂
        (fun (entry : Nat × FlKeyEmbedderCheckedKey) (key_events : List FlutterKeyEvent) =>
          key_events.length ≤ 3 ∧
            ∀ e ∈ key_events, e.synthesized = true ∧ e.logical = entry.2.primary_logical_key)
        cfg.lock_bit_to_checked_keys events ∧
      (synchronize_lock_states cfg s state timestamp is_down event_logical_key).engine =
        s.engine.map (fun received => received ++ events.flatten)) ∧
    (synchronize_lock_states cfg s state timestamp is_down
      event_logical_key).g_critical.count Assertion.lock_stage_order =
        s.g_critical.count Assertion.lock_stage_order := by
  refine ⟨by decide, ?_, ?_⟩
  · exact (synchronize_lock_states_entries_bound cfg state timestamp is_down event_logical_key
      cfg.lock_bit_to_checked_keys s).1
  · exact (synchronize_lock_states_entries_bound cfg state timestamp is_down event_logical_key
      cfg.lock_bit_to_checked_keys s).2.1

/-! ## C15: the stages that the lock synchronizer steps through -/

set_option maxRecDepth 20000 in
/-- C15 (the code at the failing inputs): on the fresh responder the release of
the CapsLock key with the NumLock bit set. The NumLock key is not pressed, its
recorded stage is 0 and its stage by the event is 1, so one down event is due
for it; but the check that the CapsLock inference is decided fails for the
CapsLock key, `synchronize_lock_states` returns before the NumLock key, no
event is synthesized and the recorded stage of the NumLock key stays 0. The
same bitmask on the release of the A key synthesizes the down event of the
NumLock key. And after the press of the A key with the CapsLock bit set, which
synthesizes the press of the CapsLock key and leaves the inference undecided,
the release of the CapsLock key with the bit clear: the recorded stage of the
CapsLock key is 1 and its stage by the event is 0, so three events are due, but
the same check fails and no event is synthesized. -/
theorem synchronize_lock_states_returns_on_undecided_inferrence :
    let caps_lock : FlKeyEmbedderCheckedKey := ⟨0x70039, 0x100000104, 0, true⟩
    let num_lock : FlKeyEmbedderCheckedKey := ⟨0x70053, 0x10000010a, 0, false⟩
    let s0 := fl_key_embedder_responder_new (some [])
    let s1 := synchronize_lock_states key_mapping s0 0x10 1000 false 0x100000104
    let s2 := (fl_key_embedder_responder_handle_event key_mapping s0
      ⟨1, false, 0x42, 0xffe5, 0x10⟩ 0).1
    let s3 := (fl_key_embedder_responder_handle_event key_mapping s0
      ⟨1, true, 0x26, 0x61, 2⟩ 0).1
    let s4 := synchronize_lock_states key_mapping s3 0 2000 false 0x100000104
    key_mapping.lock_bit_to_checked_keys = [(2, caps_lock), (0x10, num_lock)] ∧
    resolved_logical_key key_mapping ⟨1, false, 0x42, 0xffe5, 0x10⟩ 0 = 0x100000104 ∧
    (g_hash_table_lookup s0.pressing_records (chosen_physical_key s0 num_lock) = none ∧
      lock_stage_by_record s0 0x10 num_lock = 0 ∧
      lock_stage_by_event s0 0x10 false 0x100000104 0x10 num_lock = 1 ∧
      s1.engine = some [] ∧
      s1.g_critical = [Assertion.lock_inferrence_decided] ∧
      lock_stage_by_record s1 0x10 num_lock = 0 ∧
      s2.engine = some [kEmptyEvent] ∧
      s2.g_critical = [Assertion.lock_inferrence_decided] ∧
      lock_stage_by_record s2 0x10 num_lock = 0) ∧
    ((synchronize_lock_states key_mapping s0 0x10 1000 false 0x61).engine =
        some [⟨1000, kFlutterKeyEventTypeDown, 0x70053, 0x10000010a, none, true⟩] ∧
      lock_stage_by_record (synchronize_lock_states key_mapping s0 0x10 1000 false 0x61) 0x10
        num_lock = 1) ∧
    (s3.engine = some [⟨1000, kFlutterKeyEventTypeDown, 0x70039, 0x100000104, none, true⟩,
        ⟨1000, kFlutterKeyEventTypeDown, 0x70004, 0x61, some 0x61, false⟩] ∧
      s3.caps_lock_state_logic_inferrence = STATE_LOGIC_INFERRENCE_UNDECIDED ∧
      lookup_hash_table s3.pressing_records (chosen_physical_key s3 caps_lock) = 0x100000104 ∧
      lock_stage_by_record s3 2 caps_lock = 1 ∧
      lock_stage_by_event s3 0 false 0x100000104 2 caps_lock = 0 ∧
      s4.engine = s3.engine ∧
      s4.g_critical = [Assertion.lock_inferrence_decided] ∧
      lock_stage_by_record s4 2 caps_lock = 1) := by
  decide

theorem and_two_pow_ne_zero (x i : Nat) : (x &&& 2 ^ i != 0) = x.testBit i := by
  rw [Nat.and_two_pow]
  have := Nat.two_pow_pos i
  cases x.testBit i
  · simp
  · simp only [Bool.toNat_true, Nat.one_mul, bne_iff_ne, ne_eq]
    omega

theorem xor_two_pow_and_two_pow (x i : Nat) :
    ((x ^^^ 2 ^ i) &&& 2 ^ i != 0) = !(x &&& 2 ^ i != 0) := by
  rw [and_two_pow_ne_zero, and_two_pow_ne_zero, Nat.testBit_xor, Nat.testBit_two_pow_self]
  cases x.testBit i <;> rfl

theorem lock_stage_is_down (current_stage : Nat) :
    (current_stage % kNumStages == 0 || current_stage % kNumStages == 2) =
      decide (current_stage % 2 = 0) := by
  unfold kNumStages
  have h : current_stage % 4 = 0 ∨ current_stage % 4 = 1 ∨ current_stage % 4 = 2 ∨
      current_stage % 4 = 3 := by omega
  rcases h with h | h | h | h
  · simp [h]; omega
  · simp [h]; omega
  · simp [h]; omega
  · simp [h]; omega

theorem find_stage_by_record_of_stage (stage : Nat) (h : stage < 4) :
    find_stage_by_record (decide (stage % 2 = 1)) (decide (stage = 1 ∨ stage = 2)) = stage := by
  interval_cases stage <;> rfl

theorem find_stage_by_record_pressed (is_down is_enabled : Bool) :
    (find_stage_by_record is_down is_enabled % 2 = 1 ↔ is_down = true) ∧
    (find_stage_by_record is_down is_enabled % 4 = 1 ∨
      find_stage_by_record is_down is_enabled % 4 = 2 ↔ is_enabled = true) := by
  revert is_down is_enabled
  decide

/-- The records after one stage of the `for` loop of `synchronize_lock_states`:
at an even stage the mapping record is written when there was none, the
physical key is pressed and the lock bit of the logical key is flipped; at an
odd stage the physical key is released. -/
theorem synchronize_lock_states_stage_records (cfg : KeyMapping)
    (physical_key logical_key recorded_physical_key timestamp current_stage : Nat)
    (s : FlKeyEmbedderResponder) :
    (synchronize_lock_states_stage cfg physical_key logical_key recorded_physical_key timestamp
      current_stage s).pressing_records =
      (update_pressing_state s physical_key
        (if current_stage % 2 = 0 then logical_key else 0)).pressing_records ∧
    (synchronize_lock_states_stage cfg physical_key logical_key recorded_physical_key timestamp
      current_stage s).lock_records =
      (if current_stage % 2 = 0 then
        s.lock_records ^^^ lookup_hash_table (logical_key_to_lock_bit cfg) logical_key
       else s.lock_records) ∧
    (synchronize_lock_states_stage cfg physical_key logical_key recorded_physical_key timestamp
      current_stage s).mapping_records =
      (if current_stage % 2 = 0 ∧ recorded_physical_key = 0 then
        g_hash_table_insert s.mapping_records logical_key physical_key
       else s.mapping_records) := by
  refine ⟨?_, ?_, ?_⟩
  · rw [synchronize_lock_states_stage_pressing_records, lock_stage_is_down]
    simp
  · simp only [synchronize_lock_states_stage, synthesize_simple_event_lock_records,
      possibly_update_lock_bit_lock_records, update_pressing_state_lock_records,
      lock_stage_is_down, decide_eq_true_eq]
    split <;> split <;> simp
  · simp only [synchronize_lock_states_stage, synthesize_simple_event_mapping_records,
      possibly_update_lock_bit_mapping_records, update_pressing_state_mapping_records,
      lock_stage_is_down, Bool.and_eq_true, decide_eq_true_eq, beq_iff_eq]
    split <;> simp

theorem g_hash_table_lookup_of_lookup_hash_table (t : GHashTable) (k v : Nat)
    (h : lookup_hash_table t k = v) (hv : v ≠ 0) : g_hash_table_lookup t k = some v := by
  unfold lookup_hash_table at h
  cases hk : g_hash_table_lookup t k with
  | none => rw [hk] at h; exact absurd h.symm hv
  | some w => rw [hk] at h; rw [← h]

/-- One stage of the `for` loop of `synchronize_lock_states` for a lock key
with a non-zero logical key whose lock bit is a single bit: at an even stage,
with the physical key released or held by the logical key, the key is
inserted in the pressing records, the lock bit is flipped and the mapping
record lists the physical key; at an odd stage, with the physical key held,
the key is removed. -/
theorem synchronize_lock_states_stage_step (cfg : KeyMapping)
    (physical_key logical_key recorded_physical_key timestamp i current_stage : Nat)
    (s : FlKeyEmbedderResponder) (h_logical : logical_key ≠ 0)
    (h_bit : lookup_hash_table (logical_key_to_lock_bit cfg) logical_key = 2 ^ i)
    (h_pressed : current_stage % 2 = 1 →
      lookup_hash_table s.pressing_records physical_key = logical_key)
    (h_released : current_stage % 2 = 0 →
      lookup_hash_table s.pressing_records physical_key = 0 ∨
        lookup_hash_table s.pressing_records physical_key = logical_key) :
    (synchronize_lock_states_stage cfg physical_key logical_key recorded_physical_key timestamp
      current_stage s).pressing_records =
      (if current_stage % 2 = 0 then
        g_hash_table_insert s.pressing_records physical_key logical_key
       else g_hash_table_remove s.pressing_records physical_key) ∧
    (synchronize_lock_states_stage cfg physical_key logical_key recorded_physical_key timestamp
      current_stage s).lock_records =
      (if current_stage % 2 = 0 then s.lock_records ^^^ 2 ^ i else s.lock_records) ∧
    lookup_hash_table
      (synchronize_lock_states_stage cfg physical_key logical_key recorded_physical_key timestamp
        current_stage s).pressing_records physical_key =
      (if current_stage % 2 = 0 then logical_key else 0) ∧
    ((synchronize_lock_states_stage cfg physical_key logical_key recorded_physical_key timestamp
      current_stage s).lock_records &&& 2 ^ i != 0) =
      (if current_stage % 2 = 0 then !(s.lock_records &&& 2 ^ i != 0)
       else (s.lock_records &&& 2 ^ i != 0)) ∧
    (lookup_hash_table s.mapping_records logical_key = physical_key ∨
        (current_stage % 2 = 0 ∧ recorded_physical_key = 0) →
      lookup_hash_table
        (synchronize_lock_states_stage cfg physical_key logical_key recorded_physical_key
          timestamp current_stage s).mapping_records logical_key = physical_key) := by
  obtain ⟨h1, h2, h3⟩ := synchronize_lock_states_stage_records cfg physical_key logical_key
    recorded_physical_key timestamp current_stage s
  have h_pressing : (synchronize_lock_states_stage cfg physical_key logical_key
      recorded_physical_key timestamp current_stage s).pressing_records =
      (if current_stage % 2 = 0 then
        g_hash_table_insert s.pressing_records physical_key logical_key
       else g_hash_table_remove s.pressing_records physical_key) := by
    rw [h1, update_pressing_state_pressing_records]
    by_cases hc : current_stage % 2 = 0
    · rw [if_pos hc, if_pos hc, if_pos h_logical]
      rcases h_released hc with h | h
      · rw [if_pos h]
      · rw [if_neg (by rw [h]; exact h_logical)]
        exact (g_hash_table_insert_of_lookup _ _ _
          (g_hash_table_lookup_of_lookup_hash_table _ _ _ h h_logical)).symm
    · rw [if_neg hc, if_neg hc, if_neg (by simp)]
      have h := h_pressed (by omega)
      rw [if_pos (by rw [h]; exact h_logical)]
  have h_lock : (synchronize_lock_states_stage cfg physical_key logical_key
      recorded_physical_key timestamp current_stage s).lock_records =
      (if current_stage % 2 = 0 then s.lock_records ^^^ 2 ^ i else s.lock_records) := by
    rw [h2, h_bit]
  refine ⟨h_pressing, h_lock, ?_, ?_, ?_⟩
  · rw [h_pressing]
    by_cases hc : current_stage % 2 = 0
    · rw [if_pos hc, if_pos hc, lookup_hash_table_insert, if_pos rfl]
    · rw [if_neg hc, if_neg hc, lookup_hash_table_remove, if_pos rfl]
  · rw [h_lock]
    by_cases hc : current_stage % 2 = 0
    · rw [if_pos hc, if_pos hc, xor_two_pow_and_two_pow]
    · rw [if_neg hc, if_neg hc]
  · intro h
    rw [h3]
    by_cases hc : current_stage % 2 = 0 ∧ recorded_physical_key = 0
    · rw [if_pos hc, lookup_hash_table_insert, if_pos rfl]
    · rw [if_neg hc]
      rcases h with h | h
      · exact h
      · exact absurd h hc

theorem lock_stage_enabled_succ (c : Nat) (b : Bool)
    (h : b = decide (c % 4 = 1 ∨ c % 4 = 2)) :
    (if c % 2 = 0 then !b else b) = decide ((c + 1) % 4 = 1 ∨ (c + 1) % 4 = 2) := by
  subst h
  have h4 : c % 4 = 0 ∨ c % 4 = 1 ∨ c % 4 = 2 ∨ c % 4 = 3 := by omega
  rcases h4 with h4 | h4 | h4 | h4
  · have h2 : c % 2 = 0 := by omega
    have h5 : (c + 1) % 4 = 1 := by omega
    simp [h4, h2, h5]
  · have h2 : ¬ c % 2 = 0 := by omega
    have h5 : (c + 1) % 4 = 2 := by omega
    simp [h4, h2, h5]
  · have h2 : c % 2 = 0 := by omega
    have h5 : (c + 1) % 4 = 3 := by omega
    simp [h4, h2, h5]
  · have h2 : ¬ c % 2 = 0 := by omega
    have h5 : (c + 1) % 4 = 0 := by omega
    simp [h4, h2, h5]

/-- The stages of the `for` loop of `synchronize_lock_states` from a stage at
which the records stand: the pressing records and the lock records are those
the specification words, and after at least one stage the physical key is
pressed by the logical key exactly at an odd stage, the lock bit is set
exactly at the stages 1 and 2 of the cycle, and the mapping record lists the
physical key. -/
theorem synchronize_lock_states_stages_range (cfg : KeyMapping)
    (physical_key logical_key recorded_physical_key timestamp i : Nat)
    (h_logical : logical_key ≠ 0)
    (h_bit : lookup_hash_table (logical_key_to_lock_bit cfg) logical_key = 2 ^ i)
    (n current_stage : Nat) (s : FlKeyEmbedderResponder)
    (h_pressed : current_stage % 2 = 1 →
      lookup_hash_table s.pressing_records physical_key = logical_key)
    (h_released : current_stage % 2 = 0 →
      lookup_hash_table s.pressing_records physical_key = 0 ∨
        lookup_hash_table s.pressing_records physical_key = logical_key)
    (h_enabled : (s.lock_records &&& 2 ^ i != 0) =
      decide (current_stage % 4 = 1 ∨ current_stage % 4 = 2)) :
    (synchronize_lock_states_stages cfg physical_key logical_key recorded_physical_key timestamp
      (List.range' current_stage n) s).pressing_records =
      lock_stages_pressing_records physical_key logical_key (List.range' current_stage n)
        s.pressing_records ∧
    (synchronize_lock_states_stages cfg physical_key logical_key recorded_physical_key timestamp
      (List.range' current_stage n) s).lock_records =
      lock_stages_lock_records (2 ^ i) (List.range' current_stage n) s.lock_records ∧
    (0 < n →
      lookup_hash_table
        (synchronize_lock_states_stages cfg physical_key logical_key recorded_physical_key
          timestamp (List.range' current_stage n) s).pressing_records physical_key =
        if (current_stage + n) % 2 = 1 then logical_key else 0) ∧
    ((synchronize_lock_states_stages cfg physical_key logical_key recorded_physical_key timestamp
      (List.range' current_stage n) s).lock_records &&& 2 ^ i != 0) =
      decide ((current_stage + n) % 4 = 1 ∨ (current_stage + n) % 4 = 2) ∧
    (0 < n →
      lookup_hash_table s.mapping_records logical_key = physical_key ∨
        (current_stage % 2 = 0 ∧ recorded_physical_key = 0) →
      lookup_hash_table
        (synchronize_lock_states_stages cfg physical_key logical_key recorded_physical_key
          timestamp (List.range' current_stage n) s).mapping_records logical_key =
        physical_key) := by
  induction n generalizing current_stage s with
  | zero =>
    refine ⟨rfl, rfl, fun h => absurd h (Nat.lt_irrefl 0), ?_, fun h => absurd h (Nat.lt_irrefl 0)⟩
    simpa [synchronize_lock_states_stages] using h_enabled
  | succ n ih =>
    obtain ⟨s1, s2, s3, s4, s5⟩ := synchronize_lock_states_stage_step cfg physical_key
      logical_key recorded_physical_key timestamp i current_stage s h_logical h_bit h_pressed
      h_released
    have h_range : List.range' current_stage (n + 1) =
        current_stage :: List.range' (current_stage + 1) n := rfl
    have h_pressed1 : (current_stage + 1) % 2 = 1 →
        lookup_hash_table
          (synchronize_lock_states_stage cfg physical_key logical_key recorded_physical_key
            timestamp current_stage s).pressing_records physical_key = logical_key := by
      intro hc
      rw [s3, if_pos (by omega)]
    have h_released1 : (current_stage + 1) % 2 = 0 →
        lookup_hash_table
          (synchronize_lock_states_stage cfg physical_key logical_key recorded_physical_key
            timestamp current_stage s).pressing_records physical_key = 0 ∨
        lookup_hash_table
          (synchronize_lock_states_stage cfg physical_key logical_key recorded_physical_key
            timestamp current_stage s).pressing_records physical_key = logical_key := by
      intro hc
      left
      rw [s3, if_neg (by omega)]
    have h_enabled1 :
        ((synchronize_lock_states_stage cfg physical_key logical_key recorded_physical_key
          timestamp current_stage s).lock_records &&& 2 ^ i != 0) =
        decide ((current_stage + 1) % 4 = 1 ∨ (current_stage + 1) % 4 = 2) := by
      rw [s4]
      exact lock_stage_enabled_succ current_stage _ h_enabled
    obtain ⟨i1, i2, i3, i4, i5⟩ := ih (current_stage + 1)
      (synchronize_lock_states_stage cfg physical_key logical_key recorded_physical_key
        timestamp current_stage s) h_pressed1 h_released1 h_enabled1
    have h_add : current_stage + 1 + n = current_stage + (n + 1) := by omega
    rw [h_add] at i3 i4
    rw [h_range]
    unfold synchronize_lock_states_stages
    refine ⟨?_, ?_, ?_, i4, ?_⟩
    · rw [i1, s1]
      rfl
    · rw [i2, s2]
      rfl
    · intro _
      rcases Nat.eq_zero_or_pos n with hn | hn
      · subst hn
        simp only [List.range', synchronize_lock_states_stages]
        rw [s3]
        by_cases hc : current_stage % 2 = 0
        · rw [if_pos hc, if_pos (by omega)]
        · rw [if_neg hc, if_neg (by omega)]
      · exact i3 hn
    · intro _ h
      have h1 := s5 h
      rcases Nat.eq_zero_or_pos n with hn | hn
      · subst hn
        simpa [List.range', synchronize_lock_states_stages] using h1
      · exact i5 hn (Or.inl h1)

theorem update_caps_lock_state_logic_inferrence_decided (s : FlKeyEmbedderResponder)
    (enabled_by_state : Bool) (stage_by_record : Nat) :
    (update_caps_lock_state_logic_inferrence s true enabled_by_state
      stage_by_record).caps_lock_state_logic_inferrence ≠ STATE_LOGIC_INFERRENCE_UNDECIDED := by
  rcases update_caps_lock_state_logic_inferrence_write_once s true enabled_by_state
    stage_by_record with h | ⟨_, _, h⟩
  · by_cases hs : s.caps_lock_state_logic_inferrence = STATE_LOGIC_INFERRENCE_UNDECIDED
    · unfold update_caps_lock_state_logic_inferrence
      simp only [hs, ne_eq, not_true_eq_false, if_false, Bool.not_true, Bool.false_eq_true]
      split <;> simp
    · rw [h]
      exact hs
  · exact h

theorem chosen_physical_key_ne_zero (s : FlKeyEmbedderResponder)
    (checked_key : FlKeyEmbedderCheckedKey) (h : checked_key.primary_physical_key ≠ 0) :
    chosen_physical_key s checked_key ≠ 0 := by
  unfold chosen_physical_key
  simp only []
  split
  · assumption
  · exact h

theorem lock_stage_events_eq (physical_key logical_key timestamp stage_by_record n : Nat) :
    (List.range' stage_by_record n).map (lock_stage_event physical_key logical_key timestamp) =
      (List.range n).map (fun k =>
        (⟨timestamp,
          if (stage_by_record + k) % 2 = 0 then kFlutterKeyEventTypeDown
          else kFlutterKeyEventTypeUp,
          physical_key, logical_key, none, true⟩ : FlutterKeyEvent)) := by
  rw [List.range'_eq_map_range, List.map_map]
  apply List.map_congr_left
  intro k _
  simp only [Function.comp, lock_stage_event, lock_stage_is_down, decide_eq_true_eq]

/-- The loop body of `synchronize_lock_states` for a usable lock key whose
chosen physical key is released or held by the logical key of the lock key,
the inference being decided when the lock key is the CapsLock key of the
event: the body falls through to the next lock key, it sends
`(stage_by_event - stage_by_record) mod 4` events, the `k`-th a down event
when `stage_by_record + k` is even and an up event when it is odd, each down
event inserts the key in the pressing records and flips its lock bit, each up
event removes the key, and afterwards the recorded stage is the stage by the
event. -/
theorem synchronize_lock_states_checked_key_synchronizes (cfg : KeyMapping)
    (state timestamp : Nat) (is_down : Bool) (event_logical_key modifier_bit : Nat)
    (checked_key : FlKeyEmbedderCheckedKey) (s : FlKeyEmbedderResponder)
    (h_usable : lock_key_usable cfg (modifier_bit, checked_key))
    (h_held : lookup_hash_table s.pressing_records (chosen_physical_key s checked_key) = 0 ∨
      lookup_hash_table s.pressing_records (chosen_physical_key s checked_key) =
        checked_key.primary_logical_key)
    (h_decided : checked_key.primary_logical_key = event_logical_key →
      checked_key.is_caps_lock = true →
      is_down = true ∨
        s.caps_lock_state_logic_inferrence ≠ STATE_LOGIC_INFERRENCE_UNDECIDED) :
    ∃ s1 : FlKeyEmbedderResponder,
      synchronize_lock_states_checked_key cfg state timestamp is_down event_logical_key
        modifier_bit checked_key s = LoopStep.next s1 ∧
      s1.engine = s.engine.map (fun received => received ++
        (List.range
          ((lock_stage_by_event
              (lock_inferrence_updated s state is_down event_logical_key modifier_bit
                checked_key)
              state is_down event_logical_key modifier_bit checked_key + 4 -
            lock_stage_by_record s modifier_bit checked_key) % 4)).map
          (fun k =>
            (⟨timestamp,
              if (lock_stage_by_record s modifier_bit checked_key + k) % 2 = 0 then
                kFlutterKeyEventTypeDown
              else kFlutterKeyEventTypeUp,
              chosen_physical_key s checked_key, checked_key.primary_logical_key, none,
              true⟩ : FlutterKeyEvent))) ∧
      s1.pressing_records =
        lock_stages_pressing_records (chosen_physical_key s checked_key)
          checked_key.primary_logical_key
          (List.range' (lock_stage_by_record s modifier_bit checked_key)
            ((lock_stage_by_event
                (lock_inferrence_updated s state is_down event_logical_key modifier_bit
                  checked_key)
                state is_down event_logical_key modifier_bit checked_key + 4 -
              lock_stage_by_record s modifier_bit checked_key) % 4))
          s.pressing_records ∧
      s1.lock_records =
        lock_stages_lock_records modifier_bit
          (List.range' (lock_stage_by_record s modifier_bit checked_key)
            ((lock_stage_by_event
                (lock_inferrence_updated s state is_down event_logical_key modifier_bit
                  checked_key)
                state is_down event_logical_key modifier_bit checked_key + 4 -
              lock_stage_by_record s modifier_bit checked_key) % 4))
          s.lock_records ∧
      lock_stage_by_record s1 modifier_bit checked_key =
        lock_stage_by_event
          (lock_inferrence_updated s state is_down event_logical_key modifier_bit checked_key)
          state is_down event_logical_key modifier_bit checked_key := by
  obtain ⟨h_logical, h_physical, ⟨i, h_i⟩, h_bit⟩ := h_usable
  simp only at h_logical h_physical h_i h_bit
  subst h_i
  have h_event := lock_stage_by_event_lt
    (lock_inferrence_updated s state is_down event_logical_key (2 ^ i) checked_key)
    state is_down event_logical_key (2 ^ i) checked_key
  have h_record := lock_stage_by_record_lt s (2 ^ i) checked_key
  generalize h_se : lock_stage_by_event
    (lock_inferrence_updated s state is_down event_logical_key (2 ^ i) checked_key)
    state is_down event_logical_key (2 ^ i) checked_key = se at h_event
  have h_p := chosen_physical_key_ne_zero s checked_key h_physical
  -- the recorded stage in terms of the chosen physical key
  have h_chosen : lookup_hash_table s.mapping_records checked_key.primary_logical_key = 0 ∨
      lookup_hash_table s.mapping_records checked_key.primary_logical_key =
        chosen_physical_key s checked_key := by
    unfold chosen_physical_key
    by_cases hr : lookup_hash_table s.mapping_records checked_key.primary_logical_key = 0
    · exact Or.inl hr
    · right
      simp [hr]
  have h_check : lock_pressed_logical_key s checked_key = 0 ∨
      lock_pressed_logical_key s checked_key = checked_key.primary_logical_key := by
    unfold lock_pressed_logical_key
    simp only []
    split
    · exact Or.inl rfl
    · rename_i hr
      rcases h_chosen with h | h
      · exact absurd h hr
      · rw [h]
        exact h_held
  have h_inferred : ¬ (checked_key.primary_logical_key = event_logical_key ∧
      checked_key.is_caps_lock = true ∧
      (lock_inferrence_updated s state is_down event_logical_key (2 ^ i)
        checked_key).caps_lock_state_logic_inferrence = STATE_LOGIC_INFERRENCE_UNDECIDED) := by
    rintro ⟨h1, h2, h3⟩
    unfold lock_inferrence_updated at h3
    rw [if_pos (by simp [h1, h2])] at h3
    rcases h_decided h1 h2 with hd | hd
    · subst hd
      exact update_caps_lock_state_logic_inferrence_decided _ _ _ h3
    · rcases update_caps_lock_state_logic_inferrence_write_once s is_down
        ((state &&& 2 ^ i) != 0) (lock_stage_by_record s (2 ^ i) checked_key) with h | ⟨h, _⟩
      · rw [h] at h3
        exact hd h3
      · exact hd h
  rw [synchronize_lock_states_checked_key_eq, if_neg (not_not.mpr h_check), if_neg h_inferred,
    h_se]
  refine ⟨_, rfl, ?_⟩
  -- the stage at which the records stand
  have h_stage := find_stage_by_record_pressed (lock_pressed_logical_key s checked_key != 0)
    ((s.lock_records &&& 2 ^ i) != 0)
  have h_pressed : lock_stage_by_record s (2 ^ i) checked_key % 2 = 1 →
      lookup_hash_table
        (lock_inferrence_updated s state is_down event_logical_key (2 ^ i)
          checked_key).pressing_records (chosen_physical_key s checked_key) =
        checked_key.primary_logical_key := by
    intro h
    have hp := h_stage.1.mp h
    simp only [bne_iff_ne, ne_eq] at hp
    rw [lock_inferrence_updated_pressing_records]
    rcases h_held with h0 | h0
    · exfalso
      apply hp
      unfold lock_pressed_logical_key
      simp only []
      split
      · rfl
      · rename_i hr
        rcases h_chosen with h' | h'
        · exact absurd h' hr
        · rw [h']
          exact h0
    · exact h0
  have h_released : lock_stage_by_record s (2 ^ i) checked_key % 2 = 0 →
      lookup_hash_table
        (lock_inferrence_updated s state is_down event_logical_key (2 ^ i)
          checked_key).pressing_records (chosen_physical_key s checked_key) = 0 ∨
      lookup_hash_table
        (lock_inferrence_updated s state is_down event_logical_key (2 ^ i)
          checked_key).pressing_records (chosen_physical_key s checked_key) =
        checked_key.primary_logical_key := by
    intro _
    rw [lock_inferrence_updated_pressing_records]
    exact h_held
  have h_enabled :
      ((lock_inferrence_updated s state is_down event_logical_key (2 ^ i)
        checked_key).lock_records &&& 2 ^ i != 0) =
      decide (lock_stage_by_record s (2 ^ i) checked_key % 4 = 1 ∨
        lock_stage_by_record s (2 ^ i) checked_key % 4 = 2) := by
    rw [lock_inferrence_updated_lock_records]
    have := h_stage.2
    cases hb : (s.lock_records &&& 2 ^ i != 0)
    · rw [hb] at this
      have h' : ¬ (lock_stage_by_record s (2 ^ i) checked_key % 4 = 1 ∨
          lock_stage_by_record s (2 ^ i) checked_key % 4 = 2) := by
        intro h
        have := this.mp (by unfold lock_stage_by_record at h; rw [hb] at h; exact h)
        exact Bool.noConfusion this
      simp [h']
    · rw [hb] at this
      have h' : lock_stage_by_record s (2 ^ i) checked_key % 4 = 1 ∨
          lock_stage_by_record s (2 ^ i) checked_key % 4 = 2 := by
        have := this.mpr rfl
        unfold lock_stage_by_record
        rw [hb]
        exact this
      simp [h']
  obtain ⟨r1, r2, r3, r4, r5⟩ := synchronize_lock_states_stages_range cfg
    (chosen_physical_key s checked_key) checked_key.primary_logical_key
    (lookup_hash_table s.mapping_records checked_key.primary_logical_key) timestamp i
    h_logical h_bit ((se + 4 - lock_stage_by_record s (2 ^ i) checked_key) % 4)
    (lock_stage_by_record s (2 ^ i) checked_key)
    (lock_inferrence_updated s state is_down event_logical_key (2 ^ i) checked_key)
    h_pressed h_released h_enabled
  refine ⟨?_, ?_, ?_, ?_⟩
  · rw [synchronize_lock_states_stages_engine, lock_inferrence_updated_engine,
      lock_stage_events_eq]
  · rw [r1, lock_inferrence_updated_pressing_records]
  · rw [r2, lock_inferrence_updated_lock_records]
  · rcases Nat.eq_zero_or_pos
      ((se + 4 - lock_stage_by_record s (2 ^ i) checked_key) % 4) with hn | hn
    · rw [hn]
      simp only [List.range', synchronize_lock_states_stages,
        lock_inferrence_updated_stage_by_record]
      omega
    · have h_sum : (lock_stage_by_record s (2 ^ i) checked_key +
          (se + 4 - lock_stage_by_record s (2 ^ i) checked_key) % 4) % 4 = se := by omega
      have h_mapping := r5 hn (by
        rw [lock_inferrence_updated_mapping_records]
        rcases h_chosen with h | h
        · right
          refine ⟨?_, h⟩
          have hz : lock_pressed_logical_key s checked_key = 0 := by
            unfold lock_pressed_logical_key
            simp [h]
          have hnot : ¬ lock_stage_by_record s (2 ^ i) checked_key % 2 = 1 := by
            intro h1
            have := h_stage.1.mp h1
            simp [hz] at this
          omega
        · exact Or.inl h)
      have h_lookup := r3 hn
      have h_lock := r4
      generalize synchronize_lock_states_stages cfg (chosen_physical_key s checked_key)
        checked_key.primary_logical_key
        (lookup_hash_table s.mapping_records checked_key.primary_logical_key) timestamp
        (List.range' (lock_stage_by_record s (2 ^ i) checked_key)
          ((se + 4 - lock_stage_by_record s (2 ^ i) checked_key) % 4))
        (lock_inferrence_updated s state is_down event_logical_key (2 ^ i) checked_key) = s1
        at h_mapping h_lookup h_lock ⊢
      have h_pressed1 : (lock_pressed_logical_key s1 checked_key != 0) =
          decide (se % 2 = 1) := by
        unfold lock_pressed_logical_key
        simp only []
        rw [h_mapping, if_neg h_p, h_lookup]
        by_cases hodd : (lock_stage_by_record s (2 ^ i) checked_key +
            (se + 4 - lock_stage_by_record s (2 ^ i) checked_key) % 4) % 2 = 1
        · rw [if_pos hodd]
          have : se % 2 = 1 := by omega
          simp [this, h_logical]
        · rw [if_neg hodd]
          have : ¬ se % 2 = 1 := by omega
          simp [this]
      unfold lock_stage_by_record
      rw [h_pressed1, h_lock, h_sum]
      exact find_stage_by_record_of_stage se h_event

/-- The NumLock key on the fresh responder, for the release of the A key with
the NumLock bit set: the loop body of `synchronize_lock_states` falls through
and the recorded stage of the NumLock key becomes 1, its stage by the event. -/
theorem synchronize_lock_states_checked_key_synchronizes_num_lock :
    ∃ s1 : FlKeyEmbedderResponder,
      synchronize_lock_states_checked_key key_mapping 0x10 1000 false 0x61 0x10
        ⟨0x70053, 0x10000010a, 0, false⟩ (fl_key_embedder_responder_new (some [])) =
          LoopStep.next s1 ∧
      lock_stage_by_record s1 0x10 ⟨0x70053, 0x10000010a, 0, false⟩ = 1 := by
  obtain ⟨s1, h1, _, _, _, h5⟩ := synchronize_lock_states_checked_key_synchronizes key_mapping
    0x10 1000 false 0x61 0x10 ⟨0x70053, 0x10000010a, 0, false⟩
    (fl_key_embedder_responder_new (some []))
    ⟨by decide, by decide, ⟨4, rfl⟩, by decide⟩ (Or.inl (by decide)) (fun h => absurd h (by decide))
  exact ⟨s1, h1, h5.trans (by decide)⟩

/-! ## The key identity resolver -/

/-- C23: for every raw event the physical id is the value of the keycode in
`xkb_to_physical_key_map` when the keycode is in the table, and otherwise
`(keycode & kValueMask) | kGtkPlane`; the logical id is the specified logical
key when that is not 0, else the value of the keyval in
`gtk_keyval_to_logical_key_map` when the keyval is in the table, else
`(to_lower(keyval) & kValueMask) | kUnicodePlane` when the keyval is below 256,
else `(keyval & kValueMask) | kGtkPlane`. -/
theorem key_identity_resolver (cfg : KeyMapping) (event : FlKeyEvent)
    (specified_logical_key : Nat) :
    (∀ physical_key,
      g_hash_table_lookup cfg.xkb_to_physical_key_map event.keycode = some physical_key →
        event_to_physical_key cfg event = physical_key) ∧
    (g_hash_table_lookup cfg.xkb_to_physical_key_map event.keycode = none →
      event_to_physical_key cfg event = (event.keycode &&& cfg.kValueMask) ||| cfg.kGtkPlane) ∧
    (specified_logical_key ≠ 0 →
      resolved_logical_key cfg event specified_logical_key = specified_logical_key) ∧
    (specified_logical_key = 0 →
      resolved_logical_key cfg event specified_logical_key = event_to_logical_key cfg event) ∧
    (∀ logical_key,
      g_hash_table_lookup cfg.gtk_keyval_to_logical_key_map event.keyval = some logical_key →
        event_to_logical_key cfg event = logical_key) ∧
    (g_hash_table_lookup cfg.gtk_keyval_to_logical_key_map event.keyval = none →
      event.keyval < 256 →
      event_to_logical_key cfg event =
        (to_lower event.keyval &&& cfg.kValueMask) ||| cfg.kUnicodePlane) ∧
    (g_hash_table_lookup cfg.gtk_keyval_to_logical_key_map event.keyval = none →
      ¬ event.keyval < 256 →
      event_to_logical_key cfg event = (event.keyval &&& cfg.kValueMask) ||| cfg.kGtkPlane) := by
  refine ⟨?_, ?_, ?_, ?_, ?_, ?_, ?_⟩
  · intro physical_key h
    simp [event_to_physical_key, h]
  · intro h
    simp [event_to_physical_key, h, apply_id_plane]
  · intro h
    simp [resolved_logical_key, h]
  · intro h
    simp [resolved_logical_key, h]
  · intro logical_key h
    simp [event_to_logical_key, h]
  · intro h h256
    simp [event_to_logical_key, h, h256, apply_id_plane]
  · intro h h256
    simp [event_to_logical_key, h, h256, apply_id_plane]

theorem or_ne_zero_of_right (a b : Nat) (h : b ≠ 0) : a ||| b ≠ 0 := by
  intro h0
  apply h
  apply Nat.eq_of_testBit_eq
  intro i
  have := congrArg (fun n => Nat.testBit n i) h0
  simp only [Nat.testBit_or, Nat.zero_testBit, Bool.or_eq_false_iff] at this
  rw [this.2, Nat.zero_testBit]

theorem to_lower_eq_zero (n : Nat) : to_lower n = 0 ↔ n = 0 := by
  unfold to_lower
  constructor
  · intro h
    split at h
    · omega
    · split at h
      · omega
      · exact h
  · intro h
    subst h
    decide

theorem to_lower_lt (n : Nat) (h : n < 256) : to_lower n < 2 ^ 32 := by
  unfold to_lower
  split
  · omega
  · split <;> omega

/-- With the plane constants of `key_mapping.h`, a keycode that misses the
table resolves to a non-zero physical id, and a keyval that misses the table
resolves to the logical id 0 exactly when the keyval is 0. -/
theorem event_to_logical_key_eq_zero (cfg : KeyMapping) (event : FlKeyEvent)
    (h_mask : cfg.kValueMask = 0xffffffff) (h_unicode : cfg.kUnicodePlane = 0)
    (h_gtk : cfg.kGtkPlane = 0x1500000000) :
    (g_hash_table_lookup cfg.xkb_to_physical_key_map event.keycode = none →
      event_to_physical_key cfg event ≠ 0) ∧
    (g_hash_table_lookup cfg.gtk_keyval_to_logical_key_map event.keyval = none →
      (event_to_logical_key cfg event = 0 ↔ event.keyval = 0)) := by
  constructor
  · intro h
    simp only [event_to_physical_key, h, apply_id_plane, h_gtk]
    exact or_ne_zero_of_right _ _ (by decide)
  · intro h
    simp only [event_to_logical_key, h, apply_id_plane, h_gtk, h_unicode, h_mask]
    by_cases h256 : event.keyval < 256
    · rw [if_pos h256, Nat.or_zero]
      have hm : (0xffffffff : Nat) = 2 ^ 32 - 1 := by norm_num
      rw [hm, Nat.and_pow_two_sub_one_of_lt_two_pow (to_lower_lt _ h256)]
      exact to_lower_eq_zero _
    · rw [if_neg h256]
      constructor
      · intro h0
        exact absurd h0 (or_ne_zero_of_right _ _ (by decide))
      · intro h0
        omega

set_option maxRecDepth 20000 in
/-- C24 (the code at the failing input): the keyval 0 misses the keyval table
and is below 256, so `event_to_logical_key` returns
`(to_lower(0) & kValueMask) | kUnicodePlane`, which is 0 with the plane
constants of `key_mapping.h`. On the fresh responder the press of the A key
(keycode 0x26) with the keyval 0 is sent as a down event with the logical key
0, `update_pressing_state` takes the logical key 0 as the request to release
the key, its check that the key is pressed fails, and the key is not
recorded. -/
theorem event_to_logical_key_of_keyval_zero :
    key_mapping.kValueMask = 0xffffffff ∧ key_mapping.kUnicodePlane = 0 ∧
    key_mapping.kGtkPlane = 0x1500000000 ∧
    g_hash_table_lookup key_mapping.gtk_keyval_to_logical_key_map 0 = none ∧
    event_to_logical_key key_mapping ⟨1, true, 0x26, 0, 0⟩ = 0 ∧
    event_to_physical_key key_mapping ⟨1, true, 0x26, 0, 0⟩ = 0x70004 ∧
    (fl_key_embedder_responder_handle_event key_mapping
      (fl_key_embedder_responder_new (some [])) ⟨1, true, 0x26, 0, 0⟩ 0).1.engine =
        some [⟨1000, kFlutterKeyEventTypeDown, 0x70004, 0, none, false⟩] ∧
    (fl_key_embedder_responder_handle_event key_mapping
      (fl_key_embedder_responder_new (some [])) ⟨1, true, 0x26, 0, 0⟩ 0).1.pressing_records =
        [] ∧
    (fl_key_embedder_responder_handle_event key_mapping
      (fl_key_embedder_responder_new (some [])) ⟨1, true, 0x26, 0, 0⟩ 0).1.g_critical =
        [Assertion.pressing_key_down] := by
  decide

/-! ## The events of one call of `handle_event` -/

/-- With a live engine a synchronizer step either sends nothing and leaves
`sent_any_events` as it is, or sends one synthesized event and sets
`sent_any_events`. -/
theorem synchronizer_step_sent {cfg : KeyMapping} {s s1 : FlKeyEmbedderResponder}
    (h : SynchronizerStep cfg s s1) (received : List FlutterKeyEvent)
    (h_engine : s.engine = some received) :
    ∃ events : List FlutterKeyEvent,
      s1.engine = some (received ++ events) ∧
      (∀ e ∈ events, e.is_synthesized_simple) ∧
      s1.sent_any_events = (s.sent_any_events || !events.isEmpty) := by
  cases h with
  | failed_check a =>
    refine ⟨[], ?_, by simp, by simp⟩
    simp [h_engine]
  | inferrence d e st =>
    refine ⟨[], ?_, by simp, by simp⟩
    simp [h_engine]
  | lock_stage modifier_bit checked_key recorded timestamp current_stage =>
    refine ⟨[lock_stage_event
        (if recorded ≠ 0 then recorded else checked_key.primary_physical_key)
        checked_key.primary_logical_key timestamp current_stage], ?_, ?_, ?_⟩
    · rw [synchronize_lock_states_stage_engine, h_engine]
      rfl
    · intro e he
      simp only [List.mem_singleton] at he
      subst he
      refine ⟨rfl, rfl, ?_⟩
      show (if _ then _ else _) ≠ _
      split <;> simp
    · simp
  | modifier_release modifier_bit checked_key logical_key timestamp =>
    refine ⟨[⟨timestamp, kFlutterKeyEventTypeUp,
        lookup_hash_table s.mapping_records logical_key,
        lookup_hash_table s.pressing_records (lookup_hash_table s.mapping_records logical_key),
        none, true⟩], ?_, ?_, ?_⟩
    · rw [synchronize_pressed_states_release_engine, h_engine]
      rfl
    · intro e he
      simp only [List.mem_singleton] at he
      subst he
      exact ⟨rfl, rfl, by simp⟩
    · simp
  | modifier_press modifier_bit checked_key timestamp =>
    refine ⟨[⟨timestamp, kFlutterKeyEventTypeDown, chosen_physical_key s checked_key,
        checked_key.primary_logical_key, none, true⟩], ?_, ?_, ?_⟩
    · rw [synchronize_pressed_states_press_engine, h_engine]
      rfl
    · intro e he
      simp only [List.mem_singleton] at he
      subst he
      exact ⟨rfl, rfl, by simp⟩
    · simp

theorem synchronizer_steps_sent {cfg : KeyMapping} {s s1 : FlKeyEmbedderResponder}
    (h : SynchronizerSteps cfg s s1) (received : List FlutterKeyEvent)
    (h_engine : s.engine = some received) :
    ∃ events : List FlutterKeyEvent,
      s1.engine = some (received ++ events) ∧
      (∀ e ∈ events, e.is_synthesized_simple) ∧
      s1.sent_any_events = (s.sent_any_events || !events.isEmpty) := by
  induction h with
  | refl => exact ⟨[], by simp [h_engine], by simp, by simp⟩
  | tail _ hstep ih =>
    obtain ⟨ev1, h1, h2, h3⟩ := ih
    obtain ⟨ev2, h4, h5, h6⟩ := synchronizer_step_sent hstep _ h1
    refine ⟨ev1 ++ ev2, ?_, ?_, ?_⟩
    · rw [h4, List.append_assoc]
    · intro e he
      rcases List.mem_append.1 he with he | he
      · exact h2 e he
      · exact h5 e he
    · rw [h6, h3]
      cases s.sent_any_events <;> cases ev1 <;> cases ev2 <;> simp

/-- The events of one call of `handle_event` after those of the synchronizers:
nothing for a release without a pressing record when an event was
synthesized, the empty event for such a release when none was, and otherwise
the real event. -/
theorem handle_event_engine (cfg : KeyMapping) (s : FlKeyEmbedderResponder)
    (event : FlKeyEvent) (specified_logical_key : Nat) :
    (fl_key_embedder_responder_handle_event cfg s event specified_logical_key).1.engine =
      (synchronize_states cfg { s with sent_any_events := false } event
        specified_logical_key).engine.map (fun received => received ++
        if event.is_press = false ∧
            lookup_hash_table
              (synchronize_states cfg { s with sent_any_events := false } event
                specified_logical_key).pressing_records
              (resolved_physical_key cfg event specified_logical_key) = 0 then
          (if (synchronize_states cfg { s with sent_any_events := false } event
              specified_logical_key).sent_any_events = true then []
           else [kEmptyEvent])
        else
          [handle_event_out_event cfg
            (synchronize_states cfg { s with sent_any_events := false } event
              specified_logical_key) event specified_logical_key]) := by
  unfold handle_event_out_event
  generalize hr : lookup_hash_table
    (synchronize_states cfg { s with sent_any_events := false } event
      specified_logical_key).pressing_records
    (resolved_physical_key cfg event specified_logical_key) = r
  cases hp : event.is_press
  · by_cases hr0 : r = 0
    · subst hr0
      unfold fl_key_embedder_responder_handle_event
      rw [handle_event_impl_stale_release _ _ _ _ hp hr]
      by_cases hsent : (synchronize_states cfg { s with sent_any_events := false } event
          specified_logical_key).sent_any_events = true
      · simp [hsent]
      · simp [hsent]
    · have hr' : lookup_hash_table
          (synchronize_states cfg { s with sent_any_events := false } event
            specified_logical_key).pressing_records
          (resolved_physical_key cfg event specified_logical_key) ≠ 0 := by
        rw [hr]; exact hr0
      rw [handle_event_of_real_event _ _ _ _ (Or.inr hr'),
        handle_event_impl_release _ _ _ _ hp hr']
      simp [hr, hr0]
  · rw [handle_event_of_real_event _ _ _ _ (Or.inl hp), handle_event_impl_press _ _ _ _ hp]
    by_cases hr0 : r = 0
    · simp [hr, hr0]
    · simp [hr, hr0]

/-- C21: with a live engine, the events that a call of `handle_event` sends
are the events synthesized by the synchronizers, then the real event unless
the call handles a release without a pressing record, then the empty event
exactly when there is no synthesized event and no real event; so at least one
event is sent, and the empty event is sent only for a release without a
pressing record, the task of which is completed with handled. The empty event
has the timestamp 0, the physical key 0, the logical key 0 and no character
and is not flagged synthesized. -/
theorem handle_event_sends_empty_event (cfg : KeyMapping) (s : FlKeyEmbedderResponder)
    (event : FlKeyEvent) (specified_logical_key : Nat) (received : List FlutterKeyEvent)
    (h_engine : s.engine = some received) :
    kEmptyEvent = ⟨0, kFlutterKeyEventTypeDown, 0, 0, none, false⟩ ∧
    ∃ synthesized real : List FlutterKeyEvent,
      (synchronize_states cfg { s with sent_any_events := false } event
        specified_logical_key).engine = some (received ++ synthesized) ∧
      (∀ e ∈ synthesized, e.synthesized = true) ∧
      real.length ≤ 1 ∧ (∀ e ∈ real, e.synthesized = false) ∧
      (real = [] ↔
        event.is_press = false ∧
          lookup_hash_table
            (synchronize_states cfg { s with sent_any_events := false } event
              specified_logical_key).pressing_records
            (resolved_physical_key cfg event specified_logical_key) = 0) ∧
      (real = [] →
        (fl_key_embedder_responder_handle_event cfg s event specified_logical_key).2 =
          some true) ∧
      (fl_key_embedder_responder_handle_event cfg s event specified_logical_key).1.engine =
        some (received ++ synthesized ++ real ++
          if synthesized = [] ∧ real = [] then [kEmptyEvent] else []) ∧
      synthesized ++ real ++ (if synthesized = [] ∧ real = [] then [kEmptyEvent] else []) ≠
        [] := by
  refine ⟨rfl, ?_⟩
  obtain ⟨synthesized, h1, h2, h3⟩ := synchronizer_steps_sent
    (synchronize_states_steps cfg { s with sent_any_events := false } event
      specified_logical_key) received h_engine
  have h_engine1 := handle_event_engine cfg s event specified_logical_key
  rw [h1] at h_engine1
  simp only [Bool.false_or] at h3
  by_cases h_stale : event.is_press = false ∧
      lookup_hash_table
        (synchronize_states cfg { s with sent_any_events := false } event
          specified_logical_key).pressing_records
        (resolved_physical_key cfg event specified_logical_key) = 0
  · refine ⟨synthesized, [], h1, fun e he => (h2 e he).1, by simp, by simp, ?_, ?_, ?_, ?_⟩
    · simp [h_stale]
    · intro _
      unfold fl_key_embedder_responder_handle_event
      rw [handle_event_impl_stale_release _ _ _ _ h_stale.1 h_stale.2]
      simp only []
      split <;> rfl
    · rw [h_engine1, if_pos h_stale, h3]
      cases synthesized <;> simp
    · cases synthesized <;> simp
  · rw [if_neg h_stale] at h_engine1
    refine ⟨synthesized,
      [handle_event_out_event cfg
        (synchronize_states cfg { s with sent_any_events := false } event
          specified_logical_key) event specified_logical_key],
      h1, fun e he => (h2 e he).1, ?_, ?_, ?_, ?_, ?_, ?_⟩
    · simp
    · intro e he
      simp only [List.mem_singleton] at he
      subst he
      rfl
    · constructor
      · intro h
        exact absurd h (by simp)
      · intro h
        exact absurd h h_stale
    · intro h
      exact absurd h (by simp)
    · rw [h_engine1]
      simp
    · simp

set_option maxRecDepth 20000 in
/-- C21 (witness): the release of the A key on the fresh responder sends at
least one event to the live engine. -/
theorem handle_event_sends_empty_event_witness :
    ∃ events : List FlutterKeyEvent,
      (fl_key_embedder_responder_handle_event key_mapping
        (fl_key_embedder_responder_new (some [])) ⟨1, false, 0x26, 0x61, 0⟩ 0).1.engine =
          some ([] ++ events) ∧ events ≠ [] := by
  obtain ⟨_, synthesized, real, _, _, _, _, _, _, h1, h2⟩ :=
    handle_event_sends_empty_event key_mapping (fl_key_embedder_responder_new (some []))
      ⟨1, false, 0x26, 0x61, 0⟩ 0 [] rfl
  refine ⟨_, ?_, h2⟩
  rw [h1]
  simp

/-- C22: the events that a call of `handle_event` sends are the events of the
lock synchronizer, then the events of the modifier synchronizer, all of them
flagged synthesized, of type down or up and without a character, followed by
at most one event not flagged synthesized, which is the last one sent and
carries no character when it is an up event. -/
theorem handle_event_event_sequence (cfg : KeyMapping) (s : FlKeyEmbedderResponder)
    (event : FlKeyEvent) (specified_logical_key : Nat) :
    ∃ lock_events modifier_events real : List FlutterKeyEvent,
      (synchronize_lock_states cfg { s with sent_any_events := false } event.state
        (event_to_timestamp event) event.is_press
        (resolved_logical_key cfg event specified_logical_key)).engine =
          s.engine.map (fun received => received ++ lock_events) ∧
      (synchronize_states cfg { s with sent_any_events := false } event
        specified_logical_key).engine =
          s.engine.map (fun received => received ++ (lock_events ++ modifier_events)) ∧
      (fl_key_embedder_responder_handle_event cfg s event specified_logical_key).1.engine =
        s.engine.map (fun received => received ++ (lock_events ++ modifier_events ++ real)) ∧
      (∀ e ∈ lock_events ++ modifier_events,
        e.synthesized = true ∧ e.character = none ∧
          (e.type = kFlutterKeyEventTypeDown ∨ e.type = kFlutterKeyEventTypeUp)) ∧
      real.length ≤ 1 ∧
      ∀ e ∈ real, e.synthesized = false ∧ (e.type = kFlutterKeyEventTypeUp → e.character = none) := by
  obtain ⟨lock_events, h1, h2⟩ := synchronizer_steps_engine
    (synchronize_lock_states_steps cfg { s with sent_any_events := false } event.state
      (event_to_timestamp event) event.is_press
      (resolved_logical_key cfg event specified_logical_key))
  obtain ⟨modifier_events, h3, h4⟩ := synchronizer_steps_engine
    (synchronize_pressed_states_steps cfg
      (synchronize_lock_states cfg { s with sent_any_events := false } event.state
        (event_to_timestamp event) event.is_press
        (resolved_logical_key cfg event specified_logical_key))
      event.state (event_to_timestamp event))
  have h_states : (synchronize_states cfg { s with sent_any_events := false } event
      specified_logical_key).engine =
      s.engine.map (fun received => received ++ (lock_events ++ modifier_events)) := by
    unfold synchronize_states
    rw [h3, h1]
    cases s.engine <;> simp
  have h_simple : ∀ e : FlutterKeyEvent, e.is_synthesized_simple →
      e.synthesized = true ∧ e.character = none ∧
        (e.type = kFlutterKeyEventTypeDown ∨ e.type = kFlutterKeyEventTypeUp) := by
    intro e he
    refine ⟨he.1, he.2.1, ?_⟩
    have := he.2.2
    cases ht : e.type
    · exact Or.inr rfl
    · exact Or.inl rfl
    · exact absurd ht this
  refine ⟨lock_events, modifier_events,
    (if event.is_press = false ∧
        lookup_hash_table
          (synchronize_states cfg { s with sent_any_events := false } event
            specified_logical_key).pressing_records
          (resolved_physical_key cfg event specified_logical_key) = 0 then
      (if (synchronize_states cfg { s with sent_any_events := false } event
          specified_logical_key).sent_any_events = true then []
       else [kEmptyEvent])
    else
      [handle_event_out_event cfg
        (synchronize_states cfg { s with sent_any_events := false } event
          specified_logical_key) event specified_logical_key]),
    h1, h_states, ?_, ?_, ?_, ?_⟩
  · rw [handle_event_engine, h_states]
    cases s.engine <;> simp
  · intro e he
    rcases List.mem_append.1 he with he | he
    · exact h_simple e (h2 e he)
    · exact h_simple e (h4 e he)
  · split
    · split <;> simp
    · simp
  · intro e he
    split at he
    · split at he
      · simp at he
      · simp only [List.mem_singleton] at he
        subst he
        exact ⟨rfl, fun _ => rfl⟩
    · simp only [List.mem_singleton] at he
      subst he
      refine ⟨rfl, ?_⟩
      unfold handle_event_out_event
      simp only []
      cases event.is_press
      · intro _; rfl
      · intro h
        simp only [if_true] at h
        split at h <;> simp at h

/-- C30: when `handle_event` sends a real event, that is for a press and for a
release with a pressing record, the event is `out_event`: it is an up event
for a release, a repeat event for a press with a pressing record and a down
event for a press without one; an up event and a repeat event carry the
logical key that the pressing records hold for the physical key when the
event is constructed, whatever the keyval and the specified logical key of the
raw event are, and only a down event carries the logical key resolved for the
raw event; when the synchronizers synthesize nothing, the pressing record is
the one from before the call. -/
theorem handle_event_real_event_logical_key (cfg : KeyMapping) (s : FlKeyEmbedderResponder)
    (event : FlKeyEvent) (specified_logical_key : Nat)
    (h : event.is_press = true ∨
      lookup_hash_table
        (synchronize_states cfg { s with sent_any_events := false } event
          specified_logical_key).pressing_records
        (resolved_physical_key cfg event specified_logical_key) ≠ 0) :
    ∃ e : FlutterKeyEvent,
      (fl_key_embedder_responder_handle_event cfg s event specified_logical_key).1.engine =
        (synchronize_states cfg { s with sent_any_events := false } event
          specified_logical_key).engine.map (fun received => received ++ [e]) ∧
      e.synthesized = false ∧
      e.physical = resolved_physical_key cfg event specified_logical_key ∧
      (e.type = kFlutterKeyEventTypeUp ↔ event.is_press = false) ∧
      (e.type = kFlutterKeyEventTypeRepeat ↔
        event.is_press = true ∧
          lookup_hash_table
            (synchronize_states cfg { s with sent_any_events := false } event
              specified_logical_key).pressing_records
            (resolved_physical_key cfg event specified_logical_key) ≠ 0) ∧
      (e.type = kFlutterKeyEventTypeUp ∨ e.type = kFlutterKeyEventTypeRepeat →
        e.logical ≠ 0 ∧
        e.logical =
          lookup_hash_table
            (synchronize_states cfg { s with sent_any_events := false } event
              specified_logical_key).pressing_records
            (resolved_physical_key cfg event specified_logical_key)) ∧
      (e.type = kFlutterKeyEventTypeDown →
        e.logical = resolved_logical_key cfg event specified_logical_key) ∧
      ((synchronize_states cfg { s with sent_any_events := false } event
          specified_logical_key).sent_any_events = false →
        lookup_hash_table
          (synchronize_states cfg { s with sent_any_events := false } event
            specified_logical_key).pressing_records
          (resolved_physical_key cfg event specified_logical_key) =
        lookup_hash_table s.pressing_records
          (resolved_physical_key cfg event specified_logical_key)) := by
  refine ⟨handle_event_out_event cfg
    (synchronize_states cfg { s with sent_any_events := false } event
      specified_logical_key) event specified_logical_key, ?_, rfl, rfl, ?_, ?_, ?_, ?_, ?_⟩
  · rw [handle_event_engine, if_neg]
    rintro ⟨h1, h2⟩
    rcases h with h | h
    · rw [h1] at h
      exact Bool.noConfusion h
    · exact h h2
  · unfold handle_event_out_event
    simp only []
    cases event.is_press
    · simp
    · simp only [if_true]
      split <;> simp
  · unfold handle_event_out_event
    simp only []
    cases event.is_press
    · simp
    · simp only [if_true]
      split
      · rename_i hr
        simp [hr]
      · rename_i hr
        simp [hr]
  · intro ht
    have hr : lookup_hash_table
        (synchronize_states cfg { s with sent_any_events := false } event
          specified_logical_key).pressing_records
        (resolved_physical_key cfg event specified_logical_key) ≠ 0 := by
      rcases h with h | h
      · unfold handle_event_out_event at ht
        simp only [h, if_true] at ht
        by_contra h0
        simp [h0] at ht
      · exact h
    have h_logical : (handle_event_out_event cfg
        (synchronize_states cfg { s with sent_any_events := false } event
          specified_logical_key) event specified_logical_key).logical =
        lookup_hash_table
          (synchronize_states cfg { s with sent_any_events := false } event
            specified_logical_key).pressing_records
          (resolved_physical_key cfg event specified_logical_key) := by
      unfold handle_event_out_event
      exact if_pos hr
    rw [h_logical]
    exact ⟨hr, rfl⟩
  · intro ht
    unfold handle_event_out_event at ht ⊢
    simp only [] at ht ⊢
    cases hp : event.is_press
    · simp [hp] at ht
    · simp only [hp, if_true] at ht
      split at ht
      · simp at ht
      · rename_i hr
        simp only [ne_eq, not_not] at hr
        simp [hr]
  · intro h_sent
    rw [(synchronize_states_of_not_sent cfg _ event specified_logical_key h_sent).2.1]

set_option maxRecDepth 20000 in
/-- C30 (witness): after the press of the A key with the keyval 0x61, its
release with the specified logical key 0x62 sends an up event that carries
the recorded logical key 0x61. -/
theorem handle_event_real_event_logical_key_witness :
    ∃ e : FlutterKeyEvent,
      (fl_key_embedder_responder_handle_event key_mapping
        (fl_key_embedder_responder_handle_event key_mapping
          (fl_key_embedder_responder_new (some [])) ⟨1, true, 0x26, 0x61, 0⟩ 0).1
        ⟨2, false, 0x26, 0x61, 0⟩ 0x62).1.engine =
        some ([⟨1000, kFlutterKeyEventTypeDown, 0x70004, 0x61, some 0x61, false⟩] ++ [e]) ∧
      e.logical = 0x61 := by
  obtain ⟨e, h1, _, _, h4, _, h6, _, _⟩ := handle_event_real_event_logical_key key_mapping
    (fl_key_embedder_responder_handle_event key_mapping
      (fl_key_embedder_responder_new (some [])) ⟨1, true, 0x26, 0x61, 0⟩ 0).1
    ⟨2, false, 0x26, 0x61, 0⟩ 0x62 (Or.inr (by decide))
  have h_engine : (synchronize_states key_mapping
      { (fl_key_embedder_responder_handle_event key_mapping
          (fl_key_embedder_responder_new (some [])) ⟨1, true, 0x26, 0x61, 0⟩ 0).1 with
        sent_any_events := false } ⟨2, false, 0x26, 0x61, 0⟩ 0x62).engine =
      some [⟨1000, kFlutterKeyEventTypeDown, 0x70004, 0x61, some 0x61, false⟩] := by decide
  have h_record : lookup_hash_table
      (synchronize_states key_mapping
        { (fl_key_embedder_responder_handle_event key_mapping
            (fl_key_embedder_responder_new (some [])) ⟨1, true, 0x26, 0x61, 0⟩ 0).1 with
          sent_any_events := false } ⟨2, false, 0x26, 0x61, 0⟩ 0x62).pressing_records
      (resolved_physical_key key_mapping ⟨2, false, 0x26, 0x61, 0⟩ 0x62) = 0x61 := by decide
  refine ⟨e, ?_, ?_⟩
  · exact h1.trans (congrArg (Option.map (fun received => received ++ [e])) h_engine)
  · exact (h6 (Or.inl (h4.mpr rfl))).2.trans h_record

/-! ## The correction of the physical key of a modifier -/

theorem known_modifier_physical_key_eq (entries : List (Nat × FlKeyEmbedderCheckedKey))
    (physical_key : Nat) (known : Bool) :
    entries.foldl
      (fun known entry =>
        if entry.2.primary_physical_key = physical_key then true else known) known =
      (known || entries.any (fun entry => decide (entry.2.primary_physical_key = physical_key))) := by
  induction entries generalizing known with
  | nil => simp
  | cons entry rest ih =>
    rw [List.foldl_cons, ih]
    by_cases h : entry.2.primary_physical_key = physical_key
    · simp [h]
    · simp [h]

theorem corrected_physical_key_of_no_match (entries : List (Nat × FlKeyEmbedderCheckedKey))
    (logical_key corrected : Nat)
    (h : ∀ entry ∈ entries, entry.2.primary_logical_key ≠ logical_key ∧
      entry.2.secondary_logical_key ≠ logical_key) :
    entries.foldl
      (fun corrected_physical_key entry =>
        if entry.2.primary_logical_key = logical_key ∨
            entry.2.secondary_logical_key = logical_key then
          entry.2.primary_physical_key
        else corrected_physical_key) corrected = corrected := by
  induction entries generalizing corrected with
  | nil => rfl
  | cons entry rest ih =>
    rw [List.foldl_cons, if_neg, ih]
    · intro e he
      exact h e (List.mem_cons_of_mem _ he)
    · have := h entry (List.mem_cons_self _ _)
      rintro (h1 | h1)
      · exact this.1 h1
      · exact this.2 h1

theorem corrected_physical_key_of_match (entries : List (Nat × FlKeyEmbedderCheckedKey))
    (logical_key corrected : Nat)
    (h_distinct : entries.Pairwise (fun a b => logical_keys_disjoint a.2 b.2))
    (family : Nat × FlKeyEmbedderCheckedKey) (h_mem : family ∈ entries)
    (h_match : family.2.primary_logical_key = logical_key ∨
      family.2.secondary_logical_key = logical_key) :
    entries.foldl
      (fun corrected_physical_key entry =>
        if entry.2.primary_logical_key = logical_key ∨
            entry.2.secondary_logical_key = logical_key then
          entry.2.primary_physical_key
        else corrected_physical_key) corrected = family.2.primary_physical_key := by
  induction entries generalizing corrected with
  | nil => exact absurd h_mem (List.not_mem_nil _)
  | cons entry rest ih =>
    rw [List.pairwise_cons] at h_distinct
    rw [List.foldl_cons]
    rcases List.mem_cons.1 h_mem with h_eq | h_rest
    · subst h_eq
      rw [if_pos h_match, corrected_physical_key_of_no_match]
      intro e he
      have hd := h_distinct.1 e he
      unfold logical_keys_disjoint at hd
      rcases h_match with h1 | h1
      · exact ⟨fun h2 => hd.1 (h1.trans h2.symm), fun h2 => hd.2.1 (h1.trans h2.symm)⟩
      · exact ⟨fun h2 => hd.2.2.1 (h1.trans h2.symm), fun h2 => hd.2.2.2 (h1.trans h2.symm)⟩
    · exact ih _ h_distinct.2 h_rest

/-- C25: `corrected_modifier_physical_key` returns the physical key of the
event when no modifier family has it as its primary physical key, and when no
modifier family has the logical key as its primary or secondary logical key;
when a family has the physical key as its primary physical key and a family
has the logical key as its primary or secondary logical key, it returns the
primary physical key of the latter, the families sharing no logical key. -/
theorem corrected_modifier_physical_key_cases
    (entries : List (Nat × FlKeyEmbedderCheckedKey)) (physical_key logical_key : Nat)
    (h_distinct : entries.Pairwise (fun a b => logical_keys_disjoint a.2 b.2)) :
    ((∀ entry ∈ entries, entry.2.primary_physical_key ≠ physical_key) →
      corrected_modifier_physical_key entries physical_key logical_key = physical_key) ∧
    ((∀ entry ∈ entries, entry.2.primary_logical_key ≠ logical_key ∧
        entry.2.secondary_logical_key ≠ logical_key) →
      corrected_modifier_physical_key entries physical_key logical_key = physical_key) ∧
    (∀ known ∈ entries, known.2.primary_physical_key = physical_key →
      ∀ family ∈ entries,
        family.2.primary_logical_key = logical_key ∨
          family.2.secondary_logical_key = logical_key →
        corrected_modifier_physical_key entries physical_key logical_key =
          family.2.primary_physical_key) := by
  refine ⟨?_, ?_, ?_⟩
  · intro h
    unfold corrected_modifier_physical_key
    simp only [known_modifier_physical_key_eq, Bool.false_or]
    rw [if_neg]
    simp only [List.any_eq_true, decide_eq_true_eq, not_exists, not_and]
    exact fun e he => h e he
  · intro h
    unfold corrected_modifier_physical_key
    simp only [corrected_physical_key_of_no_match entries logical_key physical_key h]
    split <;> rfl
  · intro known h_known h_physical family h_family h_match
    unfold corrected_modifier_physical_key
    simp only [known_modifier_physical_key_eq, Bool.false_or]
    rw [if_pos, corrected_physical_key_of_match entries logical_key physical_key h_distinct
      family h_family h_match]
    simp only [List.any_eq_true, decide_eq_true_eq]
    exact ⟨known, h_known, h_physical⟩

/-- C25 (witness): in the GTK key mapping the physical key of the left Control
key with the logical key of the right Shift key is corrected to the physical
key of the left Shift key, and with the logical key of the A key it is left as
it is. -/
theorem corrected_modifier_physical_key_cases_witness :
    key_mapping.modifier_bit_to_checked_keys.Pairwise
      (fun a b => logical_keys_disjoint a.2 b.2) ∧
    corrected_modifier_physical_key key_mapping.modifier_bit_to_checked_keys
      0x700e0 0x200000103 = 0x700e1 ∧
    corrected_modifier_physical_key key_mapping.modifier_bit_to_checked_keys
      0x700e0 0x61 = 0x700e0 :=
  ⟨by decide,
    (corrected_modifier_physical_key_cases key_mapping.modifier_bit_to_checked_keys
      0x700e0 0x200000103 (by decide)).2.2
      (4, ⟨0x700e0, 0x200000100, 0x200000101, false⟩) (by decide) rfl
      (1, ⟨0x700e1, 0x200000102, 0x200000103, false⟩) (by decide) (Or.inr rfl),
    (corrected_modifier_physical_key_cases key_mapping.modifier_bit_to_checked_keys
      0x700e0 0x61 (by decide)).2.1 (by decide)⟩

/-! ## The case conversion -/

/-- C33: `to_lower` adds 0x20 to every value of 0x41..0x5a and of 0xc0..0xde,
the multiplication sign 0xd7 included, which it turns into the division sign
0xf7, and returns every other value unchanged: the value it leaves out of the
second range is the division sign, which is not in the range. It is
idempotent and maps the values below 256 to values below 256. -/
theorem to_lower_multiplication_sign :
    to_lower 0xd7 = 0xf7 ∧ to_lower 0xd7 ≠ 0xd7 ∧ to_lower 0xf7 = 0xf7 ∧
    (∀ n, to_lower n =
      if (0x41 ≤ n ∧ n ≤ 0x5a) ∨ (0xc0 ≤ n ∧ n ≤ 0xde) then n + 0x20 else n) ∧
    (∀ n, to_lower (to_lower n) = to_lower n) ∧
    (∀ n, n < 256 → to_lower n < 256) := by
  refine ⟨by decide, by decide, by decide, ?_, ?_, ?_⟩
  · intro n
    unfold to_lower
    split_ifs <;> omega
  · intro n
    unfold to_lower
    split_ifs <;> omega
  · intro n hn
    unfold to_lower
    split_ifs <;> omega

/-! ## Induction over the effects of the synchronizers -/

theorem synchronize_lock_states_stages_induction (cfg : KeyMapping)
    (P : FlKeyEmbedderResponder → Prop)
    (h_stage : ∀ s modifier_bit checked_key recorded timestamp stage,
      (modifier_bit, checked_key) ∈ cfg.lock_bit_to_checked_keys →
      (recorded = 0 ∨
        lookup_hash_table s.mapping_records checked_key.primary_logical_key = recorded) →
      P s →
      P (synchronize_lock_states_stage cfg
        (if recorded ≠ 0 then recorded else checked_key.primary_physical_key)
        checked_key.primary_logical_key recorded timestamp stage s))
    (modifier_bit : Nat) (checked_key : FlKeyEmbedderCheckedKey)
    (recorded_physical_key timestamp : Nat)
    (h_entry : (modifier_bit, checked_key) ∈ cfg.lock_bit_to_checked_keys)
    (stages : List Nat) (s : FlKeyEmbedderResponder)
    (h : recorded_physical_key = 0 ∨
      lookup_hash_table s.mapping_records checked_key.primary_logical_key =
        recorded_physical_key)
    (hP : P s) :
    P (synchronize_lock_states_stages cfg
        (if recorded_physical_key ≠ 0 then recorded_physical_key
         else checked_key.primary_physical_key)
        checked_key.primary_logical_key recorded_physical_key timestamp stages s) := by
  induction stages generalizing s with
  | nil => exact hP
  | cons current_stage rest ih =>
    unfold synchronize_lock_states_stages
    refine ih _ ?_ (h_stage s modifier_bit checked_key recorded_physical_key timestamp
      current_stage h_entry h hP)
    rcases h with h | h
    · exact Or.inl h
    · by_cases h0 : recorded_physical_key = 0
      · exact Or.inl h0
      · right
        rw [synchronize_lock_states_stage_mapping_records _ _ _ _ _ _ _ h0]
        exact h

theorem synchronize_lock_states_checked_key_induction (cfg : KeyMapping)
    (P : FlKeyEmbedderResponder → Prop)
    (h_check : ∀ s a,
      a ∈ [Assertion.lock_pressed_logical_key, Assertion.lock_inferrence_decided,
        Assertion.lock_stage_in_range, Assertion.lock_stage_order] →
      P s → P (g_return_if_fail_warning s a))
    (h_inferrence : ∀ s is_down enabled_by_state stage_by_record, P s →
      P (update_caps_lock_state_logic_inferrence s is_down enabled_by_state stage_by_record))
    (h_stage : ∀ s modifier_bit checked_key recorded timestamp stage,
      (modifier_bit, checked_key) ∈ cfg.lock_bit_to_checked_keys →
      (recorded = 0 ∨
        lookup_hash_table s.mapping_records checked_key.primary_logical_key = recorded) →
      P s →
      P (synchronize_lock_states_stage cfg
        (if recorded ≠ 0 then recorded else checked_key.primary_physical_key)
        checked_key.primary_logical_key recorded timestamp stage s))
    (state timestamp : Nat) (is_down : Bool) (event_logical_key modifier_bit : Nat)
    (checked_key : FlKeyEmbedderCheckedKey)
    (h_entry : (modifier_bit, checked_key) ∈ cfg.lock_bit_to_checked_keys)
    (s : FlKeyEmbedderResponder) (hP : P s) :
    P (synchronize_lock_states_checked_key cfg state timestamp is_down event_logical_key
        modifier_bit checked_key s).responder := by
  unfold synchronize_lock_states_checked_key
  lift_lets
  extract_lets logical_key recorded physical pressed stage_by_record enabled this_key s1 reverse s2
    stage_by_event destination
  have h1 : P s1 := by
    show P (if _ then _ else _)
    split
    · exact h_inferrence _ _ _ _ hP
    · exact hP
  have h2 : P s2 := by
    show P (if _ then _ else _)
    split
    · exact h_check _ _ (by simp) h1
    · exact h1
  have hm1 : s1.mapping_records = s.mapping_records := by
    show (if _ then _ else _ : FlKeyEmbedderResponder).mapping_records = _
    split <;> simp
  have hm2 : s2.mapping_records = s1.mapping_records := by
    show (if _ then _ else _ : FlKeyEmbedderResponder).mapping_records = _
    split <;> simp
  split
  · exact h_check _ _ (by simp) hP
  · split
    · exact h_check _ _ (by simp) h1
    · split
      · exact h_check _ _ (by simp) h2
      · show P
          (synchronize_lock_states_stages cfg (chosen_physical_key s checked_key)
            checked_key.primary_logical_key
            (lookup_hash_table s.mapping_records checked_key.primary_logical_key) timestamp _ s2)
        unfold chosen_physical_key
        apply synchronize_lock_states_stages_induction cfg P h_stage modifier_bit checked_key _
          timestamp h_entry
        · right
          rw [hm2, hm1]
        · exact h2

/-- A property of the responder that the failed checks of
`synchronize_lock_states`, the update of the CapsLock inference and every
stage of a lock key preserve holds after `synchronize_lock_states`. -/
theorem synchronize_lock_states_induction (cfg : KeyMapping)
    (P : FlKeyEmbedderResponder → Prop)
    (h_check : ∀ s a,
      a ∈ [Assertion.lock_pressed_logical_key, Assertion.lock_inferrence_decided,
        Assertion.lock_stage_in_range, Assertion.lock_stage_order] →
      P s → P (g_return_if_fail_warning s a))
    (h_inferrence : ∀ s is_down enabled_by_state stage_by_record, P s →
      P (update_caps_lock_state_logic_inferrence s is_down enabled_by_state stage_by_record))
    (h_stage : ∀ s modifier_bit checked_key recorded timestamp stage,
      (modifier_bit, checked_key) ∈ cfg.lock_bit_to_checked_keys →
      (recorded = 0 ∨
        lookup_hash_table s.mapping_records checked_key.primary_logical_key = recorded) →
      P s →
      P (synchronize_lock_states_stage cfg
        (if recorded ≠ 0 then recorded else checked_key.primary_physical_key)
        checked_key.primary_logical_key recorded timestamp stage s))
    (s : FlKeyEmbedderResponder) (state timestamp : Nat) (is_down : Bool)
    (event_logical_key : Nat) (hP : P s) :
    P (synchronize_lock_states cfg s state timestamp is_down event_logical_key) := by
  unfold synchronize_lock_states
  have key : ∀ (entries : List (Nat × FlKeyEmbedderCheckedKey)),
      (∀ entry ∈ entries, entry ∈ cfg.lock_bit_to_checked_keys) →
      ∀ s, P s →
        P (synchronize_lock_states_entries cfg state timestamp is_down event_logical_key
          entries s) := by
    intro entries
    induction entries with
    | nil => intro _ s hs; exact hs
    | cons entry rest ih =>
      intro h_entries s hs
      obtain ⟨modifier_bit, checked_key⟩ := entry
      have h := synchronize_lock_states_checked_key_induction cfg P h_check h_inferrence h_stage
        state timestamp is_down event_logical_key modifier_bit checked_key
        (h_entries _ (List.mem_cons_self _ _)) s hs
      unfold synchronize_lock_states_entries
      cases hstep : synchronize_lock_states_checked_key cfg state timestamp is_down
          event_logical_key modifier_bit checked_key s with
      | returned s1 =>
        rw [hstep] at h
        exact h
      | next s1 =>
        rw [hstep] at h
        exact ih (fun e he => h_entries e (List.mem_cons_of_mem _ he)) s1 h
  exact key _ (fun _ h => h) s hP

theorem synchronize_pressed_states_logical_keys_induction (cfg : KeyMapping)
    (P : FlKeyEmbedderResponder → Prop)
    (h_nonzero : ∀ s, P s →
      P (g_return_if_fail_warning s Assertion.modifier_logical_key_nonzero))
    (h_recorded : ∀ s l, l ≠ 0 → l ∈ s.pressing_records.map Prod.snd →
      lookup_hash_table s.mapping_records l = 0 → P s →
      P (g_return_if_fail_warning s Assertion.modifier_recorded_physical_key))
    (h_release : ∀ s modifier_bit checked_key l timestamp,
      (modifier_bit, checked_key) ∈ cfg.modifier_bit_to_checked_keys →
      l ∈ checked_logical_keys checked_key → l ≠ 0 →
      l ∈ s.pressing_records.map Prod.snd →
      lookup_hash_table s.mapping_records l ≠ 0 → P s →
      P (synchronize_pressed_states_release s l timestamp))
    (modifier_bit : Nat) (checked_key : FlKeyEmbedderCheckedKey)
    (h_entry : (modifier_bit, checked_key) ∈ cfg.modifier_bit_to_checked_keys)
    (any_pressed_by_state : Bool) (timestamp : Nat) (keys : List Nat)
    (h_keys : ∀ l ∈ keys, l ∈ checked_logical_keys checked_key)
    (any_pressed_by_record : Bool) (s : FlKeyEmbedderResponder) (hP : P s) :
    (∀ s' b, synchronize_pressed_states_logical_keys any_pressed_by_state timestamp keys
        any_pressed_by_record s = LoopStep.next (s', b) → P s') ∧
    (∀ s', synchronize_pressed_states_logical_keys any_pressed_by_state timestamp keys
        any_pressed_by_record s = LoopStep.returned s' → P s') := by
  induction keys generalizing any_pressed_by_record s with
  | nil =>
    constructor
    · intro s' b h
      simp only [synchronize_pressed_states_logical_keys, LoopStep.next.injEq,
        Prod.mk.injEq] at h
      rw [← h.1]; exact hP
    · intro s' h
      simp [synchronize_pressed_states_logical_keys] at h
  | cons l rest ih =>
    have h_rest : ∀ k ∈ rest, k ∈ checked_logical_keys checked_key :=
      fun k hk => h_keys k (List.mem_cons_of_mem _ hk)
    unfold synchronize_pressed_states_logical_keys
    by_cases hl : l = 0
    · simp only [hl, if_true]
      constructor
      · intro s' b h; simp at h
      · intro s' h
        simp only [LoopStep.returned.injEq] at h
        rw [← h]
        exact h_nonzero s hP
    · simp only [hl, if_false]
      rw [reverse_lookup_hash_table_ne_zero _ _ hl]
      by_cases hp : l ∈ s.pressing_records.map Prod.snd
      · simp only [hp, decide_True, Bool.or_true, Bool.true_and]
        by_cases hst : any_pressed_by_state = true
        · subst hst
          simp only [Bool.not_true, Bool.false_eq_true, if_false]
          exact ih h_rest _ _ hP
        · simp only [Bool.not_eq_true] at hst
          subst hst
          simp only [Bool.not_false, if_true]
          by_cases hr : lookup_hash_table s.mapping_records l = 0
          · simp only [hr, if_true]
            constructor
            · intro s' b h; simp at h
            · intro s' h
              simp only [LoopStep.returned.injEq] at h
              rw [← h]
              exact h_recorded s l hl hp hr hP
          · simp only [hr, if_false]
            exact ih h_rest true (synchronize_pressed_states_release s l timestamp)
              (h_release s modifier_bit checked_key l timestamp h_entry
                (h_keys l (List.mem_cons_self _ _)) hl hp hr hP)
      · simp only [hp, decide_False, Bool.or_false, Bool.false_and, Bool.false_eq_true,
          if_false]
        exact ih h_rest _ _ hP

/-- A property of the responder that the two failed checks of
`synchronize_pressed_states`, every release and every press that it
synthesizes preserve holds after `synchronize_pressed_states`; the check of
the recorded physical key fails only for a logical key that is pressed by
record and has no mapping record. -/
theorem synchronize_pressed_states_induction (cfg : KeyMapping)
    (P : FlKeyEmbedderResponder → Prop)
    (h_nonzero : ∀ s, P s →
      P (g_return_if_fail_warning s Assertion.modifier_logical_key_nonzero))
    (h_recorded : ∀ s l, l ≠ 0 → l ∈ s.pressing_records.map Prod.snd →
      lookup_hash_table s.mapping_records l = 0 → P s →
      P (g_return_if_fail_warning s Assertion.modifier_recorded_physical_key))
    (h_release : ∀ s modifier_bit checked_key l timestamp,
      (modifier_bit, checked_key) ∈ cfg.modifier_bit_to_checked_keys →
      l ∈ checked_logical_keys checked_key → l ≠ 0 →
      l ∈ s.pressing_records.map Prod.snd →
      lookup_hash_table s.mapping_records l ≠ 0 → P s →
      P (synchronize_pressed_states_release s l timestamp))
    (h_press : ∀ s modifier_bit checked_key timestamp,
      (modifier_bit, checked_key) ∈ cfg.modifier_bit_to_checked_keys →
      checked_key.primary_logical_key ≠ 0 →
      (∀ l ∈ checked_logical_keys checked_key, l ∉ s.pressing_records.map Prod.snd) → P s →
      P (synchronize_pressed_states_press s checked_key timestamp))
    (s : FlKeyEmbedderResponder) (state timestamp : Nat) (hP : P s) :
    P (synchronize_pressed_states cfg s state timestamp) := by
  unfold synchronize_pressed_states
  have h_key : ∀ modifier_bit checked_key,
      (modifier_bit, checked_key) ∈ cfg.modifier_bit_to_checked_keys → ∀ s, P s →
      P (synchronize_pressed_states_checked_key state timestamp modifier_bit checked_key
        s).responder := by
    intro modifier_bit checked_key h_entry s hs
    unfold synchronize_pressed_states_checked_key
    simp only []
    obtain ⟨h1, h2⟩ := synchronize_pressed_states_logical_keys_induction cfg P h_nonzero
      h_recorded h_release modifier_bit checked_key h_entry ((state &&& modifier_bit) != 0)
      timestamp (checked_logical_keys checked_key) (fun _ h => h) false s hs
    cases hloop : synchronize_pressed_states_logical_keys ((state &&& modifier_bit) != 0)
        timestamp (checked_logical_keys checked_key) false s with
    | returned s1 => exact h2 s1 hloop
    | next r =>
      obtain ⟨s1, b⟩ := r
      have hs1 := h1 s1 b hloop
      simp only []
      split
      · rename_i hcond
        simp only [Bool.and_eq_true, Bool.not_eq_true'] at hcond
        obtain ⟨_, hb⟩ := hcond
        subst hb
        obtain ⟨_, hs', hrel⟩ :=
          synchronize_pressed_states_logical_keys_released _ _ _ _ _ _ hloop
        subst hs'
        exact h_press s1 modifier_bit checked_key timestamp h_entry
          (hrel _ (primary_mem_checked_logical_keys checked_key)).1
          (fun l hl => (hrel l hl).2) hs1
      · exact hs1
  have key : ∀ (entries : List (Nat × FlKeyEmbedderCheckedKey)),
      (∀ entry ∈ entries, entry ∈ cfg.modifier_bit_to_checked_keys) →
      ∀ s, P s → P (synchronize_pressed_states_entries state timestamp entries s) := by
    intro entries
    induction entries with
    | nil => intro _ s hs; exact hs
    | cons entry rest ih =>
      intro h_entries s hs
      obtain ⟨modifier_bit, checked_key⟩ := entry
      have h := h_key modifier_bit checked_key (h_entries _ (List.mem_cons_self _ _)) s hs
      unfold synchronize_pressed_states_entries
      cases hstep : synchronize_pressed_states_checked_key state timestamp modifier_bit
          checked_key s with
      | returned s1 =>
        rw [hstep] at h
        exact h
      | next s1 =>
        rw [hstep] at h
        exact ih (fun e he => h_entries e (List.mem_cons_of_mem _ he)) s1 h
  exact key _ (fun _ h => h) s hP

/-! ## The toggle discipline of the lock records -/

theorem logical_key_to_lock_bit_fold_of_not_mem (entries : List (Nat × FlKeyEmbedderCheckedKey))
    (table : GHashTable) (l : Nat)
    (h : ∀ entry ∈ entries, entry.2.primary_logical_key ≠ l) :
    g_hash_table_lookup
      (entries.foldl
        (fun table entry => g_hash_table_insert table entry.2.primary_logical_key entry.1)
        table) l = g_hash_table_lookup table l := by
  induction entries generalizing table with
  | nil => rfl
  | cons entry rest ih =>
    rw [List.foldl_cons, ih _ (fun e he => h e (List.mem_cons_of_mem _ he)),
      g_hash_table_lookup_insert, if_neg]
    exact fun e => h entry (List.mem_cons_self _ _) e.symm

theorem logical_key_to_lock_bit_fold_of_mem (entries : List (Nat × FlKeyEmbedderCheckedKey))
    (table : GHashTable) (entry : Nat × FlKeyEmbedderCheckedKey) (h_mem : entry ∈ entries)
    (h_distinct : (entries.map (fun entry => entry.2.primary_logical_key)).Nodup) :
    g_hash_table_lookup
      (entries.foldl
        (fun table entry => g_hash_table_insert table entry.2.primary_logical_key entry.1)
        table) entry.2.primary_logical_key = some entry.1 := by
  induction entries generalizing table with
  | nil => exact absurd h_mem (List.not_mem_nil _)
  | cons first rest ih =>
    rw [List.map_cons, List.nodup_cons] at h_distinct
    rw [List.foldl_cons]
    rcases List.mem_cons.1 h_mem with h_eq | h_rest
    · subst h_eq
      rw [logical_key_to_lock_bit_fold_of_not_mem, g_hash_table_lookup_insert, if_pos rfl]
      intro e he h_same
      exact h_distinct.1 (List.mem_map.2 ⟨e, he, h_same⟩)
    · exact ih _ h_rest h_distinct.2

theorem lookup_logical_key_to_lock_bit_of_not_mem (cfg : KeyMapping) (l : Nat)
    (h : ∀ entry ∈ cfg.lock_bit_to_checked_keys, entry.2.primary_logical_key ≠ l) :
    lookup_hash_table (logical_key_to_lock_bit cfg) l = 0 := by
  unfold lookup_hash_table logical_key_to_lock_bit
  rw [logical_key_to_lock_bit_fold_of_not_mem _ _ _ h]
  rfl

theorem lookup_logical_key_to_lock_bit_of_mem (cfg : KeyMapping)
    (h_distinct :
      (cfg.lock_bit_to_checked_keys.map (fun entry => entry.2.primary_logical_key)).Nodup)
    (entry : Nat × FlKeyEmbedderCheckedKey) (h_mem : entry ∈ cfg.lock_bit_to_checked_keys) :
    lookup_hash_table (logical_key_to_lock_bit cfg) entry.2.primary_logical_key = entry.1 := by
  unfold lookup_hash_table logical_key_to_lock_bit
  rw [logical_key_to_lock_bit_fold_of_mem _ _ _ h_mem h_distinct]

theorem possibly_update_lock_bit_eq (cfg : KeyMapping) (s : FlKeyEmbedderResponder)
    (l : Nat) :
    possibly_update_lock_bit cfg s l true =
      { s with
        lock_records := s.lock_records ^^^ lookup_hash_table (logical_key_to_lock_bit cfg) l } := by
  unfold possibly_update_lock_bit
  simp only [Bool.not_true, Bool.false_eq_true, if_false]
  by_cases h : lookup_hash_table (logical_key_to_lock_bit cfg) l = 0
  · rw [if_neg (not_not.mpr h), h, Nat.xor_zero]
  · rw [if_pos h]

theorem lock_records_after_events_append (cfg : KeyMapping) (a b : List FlutterKeyEvent)
    (records : Nat) :
    lock_records_after_events cfg (a ++ b) records =
      lock_records_after_events cfg b (lock_records_after_events cfg a records) := by
  unfold lock_records_after_events
  rw [List.foldl_append]

/-- With a live engine the lock records after `synchronize_lock_states` are
the lock records before it with the lock bit flipped once for each down event
that it has synthesized. -/
theorem synchronize_lock_states_lock_records (cfg : KeyMapping) (s : FlKeyEmbedderResponder)
    (state timestamp : Nat) (is_down : Bool) (event_logical_key : Nat)
    (received : List FlutterKeyEvent) (h_engine : s.engine = some received) :
    ∃ lock_events : List FlutterKeyEvent,
      (synchronize_lock_states cfg s state timestamp is_down event_logical_key).engine =
        some (received ++ lock_events) ∧
      (∀ e ∈ lock_events, e.synthesized = true) ∧
      (synchronize_lock_states cfg s state timestamp is_down event_logical_key).lock_records =
        lock_records_after_events cfg lock_events s.lock_records := by
  refine synchronize_lock_states_induction cfg
    (fun s1 => ∃ lock_events : List FlutterKeyEvent,
      s1.engine = some (received ++ lock_events) ∧
      (∀ e ∈ lock_events, e.synthesized = true) ∧
      s1.lock_records = lock_records_after_events cfg lock_events s.lock_records)
    ?_ ?_ ?_ s state timestamp is_down event_logical_key ?_
  · rintro s1 a _ ⟨events, h1, h2, h3⟩
    exact ⟨events, by simpa using h1, h2, by simpa using h3⟩
  · rintro s1 d e st ⟨events, h1, h2, h3⟩
    exact ⟨events, by simpa using h1, h2, by simpa using h3⟩
  · rintro s1 modifier_bit checked_key recorded t stage _ _ ⟨events, h1, h2, h3⟩
    refine ⟨events ++ [lock_stage_event
      (if recorded ≠ 0 then recorded else checked_key.primary_physical_key)
      checked_key.primary_logical_key t stage], ?_, ?_, ?_⟩
    · rw [synchronize_lock_states_stage_engine, h1]
      simp [lock_stage_event]
    · intro e he
      rcases List.mem_append.1 he with he | he
      · exact h2 e he
      · simp only [List.mem_singleton] at he
        subst he
        rfl
    · rw [(synchronize_lock_states_stage_records cfg _ _ _ _ _ _).2.1,
        lock_records_after_events_append, ← h3]
      unfold lock_records_after_events lock_stage_event kNumStages
      simp only [List.foldl_cons, List.foldl_nil]
      have h_mod : stage % 2 = 0 ↔ (stage % 4 == 0 || stage % 4 == 2) = true := by
        simp only [Bool.or_eq_true, beq_iff_eq]
        omega
      by_cases h_even : stage % 2 = 0
      · rw [if_pos h_even, if_pos (h_mod.1 h_even), if_pos rfl]
      · rw [if_neg h_even, if_neg (fun h => h_even (h_mod.2 h)), if_neg (by simp)]
  · exact ⟨[], by simp [h_engine], by simp, rfl⟩

theorem synchronize_pressed_states_lock_records (cfg : KeyMapping)
    (s : FlKeyEmbedderResponder) (state timestamp : Nat) :
    (synchronize_pressed_states cfg s state timestamp).lock_records = s.lock_records := by
  refine synchronize_pressed_states_induction cfg
    (fun s1 => s1.lock_records = s.lock_records) ?_ ?_ ?_ ?_ s state timestamp rfl
  · intro s1 h
    simpa using h
  · intro s1 l _ _ _ h
    simpa using h
  · intro s1 _ _ l t _ _ _ _ _ h
    simpa [synchronize_pressed_states_release] using h
  · intro s1 _ checked_key t _ _ _ h
    unfold synchronize_pressed_states_press
    simp only []
    split <;> simpa using h

theorem handle_event_release_lock_records (cfg : KeyMapping) (s : FlKeyEmbedderResponder)
    (event : FlKeyEvent) (specified_logical_key : Nat) (h : event.is_press = false) :
    (fl_key_embedder_responder_handle_event cfg s event specified_logical_key).1.lock_records =
      (synchronize_lock_states cfg { s with sent_any_events := false } event.state
        (event_to_timestamp event) event.is_press
        (resolved_logical_key cfg event specified_logical_key)).lock_records := by
  have h_sync : (synchronize_states cfg { s with sent_any_events := false } event
      specified_logical_key).lock_records =
      (synchronize_lock_states cfg { s with sent_any_events := false } event.state
        (event_to_timestamp event) event.is_press
        (resolved_logical_key cfg event specified_logical_key)).lock_records := by
    unfold synchronize_states
    rw [synchronize_pressed_states_lock_records]
  rw [← h_sync]
  by_cases hr : lookup_hash_table
      (synchronize_states cfg { s with sent_any_events := false } event
        specified_logical_key).pressing_records
      (resolved_physical_key cfg event specified_logical_key) = 0
  · unfold fl_key_embedder_responder_handle_event
    rw [handle_event_impl_stale_release _ _ _ _ h hr]
    simp only []
    split <;> simp
  · rw [handle_event_of_real_event _ _ _ _ (Or.inr hr), handle_event_impl_release _ _ _ _ h hr]
    simp

/-- C26: `possibly_update_lock_bit` leaves the responder as it is when
`is_down` is false and when the logical key is not the logical key of a lock
key; for the logical key of a lock key with `is_down` true it replaces the
lock records by their xor with the lock bit of the key, which changes no
other bit, and applying it twice restores the responder. So the lock records
after the handling of a release event are the lock records before it with the
lock bit flipped once for each down event that the lock synchronizer has
synthesized. The lock keys have distinct logical keys. -/
theorem possibly_update_lock_bit_toggles (cfg : KeyMapping)
    (h_distinct :
      (cfg.lock_bit_to_checked_keys.map (fun entry => entry.2.primary_logical_key)).Nodup) :
    (∀ s l, possibly_update_lock_bit cfg s l false = s) ∧
    (∀ s l is_down,
      (∀ entry ∈ cfg.lock_bit_to_checked_keys, entry.2.primary_logical_key ≠ l) →
      possibly_update_lock_bit cfg s l is_down = s) ∧
    (∀ s, ∀ entry ∈ cfg.lock_bit_to_checked_keys,
      possibly_update_lock_bit cfg s entry.2.primary_logical_key true =
        { s with lock_records := s.lock_records ^^^ entry.1 } ∧
      ∀ i, entry.1.testBit i = false →
        (possibly_update_lock_bit cfg s entry.2.primary_logical_key true).lock_records.testBit i =
          s.lock_records.testBit i) ∧
    (∀ s l, possibly_update_lock_bit cfg (possibly_update_lock_bit cfg s l true) l true = s) ∧
    (∀ s event specified_logical_key received,
      event.is_press = false → s.engine = some received →
      ∃ lock_events : List FlutterKeyEvent,
        (synchronize_lock_states cfg { s with sent_any_events := false } event.state
          (event_to_timestamp event) event.is_press
          (resolved_logical_key cfg event specified_logical_key)).engine =
            some (received ++ lock_events) ∧
        (∀ e ∈ lock_events, e.synthesized = true) ∧
        (fl_key_embedder_responder_handle_event cfg s event
          specified_logical_key).1.lock_records =
            lock_records_after_events cfg lock_events s.lock_records) := by
  refine ⟨?_, ?_, ?_, ?_, ?_⟩
  · intro s l
    rfl
  · intro s l is_down h
    cases is_down
    · rfl
    · rw [possibly_update_lock_bit_eq, lookup_logical_key_to_lock_bit_of_not_mem cfg l h,
        Nat.xor_zero]
  · intro s entry h_mem
    rw [possibly_update_lock_bit_eq, lookup_logical_key_to_lock_bit_of_mem cfg h_distinct _ h_mem]
    refine ⟨rfl, ?_⟩
    intro i hi
    simp [Nat.testBit_xor, hi]
  · intro s l
    rw [possibly_update_lock_bit_eq, possibly_update_lock_bit_eq]
    simp [Nat.xor_assoc]
  · intro s event specified_logical_key received h_release h_engine
    obtain ⟨lock_events, h1, h2, h3⟩ := synchronize_lock_states_lock_records cfg
      { s with sent_any_events := false } event.state (event_to_timestamp event) event.is_press
      (resolved_logical_key cfg event specified_logical_key) received h_engine
    exact ⟨lock_events, h1, h2, by rw [handle_event_release_lock_records _ _ _ _ h_release, h3]⟩

set_option maxRecDepth 20000 in
/-- C26 (witness): in the GTK key mapping a down event of the NumLock key
flips the bit 16 of the lock records, and the release of the A key with the
NumLock bit set on the fresh responder leaves the lock records with the bit
16 that the synthesized NumLock down event has flipped. -/
theorem possibly_update_lock_bit_toggles_witness :
    (key_mapping.lock_bit_to_checked_keys.map
      (fun entry => entry.2.primary_logical_key)).Nodup ∧
    (possibly_update_lock_bit key_mapping (fl_key_embedder_responder_new (some []))
      0x10000010a true).lock_records = 16 ∧
    (fl_key_embedder_responder_handle_event key_mapping
      (fl_key_embedder_responder_new (some [])) ⟨1, false, 0x26, 0x61, 16⟩ 0).1.lock_records =
      16 := by
  have h := possibly_update_lock_bit_toggles key_mapping (by decide)
  refine ⟨by decide, ?_, by decide⟩
  rw [(h.2.2.1 (fl_key_embedder_responder_new (some []))
    (16, ⟨0x70053, 0x10000010a, 0, false⟩) (by decide)).1]
  rfl

/-! ## The mapping records only grow -/

theorem g_hash_table_insert_keeps_keys (t : GHashTable) (k v l : Nat)
    (h : (g_hash_table_lookup t l).isSome = true) :
    (g_hash_table_lookup (g_hash_table_insert t k v) l).isSome = true := by
  rw [g_hash_table_lookup_insert]
  split
  · rfl
  · exact h

theorem synchronizer_step_mapping_records {cfg : KeyMapping} {s s1 : FlKeyEmbedderResponder}
    (h : SynchronizerStep cfg s s1) (l : Nat)
    (hl : (g_hash_table_lookup s.mapping_records l).isSome = true) :
    (g_hash_table_lookup s1.mapping_records l).isSome = true := by
  cases h with
  | failed_check a => simpa using hl
  | inferrence d e st => simpa using hl
  | lock_stage modifier_bit checked_key recorded timestamp current_stage =>
    rw [(synchronize_lock_states_stage_records cfg _ _ _ _ _ _).2.2]
    split
    · exact g_hash_table_insert_keeps_keys _ _ _ _ hl
    · exact hl
  | modifier_release modifier_bit checked_key logical_key timestamp =>
    simpa [synchronize_pressed_states_release] using hl
  | modifier_press modifier_bit checked_key timestamp =>
    unfold synchronize_pressed_states_press
    simp only [update_pressing_state_mapping_records, synthesize_simple_event_mapping_records]
    split
    · exact g_hash_table_insert_keeps_keys _ _ _ _ hl
    · exact hl

theorem synchronizer_steps_mapping_records {cfg : KeyMapping} {s s1 : FlKeyEmbedderResponder}
    (h : SynchronizerSteps cfg s s1) (l : Nat)
    (hl : (g_hash_table_lookup s.mapping_records l).isSome = true) :
    (g_hash_table_lookup s1.mapping_records l).isSome = true := by
  induction h with
  | refl => exact hl
  | tail _ hstep ih => exact synchronizer_step_mapping_records hstep l ih

/-- The mapping records after one call of `handle_event`: those after the
synchronizers, with the logical key of the event bound to its physical key
when the event is a press. -/
theorem handle_event_mapping_records (cfg : KeyMapping) (s : FlKeyEmbedderResponder)
    (event : FlKeyEvent) (specified_logical_key : Nat) :
    (fl_key_embedder_responder_handle_event cfg s event
        specified_logical_key).1.mapping_records =
      if event.is_press = true then
        g_hash_table_insert
          (synchronize_states cfg { s with sent_any_events := false } event
            specified_logical_key).mapping_records
          (resolved_logical_key cfg event specified_logical_key)
          (resolved_physical_key cfg event specified_logical_key)
      else
        (synchronize_states cfg { s with sent_any_events := false } event
          specified_logical_key).mapping_records := by
  cases hp : event.is_press
  · rw [if_neg (by simp)]
    by_cases hr : lookup_hash_table
        (synchronize_states cfg { s with sent_any_events := false } event
          specified_logical_key).pressing_records
        (resolved_physical_key cfg event specified_logical_key) = 0
    · unfold fl_key_embedder_responder_handle_event
      rw [handle_event_impl_stale_release _ _ _ _ hp hr]
      simp only []
      split <;> simp
    · rw [handle_event_of_real_event _ _ _ _ (Or.inr hr),
        handle_event_impl_release _ _ _ _ hp hr]
      simp
  · rw [if_pos rfl, handle_event_of_real_event _ _ _ _ (Or.inl hp),
      handle_event_impl_press _ _ _ _ hp]
    simp only [fl_engine_send_key_event_mapping_records, update_mapping_record_mapping_records,
      possibly_update_lock_bit_mapping_records]
    split <;> simp

theorem call_mapping_records (cfg : KeyMapping) (s : FlKeyEmbedderResponder) (c : Call)
    (l : Nat) (hl : (g_hash_table_lookup s.mapping_records l).isSome = true) :
    (g_hash_table_lookup (call cfg s c).mapping_records l).isSome = true := by
  cases c with
  | handle_event event specified_logical_key =>
    show (g_hash_table_lookup (fl_key_embedder_responder_handle_event cfg s event
      specified_logical_key).1.mapping_records l).isSome = true
    have h_sync := synchronizer_steps_mapping_records
      (synchronize_states_steps cfg { s with sent_any_events := false } event
        specified_logical_key) l hl
    rw [handle_event_mapping_records]
    split
    · exact g_hash_table_insert_keeps_keys _ _ _ _ h_sync
    · exact h_sync
  | sync_modifiers_if_needed state event_time =>
    exact synchronizer_steps_mapping_records
      (synchronize_pressed_states_steps cfg s state _) l hl

/-- C27: no sequence of calls of `handle_event` and `sync_modifiers_if_needed`
removes a logical key from the mapping records, and after `handle_event` has
handled a press event the mapping records bind the logical key of the event
to its physical key, whatever they held for it before. -/
theorem mapping_records_grow (cfg : KeyMapping) (s : FlKeyEmbedderResponder) (cs : List Call)
    (event : FlKeyEvent) (specified_logical_key : Nat) (h_press : event.is_press = true) :
    (∀ l, (g_hash_table_lookup s.mapping_records l).isSome = true →
      (g_hash_table_lookup (calls cfg s cs).mapping_records l).isSome = true) ∧
    g_hash_table_lookup
      (fl_key_embedder_responder_handle_event cfg s event
        specified_logical_key).1.mapping_records
      (resolved_logical_key cfg event specified_logical_key) =
        some (resolved_physical_key cfg event specified_logical_key) := by
  constructor
  · intro l hl
    unfold calls
    induction cs generalizing s with
    | nil => exact hl
    | cons c rest ih =>
      rw [List.foldl_cons]
      exact ih _ (call_mapping_records cfg s c l hl)
  · rw [handle_event_mapping_records, if_pos h_press, g_hash_table_lookup_insert, if_pos rfl]

set_option maxRecDepth 20000 in
/-- C27 (witness): after the press of the A key with the keyval of the left
Shift key the mapping records keep the entry of the logical key 0x61 through
the release of the key and a call of `sync_modifiers_if_needed`, and the press
of the S key with the same keyval rebinds the logical key of the left Shift
key to it. -/
theorem mapping_records_grow_witness :
    (g_hash_table_lookup
      (calls key_mapping
        (fl_key_embedder_responder_handle_event key_mapping
          (fl_key_embedder_responder_new (some [])) ⟨1, true, 0x26, 0x61, 0⟩ 0).1
        [Call.handle_event ⟨2, false, 0x26, 0x61, 0⟩ 0,
          Call.sync_modifiers_if_needed 1 3]).mapping_records 0x61).isSome = true ∧
    g_hash_table_lookup
      (fl_key_embedder_responder_handle_event key_mapping
        (fl_key_embedder_responder_handle_event key_mapping
          (fl_key_embedder_responder_new (some [])) ⟨1, true, 0x26, 0xffe1, 0⟩ 0).1
        ⟨2, true, 0x27, 0xffe1, 1⟩ 0).1.mapping_records 0x200000102 = some 0x70016 := by
  refine ⟨?_, ?_⟩
  · exact (mapping_records_grow key_mapping
      (fl_key_embedder_responder_handle_event key_mapping
        (fl_key_embedder_responder_new (some [])) ⟨1, true, 0x26, 0x61, 0⟩ 0).1
      [Call.handle_event ⟨2, false, 0x26, 0x61, 0⟩ 0, Call.sync_modifiers_if_needed 1 3]
      ⟨1, true, 0x26, 0x61, 0⟩ 0 rfl).1 0x61 (by decide)
  · exact (mapping_records_grow key_mapping
      (fl_key_embedder_responder_handle_event key_mapping
        (fl_key_embedder_responder_new (some [])) ⟨1, true, 0x26, 0xffe1, 0⟩ 0).1 []
      ⟨2, true, 0x27, 0xffe1, 1⟩ 0 rfl).2

/-! ## A stale release without synthesized events -/

theorem synchronize_lock_states_release_inferrence (cfg : KeyMapping)
    (s : FlKeyEmbedderResponder) (state timestamp event_logical_key : Nat) :
    (synchronize_lock_states cfg s state timestamp false
      event_logical_key).caps_lock_state_logic_inferrence =
        s.caps_lock_state_logic_inferrence := by
  unfold synchronize_lock_states
  rcases synchronize_lock_states_entries_inferrence cfg state timestamp false event_logical_key
    cfg.lock_bit_to_checked_keys s with h | h
  · exact h
  · exact absurd h.2.1 (by simp)

/-- C32: when the physical key of a release event has no pressing record and
the two synchronizers synthesize nothing for the event, `handle_event` leaves
the pressing records, the mapping records, the lock records and the CapsLock
inference as they are; it completes the task with handled and sends the empty
event. -/
theorem stale_release_is_no_op (cfg : KeyMapping) (s : FlKeyEmbedderResponder)
    (event : FlKeyEvent) (specified_logical_key : Nat)
    (h_release : event.is_press = false)
    (h_absent : lookup_hash_table s.pressing_records
      (resolved_physical_key cfg event specified_logical_key) = 0)
    (h_nothing : (synchronize_states cfg { s with sent_any_events := false } event
      specified_logical_key).sent_any_events = false) :
    (fl_key_embedder_responder_handle_event cfg s event
      specified_logical_key).1.pressing_records = s.pressing_records ∧
    (fl_key_embedder_responder_handle_event cfg s event
      specified_logical_key).1.mapping_records = s.mapping_records ∧
    (fl_key_embedder_responder_handle_event cfg s event
      specified_logical_key).1.lock_records = s.lock_records ∧
    (fl_key_embedder_responder_handle_event cfg s event
      specified_logical_key).1.caps_lock_state_logic_inferrence =
        s.caps_lock_state_logic_inferrence ∧
    (fl_key_embedder_responder_handle_event cfg s event specified_logical_key).2 = some true ∧
    (fl_key_embedder_responder_handle_event cfg s event specified_logical_key).1.engine =
      s.engine.map (fun received => received ++ [kEmptyEvent]) := by
  obtain ⟨h_engine, h_pressing, h_mapping, h_lock⟩ := synchronize_states_of_not_sent cfg
    { s with sent_any_events := false } event specified_logical_key h_nothing
  have h_absent1 : lookup_hash_table
      (synchronize_states cfg { s with sent_any_events := false } event
        specified_logical_key).pressing_records
      (resolved_physical_key cfg event specified_logical_key) = 0 := by
    rw [h_pressing]
    exact h_absent
  have h_inferrence := handle_event_inferrence cfg s event specified_logical_key
  rw [h_release, synchronize_lock_states_release_inferrence] at h_inferrence
  have h_eq : fl_key_embedder_responder_handle_event cfg s event specified_logical_key =
      (fl_engine_send_key_event
        (synchronize_states cfg { s with sent_any_events := false } event
          specified_logical_key) kEmptyEvent, some true) := by
    unfold fl_key_embedder_responder_handle_event
    rw [handle_event_impl_stale_release _ _ _ _ h_release h_absent1]
    simp only [h_nothing, Bool.not_false, if_true]
  refine ⟨?_, ?_, ?_, h_inferrence, ?_, ?_⟩
  · rw [h_eq, fl_engine_send_key_event_pressing_records, h_pressing]
  · rw [h_eq, fl_engine_send_key_event_mapping_records, h_mapping]
  · rw [h_eq, fl_engine_send_key_event_lock_records, h_lock]
  · rw [h_eq]
  · rw [h_eq, fl_engine_send_key_event_engine, h_engine]

set_option maxRecDepth 20000 in
/-- C32 (witness): the release of the A key, which has no pressing record,
after the press of the S key leaves the records of the responder as they
are. -/
theorem stale_release_is_no_op_witness :
    (fl_key_embedder_responder_handle_event key_mapping
      (fl_key_embedder_responder_handle_event key_mapping
        (fl_key_embedder_responder_new (some [])) ⟨1, true, 0x27, 0x73, 0⟩ 0).1
      ⟨2, false, 0x26, 0x61, 0⟩ 0).1.pressing_records = [(0x70016, 0x73)] ∧
    (fl_key_embedder_responder_handle_event key_mapping
      (fl_key_embedder_responder_handle_event key_mapping
        (fl_key_embedder_responder_new (some [])) ⟨1, true, 0x27, 0x73, 0⟩ 0).1
      ⟨2, false, 0x26, 0x61, 0⟩ 0).1.mapping_records = [(0x73, 0x70016)] := by
  have h := stale_release_is_no_op key_mapping
    (fl_key_embedder_responder_handle_event key_mapping
      (fl_key_embedder_responder_new (some [])) ⟨1, true, 0x27, 0x73, 0⟩ 0).1
    ⟨2, false, 0x26, 0x61, 0⟩ 0 rfl (by decide) (by decide)
  exact ⟨h.1.trans (by decide), h.2.1.trans (by decide)⟩

/-! ## Pressed logical keys have a mapping record -/

theorem mem_of_g_hash_table_lookup (t : GHashTable) (k v : Nat)
    (h : g_hash_table_lookup t k = some v) : (k, v) ∈ t := by
  induction t with
  | nil => simp [g_hash_table_lookup] at h
  | cons kv rest ih =>
    obtain ⟨a, b⟩ := kv
    by_cases hk : a = k
    · simp only [g_hash_table_lookup, hk, if_true, Option.some.injEq] at h
      simp [hk, h]
    · simp only [g_hash_table_lookup, hk, if_false] at h
      exact List.mem_cons_of_mem _ (ih h)

theorem event_to_physical_key_ne_zero (cfg : KeyMapping) (h : physical_keys_nonzero cfg)
    (event : FlKeyEvent) : event_to_physical_key cfg event ≠ 0 := by
  unfold event_to_physical_key
  cases hl : g_hash_table_lookup cfg.xkb_to_physical_key_map event.keycode with
  | some found => exact h.2.1 _ (mem_of_g_hash_table_lookup _ _ _ hl)
  | none => exact or_ne_zero_of_right _ _ h.1

theorem corrected_physical_key_fold_ne_zero (entries : List (Nat × FlKeyEmbedderCheckedKey))
    (logical_key corrected : Nat) (h_corrected : corrected ≠ 0)
    (h : ∀ entry ∈ entries, entry.2.primary_physical_key ≠ 0) :
    entries.foldl
      (fun corrected_physical_key entry =>
        if entry.2.primary_logical_key = logical_key ∨
            entry.2.secondary_logical_key = logical_key then
          entry.2.primary_physical_key
        else corrected_physical_key) corrected ≠ 0 := by
  induction entries generalizing corrected with
  | nil => exact h_corrected
  | cons entry rest ih =>
    rw [List.foldl_cons]
    apply ih
    · split
      · exact h entry (List.mem_cons_self _ _)
      · exact h_corrected
    · exact fun e he => h e (List.mem_cons_of_mem _ he)

theorem resolved_physical_key_ne_zero (cfg : KeyMapping) (h : physical_keys_nonzero cfg)
    (event : FlKeyEvent) (specified_logical_key : Nat) :
    resolved_physical_key cfg event specified_logical_key ≠ 0 := by
  unfold resolved_physical_key corrected_modifier_physical_key
  simp only []
  split
  · exact corrected_physical_key_fold_ne_zero _ _ _ (event_to_physical_key_ne_zero cfg h event)
      h.2.2.1
  · exact event_to_physical_key_ne_zero cfg h event

theorem lookup_hash_table_insert_ne_zero (t : GHashTable) (k v l : Nat) (hv : v ≠ 0)
    (h : lookup_hash_table t l ≠ 0) : lookup_hash_table (g_hash_table_insert t k v) l ≠ 0 := by
  rw [lookup_hash_table_insert]
  split
  · exact hv
  · exact h

theorem synchronize_lock_states_stage_pressed_keys_mapped (cfg : KeyMapping)
    (h_cfg : physical_keys_nonzero cfg) (s : FlKeyEmbedderResponder) (modifier_bit : Nat)
    (checked_key : FlKeyEmbedderCheckedKey) (recorded timestamp stage : Nat)
    (h_entry : (modifier_bit, checked_key) ∈ cfg.lock_bit_to_checked_keys)
    (h_recorded : recorded = 0 ∨
      lookup_hash_table s.mapping_records checked_key.primary_logical_key = recorded)
    (h : pressed_keys_mapped s) :
    pressed_keys_mapped
      (synchronize_lock_states_stage cfg
        (if recorded ≠ 0 then recorded else checked_key.primary_physical_key)
        checked_key.primary_logical_key recorded timestamp stage s) := by
  have h_physical : (if recorded ≠ 0 then recorded else checked_key.primary_physical_key) ≠ 0 := by
    split
    · assumption
    · exact h_cfg.2.2.2 _ h_entry
  obtain ⟨h_pressing, _, h_mapping⟩ := synchronize_lock_states_stage_records cfg
    (if recorded ≠ 0 then recorded else checked_key.primary_physical_key)
    checked_key.primary_logical_key recorded timestamp stage s
  intro entry h_mem
  rw [h_pressing] at h_mem
  rw [h_mapping]
  rcases mem_update_pressing_state _ _ _ _ h_mem with h_old | ⟨h_nonzero, h_new⟩
  · split
    · exact lookup_hash_table_insert_ne_zero _ _ _ _ h_physical (h entry h_old)
    · exact h entry h_old
  · by_cases h_even : stage % 2 = 0
    · rw [if_pos h_even] at h_new
      subst h_new
      by_cases h0 : recorded = 0
      · rw [if_pos ⟨h_even, h0⟩, lookup_hash_table_insert, if_pos rfl]
        exact h_physical
      · rw [if_neg (fun hc => h0 hc.2)]
        rcases h_recorded with h_recorded | h_recorded
        · exact absurd h_recorded h0
        · show lookup_hash_table s.mapping_records checked_key.primary_logical_key ≠ 0
          rw [h_recorded]
          exact h0
    · rw [if_neg h_even] at h_nonzero
      exact absurd rfl h_nonzero

theorem synchronize_pressed_states_release_pressed_keys_mapped (s : FlKeyEmbedderResponder)
    (logical_key timestamp : Nat) (h : pressed_keys_mapped s) :
    pressed_keys_mapped (synchronize_pressed_states_release s logical_key timestamp) := by
  intro entry h_mem
  rw [synchronize_pressed_states_release_pressing_records] at h_mem
  have h_mapping : (synchronize_pressed_states_release s logical_key timestamp).mapping_records =
      s.mapping_records := by
    simp [synchronize_pressed_states_release]
  rw [h_mapping]
  rcases mem_update_pressing_state _ _ _ _ h_mem with h_old | ⟨h_nonzero, _⟩
  · exact h entry h_old
  · exact absurd rfl h_nonzero

theorem synchronize_pressed_states_press_pressed_keys_mapped (cfg : KeyMapping)
    (h_cfg : physical_keys_nonzero cfg) (s : FlKeyEmbedderResponder) (modifier_bit : Nat)
    (checked_key : FlKeyEmbedderCheckedKey) (timestamp : Nat)
    (h_entry : (modifier_bit, checked_key) ∈ cfg.modifier_bit_to_checked_keys)
    (h : pressed_keys_mapped s) :
    pressed_keys_mapped (synchronize_pressed_states_press s checked_key timestamp) := by
  have h_physical : checked_key.primary_physical_key ≠ 0 := h_cfg.2.2.1 _ h_entry
  have h_mapping : (synchronize_pressed_states_press s checked_key timestamp).mapping_records =
      if lookup_hash_table s.mapping_records checked_key.primary_logical_key = 0 then
        g_hash_table_insert s.mapping_records checked_key.primary_logical_key
          (chosen_physical_key s checked_key)
      else s.mapping_records := by
    unfold synchronize_pressed_states_press
    simp only [update_pressing_state_mapping_records, synthesize_simple_event_mapping_records]
    split <;> simp
  intro entry h_mem
  rw [synchronize_pressed_states_press_pressing_records] at h_mem
  rw [h_mapping]
  rcases mem_update_pressing_state _ _ _ _ h_mem with h_old | ⟨_, h_new⟩
  · split
    · exact lookup_hash_table_insert_ne_zero _ _ _ _
        (chosen_physical_key_ne_zero s checked_key h_physical) (h entry h_old)
    · exact h entry h_old
  · subst h_new
    split
    · rw [lookup_hash_table_insert, if_pos rfl]
      exact chosen_physical_key_ne_zero s checked_key h_physical
    · assumption

/-- The two synchronizers keep a mapping record for every pressed logical key
and do not log a failure of the check of the recorded physical key. -/
theorem synchronize_states_pressed_keys_mapped (cfg : KeyMapping)
    (h_cfg : physical_keys_nonzero cfg) (s : FlKeyEmbedderResponder) (event : FlKeyEvent)
    (specified_logical_key : Nat)
    (h : pressed_keys_mapped s ∧
      s.g_critical.count Assertion.modifier_recorded_physical_key = 0) :
    pressed_keys_mapped (synchronize_states cfg s event specified_logical_key) ∧
    (synchronize_states cfg s event specified_logical_key).g_critical.count
      Assertion.modifier_recorded_physical_key = 0 := by
  unfold synchronize_states
  refine synchronize_pressed_states_induction cfg
    (fun s1 => pressed_keys_mapped s1 ∧
      s1.g_critical.count Assertion.modifier_recorded_physical_key = 0)
    ?_ ?_ ?_ ?_ _ _ _ ?_
  · rintro s1 ⟨h1, h2⟩
    refine ⟨h1, ?_⟩
    simp [g_return_if_fail_warning, h2]
  · rintro s1 l _ h_pressed h_none ⟨h1, _⟩
    obtain ⟨entry, h_mem, h_eq⟩ := List.mem_map.1 h_pressed
    exact absurd (h_eq ▸ h_none) (h1 entry h_mem)
  · rintro s1 _ _ l t _ _ _ _ _ ⟨h1, h2⟩
    refine ⟨synchronize_pressed_states_release_pressed_keys_mapped s1 l t h1, ?_⟩
    unfold synchronize_pressed_states_release
    rw [update_pressing_state_g_critical_count _ _ _ _ (by decide) (by decide)]
    simpa using h2
  · rintro s1 modifier_bit checked_key t h_entry _ _ ⟨h1, h2⟩
    refine ⟨synchronize_pressed_states_press_pressed_keys_mapped cfg h_cfg s1 modifier_bit
      checked_key t h_entry h1, ?_⟩
    unfold synchronize_pressed_states_press
    rw [update_pressing_state_g_critical_count _ _ _ _ (by decide) (by decide)]
    simp only [synthesize_simple_event_g_critical]
    split <;> simpa using h2
  · refine synchronize_lock_states_induction cfg
      (fun s1 => pressed_keys_mapped s1 ∧
        s1.g_critical.count Assertion.modifier_recorded_physical_key = 0)
      ?_ ?_ ?_ s _ _ _ _ h
    · rintro s1 a ha ⟨h1, h2⟩
      refine ⟨h1, ?_⟩
      have h_ne : a ≠ Assertion.modifier_recorded_physical_key := by
        intro h_eq
        subst h_eq
        simp at ha
      simp only [g_return_if_fail_warning, List.count_append, h2, Nat.zero_add]
      rw [List.count_eq_zero]
      simpa using h_ne.symm
    · rintro s1 d e st ⟨h1, h2⟩
      refine ⟨?_, by simpa using h2⟩
      intro entry h_mem
      simp only [update_caps_lock_pressing_records] at h_mem
      simpa using h1 entry h_mem
    · rintro s1 modifier_bit checked_key recorded t stage h_entry h_recorded ⟨h1, h2⟩
      refine ⟨synchronize_lock_states_stage_pressed_keys_mapped cfg h_cfg s1 modifier_bit
        checked_key recorded t stage h_entry h_recorded h1, ?_⟩
      rw [synchronize_lock_states_stage_g_critical_count _ _ _ _ _ _ _ _ (by decide) (by decide)]
      exact h2

theorem handle_event_pressed_keys_mapped (cfg : KeyMapping) (h_cfg : physical_keys_nonzero cfg)
    (s : FlKeyEmbedderResponder) (event : FlKeyEvent) (specified_logical_key : Nat)
    (h : pressed_keys_mapped s ∧
      s.g_critical.count Assertion.modifier_recorded_physical_key = 0) :
    pressed_keys_mapped
      (fl_key_embedder_responder_handle_event cfg s event specified_logical_key).1 ∧
    (fl_key_embedder_responder_handle_event cfg s event specified_logical_key).1.g_critical.count
      Assertion.modifier_recorded_physical_key = 0 := by
  obtain ⟨h1, h2⟩ := synchronize_states_pressed_keys_mapped cfg h_cfg
    { s with sent_any_events := false } event specified_logical_key h
  have h_physical := resolved_physical_key_ne_zero cfg h_cfg event specified_logical_key
  have h_mapping := handle_event_mapping_records cfg s event specified_logical_key
  cases hp : event.is_press
  · rw [hp, if_neg (by simp)] at h_mapping
    by_cases hr : lookup_hash_table
        (synchronize_states cfg { s with sent_any_events := false } event
          specified_logical_key).pressing_records
        (resolved_physical_key cfg event specified_logical_key) = 0
    · have h_eq : ∀ s2, (if (!(synchronize_states cfg { s with sent_any_events := false } event
            specified_logical_key).sent_any_events) = true then
            (fl_engine_send_key_event (synchronize_states cfg { s with sent_any_events := false }
              event specified_logical_key) kEmptyEvent, some true)
          else (synchronize_states cfg { s with sent_any_events := false } event
              specified_logical_key, some true)) = s2 →
          pressed_keys_mapped s2.1 ∧
          s2.1.g_critical.count Assertion.modifier_recorded_physical_key = 0 := by
        intro s2 h_s2
        subst h_s2
        split
        · refine ⟨?_, by simpa using h2⟩
          intro entry h_mem
          simp only [fl_engine_send_key_event_pressing_records] at h_mem
          simpa using h1 entry h_mem
        · exact ⟨h1, h2⟩
      apply h_eq
      unfold fl_key_embedder_responder_handle_event
      rw [handle_event_impl_stale_release _ _ _ _ hp hr]
    · constructor
      · intro entry h_mem
        rw [h_mapping]
        rw [handle_event_of_real_event _ _ _ _ (Or.inr hr),
          handle_event_impl_release _ _ _ _ hp hr] at h_mem
        simp only [fl_engine_send_key_event_pressing_records] at h_mem
        rcases mem_update_pressing_state _ _ _ _ h_mem with h_old | ⟨h_nonzero, _⟩
        · exact h1 entry h_old
        · exact absurd rfl h_nonzero
      · rw [handle_event_of_real_event _ _ _ _ (Or.inr hr),
          handle_event_impl_release _ _ _ _ hp hr]
        simp only [fl_engine_send_key_event_g_critical]
        rw [update_pressing_state_g_critical_count _ _ _ _ (by decide) (by decide)]
        exact h2
  · rw [hp, if_pos rfl] at h_mapping
    constructor
    · intro entry h_mem
      rw [h_mapping]
      rw [handle_event_of_real_event _ _ _ _ (Or.inl hp),
        handle_event_impl_press _ _ _ _ hp] at h_mem
      simp only [fl_engine_send_key_event_pressing_records,
        update_mapping_record_pressing_records,
        possibly_update_lock_bit_pressing_records] at h_mem
      split at h_mem
      · exact lookup_hash_table_insert_ne_zero _ _ _ _ h_physical (h1 entry h_mem)
      · rcases mem_update_pressing_state _ _ _ _ h_mem with h_old | ⟨_, h_new⟩
        · exact lookup_hash_table_insert_ne_zero _ _ _ _ h_physical (h1 entry h_old)
        · subst h_new
          rw [lookup_hash_table_insert, if_pos rfl]
          exact h_physical
    · rw [handle_event_of_real_event _ _ _ _ (Or.inl hp), handle_event_impl_press _ _ _ _ hp]
      simp only [fl_engine_send_key_event_g_critical, update_mapping_record_g_critical,
        possibly_update_lock_bit_g_critical]
      split
      · exact h2
      · rw [update_pressing_state_g_critical_count _ _ _ _ (by decide) (by decide)]
        exact h2

theorem call_pressed_keys_mapped (cfg : KeyMapping) (h_cfg : physical_keys_nonzero cfg)
    (s : FlKeyEmbedderResponder) (c : Call)
    (h : pressed_keys_mapped s ∧
      s.g_critical.count Assertion.modifier_recorded_physical_key = 0) :
    pressed_keys_mapped (call cfg s c) ∧
    (call cfg s c).g_critical.count Assertion.modifier_recorded_physical_key = 0 := by
  cases c with
  | handle_event event specified_logical_key =>
    exact handle_event_pressed_keys_mapped cfg h_cfg s event specified_logical_key h
  | sync_modifiers_if_needed state event_time =>
    show pressed_keys_mapped (synchronize_pressed_states cfg s state _) ∧ _
    refine synchronize_pressed_states_induction cfg
      (fun s1 => pressed_keys_mapped s1 ∧
        s1.g_critical.count Assertion.modifier_recorded_physical_key = 0)
      ?_ ?_ ?_ ?_ s _ _ h
    · rintro s1 ⟨h1, h2⟩
      refine ⟨h1, ?_⟩
      simp [g_return_if_fail_warning, h2]
    · rintro s1 l _ h_pressed h_none ⟨h1, _⟩
      obtain ⟨entry, h_mem, h_eq⟩ := List.mem_map.1 h_pressed
      exact absurd (h_eq ▸ h_none) (h1 entry h_mem)
    · rintro s1 _ _ l t _ _ _ _ _ ⟨h1, h2⟩
      refine ⟨synchronize_pressed_states_release_pressed_keys_mapped s1 l t h1, ?_⟩
      unfold synchronize_pressed_states_release
      rw [update_pressing_state_g_critical_count _ _ _ _ (by decide) (by decide)]
      simpa using h2
    · rintro s1 modifier_bit checked_key t h_entry _ _ ⟨h1, h2⟩
      refine ⟨synchronize_pressed_states_press_pressed_keys_mapped cfg h_cfg s1 modifier_bit
        checked_key t h_entry h1, ?_⟩
      unfold synchronize_pressed_states_press
      rw [update_pressing_state_g_critical_count _ _ _ _ (by decide) (by decide)]
      simp only [synthesize_simple_event_g_critical]
      split <;> simpa using h2

/-- C28: after every sequence of calls of `handle_event` and
`sync_modifiers_if_needed` on the fresh responder, every logical key that is a
value of the pressing records has a mapping record that is not 0, and the
check `recorded_physical_key != 0` of `synchronize_pressed_states` has not
failed; the physical keys of the key mapping are not 0. -/
theorem pressed_keys_have_mapping_records (cfg : KeyMapping)
    (h_cfg : physical_keys_nonzero cfg) (engine : Option (List FlutterKeyEvent))
    (cs : List Call) :
    (∀ entry ∈ (calls cfg (fl_key_embedder_responder_new engine) cs).pressing_records,
      lookup_hash_table (calls cfg (fl_key_embedder_responder_new engine) cs).mapping_records
        entry.2 ≠ 0) ∧
    Assertion.modifier_recorded_physical_key ∉
      (calls cfg (fl_key_embedder_responder_new engine) cs).g_critical := by
  have key : ∀ (cs : List Call) (s : FlKeyEmbedderResponder),
      pressed_keys_mapped s ∧
        s.g_critical.count Assertion.modifier_recorded_physical_key = 0 →
      pressed_keys_mapped (calls cfg s cs) ∧
        (calls cfg s cs).g_critical.count Assertion.modifier_recorded_physical_key = 0 := by
    intro cs
    induction cs with
    | nil => intro s h; exact h
    | cons c rest ih =>
      intro s h
      exact ih _ (call_pressed_keys_mapped cfg h_cfg s c h)
  obtain ⟨h1, h2⟩ := key cs (fl_key_embedder_responder_new engine)
    ⟨by intro entry h_mem; simp [fl_key_embedder_responder_new] at h_mem, rfl⟩
  exact ⟨h1, List.count_eq_zero.1 h2⟩

set_option maxRecDepth 20000 in
/-- C28 (witness): in the GTK key mapping, after the press of the left Shift
key and the press of the A key with the Shift bit set the logical keys of the
two pressing records have a mapping record. -/
theorem pressed_keys_have_mapping_records_witness :
    physical_keys_nonzero key_mapping ∧
    (calls key_mapping (fl_key_embedder_responder_new (some []))
      [Call.handle_event ⟨1, true, 0x32, 0xffe1, 0⟩ 0,
        Call.handle_event ⟨2, true, 0x26, 0x41, 1⟩ 0]).pressing_records =
      [(0x70004, 0x61), (0x700e1, 0x200000102)] ∧
    lookup_hash_table
      (calls key_mapping (fl_key_embedder_responder_new (some []))
        [Call.handle_event ⟨1, true, 0x32, 0xffe1, 0⟩ 0,
          Call.handle_event ⟨2, true, 0x26, 0x41, 1⟩ 0]).mapping_records 0x61 ≠ 0 :=
  ⟨by decide, by decide,
    (pressed_keys_have_mapping_records key_mapping (by decide) (some [])
      [Call.handle_event ⟨1, true, 0x32, 0xffe1, 0⟩ 0,
        Call.handle_event ⟨2, true, 0x26, 0x41, 1⟩ 0]).1 (0x70004, 0x61) (by decide)⟩

/-! ## The lock keys after the key of the event -/

set_option maxRecDepth 20000 in
/-- C29 (the code at the failing inputs): the NumLock key is pressed on the
fresh responder with its bit clear, which records it as pressed on its
physical key with its lock bit set; then the CapsLock key is released with the
NumLock bit clear. The NumLock key is not the key of the event and its
physical key is held under its own logical key, so it is due to be released
and its lock bit to be cleared; but the check that the CapsLock inference is
decided fails for the CapsLock key, `synchronize_lock_states` returns before
the NumLock key, and the NumLock key stays pressed with its lock bit set. The
release of the A key with the same bitmask synthesizes the three events that
release it and clear its lock bit. With the NumLock bit set, the release of the
CapsLock key on the fresh responder leaves the recorded stage of the NumLock
key at 0 without a down event. -/
theorem synchronize_lock_states_skips_later_lock_keys :
    let num_lock : FlKeyEmbedderCheckedKey := ⟨0x70053, 0x10000010a, 0, false⟩
    let s0 := fl_key_embedder_responder_new (some [])
    let s1 := (fl_key_embedder_responder_handle_event key_mapping s0
      ⟨1, true, 0x4d, 0xff7f, 0⟩ 0).1
    let s2 := synchronize_lock_states key_mapping { s1 with sent_any_events := false } 0 2000
      false 0x100000104
    let s3 := (fl_key_embedder_responder_handle_event key_mapping s1
      ⟨2, false, 0x42, 0xffe5, 0⟩ 0).1
    let s4 := synchronize_lock_states key_mapping { s1 with sent_any_events := false } 0 2000
      false 0x61
    let s5 := synchronize_lock_states key_mapping s0 0x10 1000 false 0x100000104
    (16, num_lock) ∈ key_mapping.lock_bit_to_checked_keys ∧
    resolved_logical_key key_mapping ⟨2, false, 0x42, 0xffe5, 0⟩ 0 = 0x100000104 ∧
    num_lock.primary_logical_key ≠ 0x100000104 ∧
    (s1.pressing_records = [(0x70053, 0x10000010a)] ∧ s1.lock_records = 16 ∧
      lookup_hash_table s1.pressing_records (chosen_physical_key s1 num_lock) =
        num_lock.primary_logical_key ∧
      lock_stage_by_record s1 16 num_lock = 1) ∧
    (s2.engine = s1.engine ∧ s2.pressing_records = [(0x70053, 0x10000010a)] ∧
      s2.lock_records &&& 16 = 16 ∧ lock_stage_by_record s2 16 num_lock = 1 ∧
      s2.g_critical = [Assertion.lock_inferrence_decided]) ∧
    (s3.pressing_records = [(0x70053, 0x10000010a)] ∧ s3.lock_records &&& 16 = 16 ∧
      s3.engine = s1.engine.map (fun received => received ++ [kEmptyEvent])) ∧
    (s4.engine = s1.engine.map (fun received => received ++
        [⟨2000, kFlutterKeyEventTypeUp, 0x70053, 0x10000010a, none, true⟩,
          ⟨2000, kFlutterKeyEventTypeDown, 0x70053, 0x10000010a, none, true⟩,
          ⟨2000, kFlutterKeyEventTypeUp, 0x70053, 0x10000010a, none, true⟩]) ∧
      s4.pressing_records = [] ∧ s4.lock_records &&& 16 = 0) ∧
    (lock_stage_by_record s0 16 num_lock = 0 ∧ s5.engine = some [] ∧
      lock_stage_by_record s5 16 num_lock = 0) := by
  decide

/-! ## Events without a logical key -/

set_option maxRecDepth 20000 in
/-- C31 (the code at the failing input): on the fresh responder the A key is
pressed with the keyval of the left Shift key, the S key is pressed with the
same keyval and released, and the A key is released with the Shift bit clear;
every raw event resolves to a physical key and a logical key that are not 0.
For the last event the modifier synchronizer finds the logical key of the left
Shift key pressed by record and takes the physical key of the S key from the
mapping record, which has no pressing record any more: the up event it
synthesizes carries the logical key 0, and the removal check of
`update_pressing_state` fails. -/
theorem synchronize_pressed_states_sends_logical_key_zero :
    let s0 : FlKeyEmbedderResponder := fl_key_embedder_responder_new (some [])
    let s3 := calls key_mapping s0
      [Call.handle_event ⟨1, true, 0x26, 0xffe1, 0⟩ 0,
        Call.handle_event ⟨2, true, 0x27, 0xffe1, 1⟩ 0,
        Call.handle_event ⟨3, false, 0x27, 0xffe1, 1⟩ 0]
    let s4 := call key_mapping s3 (Call.handle_event ⟨4, false, 0x26, 0xffe1, 0⟩ 0)
    (resolved_physical_key key_mapping ⟨1, true, 0x26, 0xffe1, 0⟩ 0 = 0x70004 ∧
      resolved_physical_key key_mapping ⟨2, true, 0x27, 0xffe1, 1⟩ 0 = 0x70016 ∧
      resolved_physical_key key_mapping ⟨3, false, 0x27, 0xffe1, 1⟩ 0 = 0x70016 ∧
      resolved_physical_key key_mapping ⟨4, false, 0x26, 0xffe1, 0⟩ 0 = 0x70004 ∧
      resolved_logical_key key_mapping ⟨1, true, 0x26, 0xffe1, 0⟩ 0 = 0x200000102 ∧
      resolved_logical_key key_mapping ⟨2, true, 0x27, 0xffe1, 1⟩ 0 = 0x200000102 ∧
      resolved_logical_key key_mapping ⟨3, false, 0x27, 0xffe1, 1⟩ 0 = 0x200000102 ∧
      resolved_logical_key key_mapping ⟨4, false, 0x26, 0xffe1, 0⟩ 0 = 0x200000102) ∧
    (s3.pressing_records = [(0x70004, 0x200000102)] ∧
      s3.mapping_records = [(0x200000102, 0x70016)] ∧ s3.g_critical = [] ∧
      lookup_hash_table s3.pressing_records 0x70016 = 0) ∧
    (synchronize_pressed_states key_mapping s3 0 4000).engine =
      s3.engine.map (fun received => received ++
        [⟨4000, kFlutterKeyEventTypeUp, 0x70016, 0, none, true⟩]) ∧
    s4.engine = s3.engine.map (fun received => received ++
      [⟨4000, kFlutterKeyEventTypeUp, 0x70016, 0, none, true⟩,
        ⟨4000, kFlutterKeyEventTypeUp, 0x70004, 0x200000102, none, false⟩]) ∧
    s4.g_critical = [Assertion.pressing_key_down] := by
  decide

end FlKeyEmbedder
